import Mathlib

/-!
# The mm3 sector-stream reader (`apps/mm3/base/filesource.c`)

A shallow embedding of `get_sector`, `resync`, `get_next_sector_byte` and
`get_next_dblk`, followed by theorems about them.

Conventions of the embedding

* bytes and machine integers are `Nat`; every place where a C variable can wrap
  carries its reduction (`% 65536` for `uint16_t`, `% 256` for `uint8_t`);
* the file descriptor is the list of results the successive `read` calls give;
* the four file-level statics form `State`; `cur_sector_ptr` is kept as its
  offset from the start of `sector_data`, the only array it ever points into;
* a call either returns, ends the process through `exit`, touches memory outside
  an array, or (for the unbounded `for (;;)` of `resync`) runs out of fuel;
* the constants, the table and the message-field layouts that come from headers
  which are not in the source tree are the fields of `Config`;
* `new_tmsg` is taken to succeed, and what is printed to `stderr` is left out.
-/

namespace MM

/-! ## Constants defined in filesource.c and mm3dump.h -/

def SECTOR_SIZE : Nat := 512
def SEQ_OFF : Nat := 508
def CHKSUM_OFF : Nat := 510
def OVERHEAD : Nat := 4
def SYNC_MAJIK : Nat := 0xdedf00ef
def RESYNC_USE_CUR : Nat := 0
def RESYNC_IGNORE_CUR : Nat := 1

/-- Return codes, `gs_rtn_t` (filesource.c lines 30-37). -/
inductive gs_rtn_t where
  | GS_OK
  | GS_EOF
  | GS_CHKSUM_FAIL
  | GS_SEQ_FAIL
  | GS_BAD_DBLK
  | GS_RESYNC
  deriving DecidableEq, Repr

open gs_rtn_t

/-! ## The message library (`tmsg_t`) and the generated field accessors -/

/-- A field of a generated message layout: byte offset, width in bytes and
byte order (`le = true` for a little-endian field, else big-endian). -/
structure Field where
  offset : Nat
  size : Nat
  le : Bool
  deriving DecidableEq, Repr

/-- A `tmsg_t`: a pointer (kept as an index into the array it points into) and
a length in bytes. -/
structure tmsg_t where
  data : Nat
  len : Nat
  deriving DecidableEq, Repr

/-- Value of the bytes of a field, most significant byte first unless `f.le`. -/
def field_decode (f : Field) (bs : List Nat) : Nat :=
  if f.le then bs.foldr (fun b acc => b + 256 * acc) 0
  else bs.foldl (fun acc b => 256 * acc + b) 0

/-- The `f.size` bytes that hold the low bits of `v`. -/
def field_encode (f : Field) (v : Nat) : List Nat :=
  let lsb_first := (List.range f.size).map (fun i => (v / 256 ^ i) % 256)
  if f.le then lsb_first else lsb_first.reverse

/-- Message-library read of a field (`tmsg_read_ube` / `tmsg_read_ule` behind a
generated `..._get`): a field that does not fit in the message reads as 0; a
field inside the message but outside the underlying array `mem` is an
out-of-bounds access (`none`). -/
def tmsg_read (mem : List Nat) (msg : tmsg_t) (f : Field) : Option Nat :=
  if f.offset + f.size ≤ msg.len then
    if msg.data + f.offset + f.size ≤ mem.length then
      some (field_decode f ((mem.drop (msg.data + f.offset)).take f.size))
    else none
  else some 0

/-- Message-library write of a field (behind a generated `..._set`): a field
that does not fit in the message is not written; `none` is an out-of-bounds
access. -/
def tmsg_write (mem : List Nat) (msg : tmsg_t) (f : Field) (v : Nat) : Option (List Nat) :=
  if f.offset + f.size ≤ msg.len then
    if msg.data + f.offset + f.size ≤ mem.length then
      some (mem.take (msg.data + f.offset) ++ field_encode f v
              ++ mem.drop (msg.data + f.offset + f.size))
    else none
  else some mem

/-- Store one byte through a pointer; `none` when the index is outside the array. -/
def poke (mem : List Nat) (i : Nat) (v : Nat) : Option (List Nat) :=
  if i < mem.length then some (mem.set i v) else none

/-- What filesource.c takes from headers that are not in the source tree
(SDConstants.h, SensorConstants.h, DtSyncMsg.h, DtSensorDataMsg.h,
mm3DataMsg.h, serialpacket.h, serialprotocol.h) and the table
`sns_payload_len` it declares but does not define. -/
structure Config where
  DT_IGNORE : Nat
  DT_SYNC : Nat
  DT_SYNC_RESTART : Nat
  DT_PANIC : Nat
  DT_SENSOR_DATA : Nat
  DT_TEST : Nat
  DT_GPS_RAW : Nat
  DT_VERSION : Nat
  DT_MAX : Nat
  DT_HDR_SIZE_SYNC : Nat
  DT_HDR_SIZE_PANIC : Nat
  DT_HDR_SIZE_SENSOR_DATA : Nat
  DT_HDR_SIZE_VERSION : Nat
  MM3_NUM_SENSORS : Nat
  sns_payload_len : List Nat
  DT_SYNC_SIZE : Nat
  dt_sync_len : Field
  dt_sync_dtype : Field
  dt_sync_sync_majik : Field
  dt_sensor_data_sns_id : Field
  SPACKET_SIZE : Nat
  spacket_data_offset : Nat
  spacket_header_dest : Field
  spacket_header_src : Field
  spacket_header_length : Field
  spacket_header_group : Field
  spacket_header_type : Field
  SERIAL_TOS_SERIAL_ACTIVE_MESSAGE_ID : Nat
  MM3_DATA_MSG_AM_TYPE : Nat

/-- The case labels of the `switch` in `get_next_dblk`, in source order. -/
def Config.case_labels (cfg : Config) : List Nat :=
  [cfg.DT_IGNORE, cfg.DT_SYNC, cfg.DT_SYNC_RESTART, cfg.DT_PANIC,
   cfg.DT_SENSOR_DATA, cfg.DT_TEST, cfg.DT_GPS_RAW, cfg.DT_VERSION]

/-- Facts every build of filesource.c has: the case labels of a `switch` are
distinct, the array `sns_payload_len` has `MM3_NUM_SENSORS` entries, and the
payload of a serial packet starts right after its `SPACKET_SIZE`-byte header. -/
def Config.wf (cfg : Config) : Prop :=
  cfg.case_labels.Nodup ∧
  cfg.sns_payload_len.length = cfg.MM3_NUM_SENSORS ∧
  cfg.spacket_data_offset = cfg.SPACKET_SIZE

instance (cfg : Config) : Decidable cfg.wf := by
  unfold Config.wf; infer_instance

/-! ## Process model -/

/-- Result of one `read(fd, dbuff, SECTOR_SIZE)`. -/
inductive ReadResult where
  | error
  | bytes (bs : List Nat)
  deriving DecidableEq, Repr

/-- The file behind `fd`: what the successive `read` calls deliver; once the
list is used up `read` returns 0. -/
abbrev Source := List ReadResult

/-- The persistent data of filesource.c (lines 81-85). -/
structure State where
  sector_data : List Nat
  cur_sector_ptr : Nat
  remaining_bytes : Nat
  cur_seq : Nat
  deriving DecidableEq, Repr

/-- The statics as the C initialisers leave them: a zeroed buffer, no unread
bytes, `cur_seq = (uint16_t) -1`.  The null `cur_sector_ptr` is never
dereferenced before a sector is loaded; it is kept as offset 0. -/
def State.init : State :=
  { sector_data := List.replicate SECTOR_SIZE 0
    cur_sector_ptr := 0
    remaining_bytes := 0
    cur_seq := 65535 }

/-- How a call ends. -/
inductive Outcome (α : Type) where
  | ret (a : α)
  | exit (code : Nat)
  | oob
  | nofuel
  deriving DecidableEq, Repr

/-- Sequencing: only a call that returned is continued. -/
def Outcome.bind {α β : Type} (x : Outcome α) (f : α → Outcome β) : Outcome β :=
  match x with
  | .ret a => f a
  | .exit c => .exit c
  | .oob => .oob
  | .nofuel => .nofuel

/-- An out-of-bounds access ends the defined behaviour. -/
def Outcome.ofOption {α : Type} : Option α → Outcome α
  | some a => .ret a
  | none => .oob

/-! ## get_sector (filesource.c lines 100-157) -/

/-- The `uint16_t` running sum of the first `SECTOR_SIZE - 2` bytes. -/
def running_sum (dbuff : List Nat) : Nat :=
  (dbuff.take (SECTOR_SIZE - 2)).foldl (fun s b => (s + b) % 65536) 0

/-- The stored checksum `dbuff[CHKSUM_OFF] + (dbuff[CHKSUM_OFF + 1] << 8)`, as `uint16_t`. -/
def chksum (dbuff : List Nat) : Nat :=
  (dbuff.getD CHKSUM_OFF 0 + dbuff.getD (CHKSUM_OFF + 1) 0 * 256) % 65536

/-- The stored sequence number `dbuff[SEQ_OFF] + (dbuff[SEQ_OFF + 1] << 8)`, as `uint16_t`. -/
def sector_seq (dbuff : List Nat) : Nat :=
  (dbuff.getD SEQ_OFF 0 + dbuff.getD (SEQ_OFF + 1) 0 * 256) % 65536

/-- One call of `get_sector(fd, sector_data)`. -/
def get_sector (st : State) (fd : Source) : Outcome (gs_rtn_t × State × Source) :=
  match fd with
  | [] => .exit 1
  | .error :: _ => .exit 1
  | .bytes dbuff :: fd =>
    if dbuff.length = 0 then .exit 1
    else if dbuff.length ≠ SECTOR_SIZE then .exit 1
    else
      let st := { st with sector_data := dbuff }
      if chksum dbuff ≠ running_sum dbuff then .ret (GS_CHKSUM_FAIL, st, fd)
      else
        let st := { st with cur_seq := (st.cur_seq + 1) % 65536 }
        if st.cur_seq ≠ sector_seq dbuff then .ret (GS_SEQ_FAIL, st, fd)
        else
          .ret (GS_OK, { st with cur_sector_ptr := 0,
                                 remaining_bytes := SECTOR_SIZE - OVERHEAD }, fd)

/-! ## resync (filesource.c lines 182-243) -/

/-- The test at the top of the loop of `resync` (lines 202-205), with the
left-to-right evaluation of `&&`. -/
def sync_match (cfg : Config) (mem : List Nat) (msg : tmsg_t) : Option Bool :=
  match tmsg_read mem msg cfg.dt_sync_sync_majik with
  | none => none
  | some majik =>
    if majik = SYNC_MAJIK then
      match tmsg_read mem msg cfg.dt_sync_len with
      | none => none
      | some len =>
        if len = cfg.DT_SYNC_SIZE then
          match tmsg_read mem msg cfg.dt_sync_dtype with
          | none => none
          | some dtype => some (dtype = cfg.DT_SYNC || dtype = cfg.DT_SYNC_RESTART)
        else some false
    else some false

/-- The `for (;;)` of `resync`; one unit of fuel per iteration.  The locals
are `ignore_cur`, the window `msg` and `bad_blks`. -/
def resync_loop (cfg : Config) :
    Nat → State → Source → Nat → tmsg_t → Nat → Outcome (State × Source)
  | 0, _, _, _, _, _ => .nofuel
  | fuel + 1, st, fd, ignore_cur, msg, bad_blks =>
    -- lines 216-241: exhausted current buffer (or am ignoring it) go get next
    let fetch (st : State) : Outcome (State × Source) :=
      (get_sector st fd).bind fun (rtn, st, fd) =>
        let msg : tmsg_t := { data := 0, len := cfg.DT_SYNC_SIZE }
        if rtn = GS_OK then resync_loop cfg fuel st fd RESYNC_USE_CUR msg bad_blks
        else if rtn = GS_SEQ_FAIL then
          let st := { st with cur_seq := sector_seq st.sector_data }
          resync_loop cfg fuel st fd RESYNC_USE_CUR msg bad_blks
        else
          let bad_blks := bad_blks + 1
          if bad_blks > 4 then .exit 1
          else resync_loop cfg fuel st fd RESYNC_IGNORE_CUR msg bad_blks
    -- lines 201-214
    if ignore_cur = RESYNC_USE_CUR then
      match sync_match cfg st.sector_data msg with
      | none => .oob
      | some true => .ret (st, fd)
      | some false =>
        let st := { st with cur_sector_ptr := st.cur_sector_ptr + 1,
                            remaining_bytes := (st.remaining_bytes + 65535) % 65536 }
        let msg : tmsg_t := { data := msg.data + 1, len := cfg.DT_SYNC_SIZE }
        if st.remaining_bytes ≥ cfg.DT_SYNC_SIZE then
          resync_loop cfg fuel st fd ignore_cur msg bad_blks
        else fetch st
    else fetch st

/-- One call of `resync(fd, ignore_cur, sector_data)`. -/
def resync (cfg : Config) (fuel : Nat) (st : State) (fd : Source) (ignore_cur : Nat) :
    Outcome (State × Source) :=
  let msg : tmsg_t := { data := 0, len := cfg.DT_SYNC_SIZE }
  let st := { st with cur_seq := if ignore_cur = RESYNC_USE_CUR then 0 else 65535 }
  let st := { st with cur_sector_ptr := 0, remaining_bytes := SECTOR_SIZE - OVERHEAD }
  resync_loop cfg fuel st fd ignore_cur msg 0

/-! ## get_next_sector_byte (filesource.c lines 252-272) -/

/-- Lines 269-271: `*bytep = *cur_sector_ptr++; remaining_bytes--; return(rtn);` -/
def deliver (rtn : gs_rtn_t) (st : State) (fd : Source) :
    Outcome (gs_rtn_t × Option Nat × State × Source) :=
  match st.sector_data[st.cur_sector_ptr]? with
  | none => .oob
  | some b =>
    .ret (rtn, some b,
          { st with cur_sector_ptr := st.cur_sector_ptr + 1,
                    remaining_bytes := (st.remaining_bytes + 65535) % 65536 }, fd)

/-- One call of `get_next_sector_byte(fd, bytep)`.  The second component is
the byte stored through `bytep`, `none` when the call returns without storing. -/
def get_next_sector_byte (cfg : Config) (fuel : Nat) (st : State) (fd : Source) :
    Outcome (gs_rtn_t × Option Nat × State × Source) :=
  if st.remaining_bytes = 0 then
    (get_sector st fd).bind fun (rtn, st, fd) =>
      if rtn = GS_SEQ_FAIL then
        (resync cfg fuel st fd RESYNC_USE_CUR).bind fun (st, fd) => deliver GS_RESYNC st fd
      else if rtn = GS_CHKSUM_FAIL then
        (resync cfg fuel st fd RESYNC_IGNORE_CUR).bind fun (st, fd) => deliver GS_RESYNC st fd
      else if rtn ≠ GS_OK then .ret (rtn, none, st, fd)
      else deliver rtn st fd
  else deliver GS_OK st fd

/-! ## get_next_dblk (filesource.c lines 296-461) -/

/-- Lines 333-348: the packet-type byte, the serial header written through
the message `(bp + 1, l - 1)`, and the three dblk header bytes at `dptr`. -/
def dblk_envelope (cfg : Config) (bp : List Nat) (l hdr0 hdr1 hdr2 : Nat) :
    Option (List Nat) := do
  let bp ← poke bp 0 cfg.SERIAL_TOS_SERIAL_ACTIVE_MESSAGE_ID
  let msg : tmsg_t := { data := 1, len := l - 1 }
  let bp ← tmsg_write bp msg cfg.spacket_header_dest 0xffff
  let bp ← tmsg_write bp msg cfg.spacket_header_src 0
  let bp ← tmsg_write bp msg cfg.spacket_header_length l
  let bp ← tmsg_write bp msg cfg.spacket_header_group 0
  let bp ← tmsg_write bp msg cfg.spacket_header_type cfg.MM3_DATA_MSG_AM_TYPE
  let dptr := 1 + cfg.spacket_data_offset
  let bp ← poke bp dptr hdr0
  let bp ← poke bp (dptr + 1) hdr1
  poke bp (dptr + 2) hdr2

/-- Lines 350-355: `for (i = 3; i < cur_dblk_len; i++)`, with `n` iterations
left; each byte goes to `dptr[i]`.  The status is that of the last call of
`get_next_sector_byte`, `GS_OK` when the loop runs to its end. -/
def dblk_payload (cfg : Config) (fuel : Nat) :
    Nat → Nat → State → Source → List Nat → Outcome (gs_rtn_t × List Nat × State × Source)
  | 0, _, st, fd, bp => .ret (GS_OK, bp, st, fd)
  | n + 1, i, st, fd, bp =>
    (get_next_sector_byte cfg fuel st fd).bind fun (rtn, b, st, fd) =>
      let stored : Option (List Nat) :=
        match b with
        | some v => poke bp (1 + cfg.spacket_data_offset + i) v
        | none => some bp
      (Outcome.ofOption stored).bind fun bp =>
        if rtn ≠ GS_OK then .ret (rtn, bp, st, fd)
        else dblk_payload cfg fuel n (i + 1) st fd bp

/-- Lines 362-454: the `switch` on `cur_dtype`, entered with `rtn = GS_BAD_DBLK`;
`msg` is the message over the dblk inside `bp`. -/
def dblk_rule (cfg : Config) (bp : List Nat) (msg : tmsg_t)
    (cur_dtype cur_dblk_len : Nat) : Outcome gs_rtn_t :=
  if cur_dtype = cfg.DT_IGNORE then
    .ret (if cur_dblk_len = 0 then GS_OK else GS_BAD_DBLK)
  else if cur_dtype = cfg.DT_SYNC then
    .ret (if cur_dblk_len = cfg.DT_HDR_SIZE_SYNC then GS_OK else GS_BAD_DBLK)
  else if cur_dtype = cfg.DT_SYNC_RESTART then
    .ret (if cur_dblk_len = cfg.DT_HDR_SIZE_SYNC then GS_OK else GS_BAD_DBLK)
  else if cur_dtype = cfg.DT_PANIC then
    .ret (if cur_dblk_len = cfg.DT_HDR_SIZE_PANIC then GS_OK else GS_BAD_DBLK)
  else if cur_dtype = cfg.DT_SENSOR_DATA then
    (Outcome.ofOption (tmsg_read bp msg cfg.dt_sensor_data_sns_id)).bind fun v =>
      let sns_id := v % 256
      if sns_id < 1 ∨ sns_id ≥ cfg.MM3_NUM_SENSORS then .ret GS_BAD_DBLK
      else
        (Outcome.ofOption cfg.sns_payload_len[sns_id]?).bind fun payload_len =>
          if cur_dblk_len ≠ payload_len + cfg.DT_HDR_SIZE_SENSOR_DATA then .ret GS_BAD_DBLK
          else .ret GS_OK
  else if cur_dtype = cfg.DT_TEST then .ret GS_OK
  else if cur_dtype = cfg.DT_GPS_RAW then .ret GS_OK
  else if cur_dtype = cfg.DT_VERSION then
    .ret (if cur_dblk_len = cfg.DT_HDR_SIZE_VERSION then GS_OK else GS_BAD_DBLK)
  else .ret GS_BAD_DBLK

/-- Lines 325-461, entered once the three header bytes are in `hdr`.  The
length `tmsg_length(msg) - spacket_data_offset(0)` of the message over the dblk
is exact as long as the payload offset does not exceed `l - 1`. -/
def dblk_body (cfg : Config) (fuel : Nat) (st : State) (fd : Source) (bp : List Nat)
    (hdr0 hdr1 hdr2 : Nat) : Outcome (gs_rtn_t × Nat × List Nat × State × Source) :=
  let cur_dblk_len := (hdr0 * 256 + hdr1) % 65536
  let cur_dtype := hdr2
  if cur_dtype ≥ cfg.DT_MAX ∨ cur_dblk_len < 3 then .ret (GS_BAD_DBLK, 0, bp, st, fd)
  else
    let l := cur_dblk_len + 1 + cfg.SPACKET_SIZE
    (Outcome.ofOption (dblk_envelope cfg bp l hdr0 hdr1 hdr2)).bind fun bp =>
      (dblk_payload cfg fuel (cur_dblk_len - 3) 3 st fd bp).bind fun (rtn, bp, st, fd) =>
        if rtn ≠ GS_OK then .ret (rtn, 0, bp, st, fd)
        else
          let msg : tmsg_t := { data := 1 + cfg.SPACKET_SIZE,
                                len := (l - 1) - cfg.spacket_data_offset }
          (dblk_rule cfg bp msg cur_dtype cur_dblk_len).bind fun rtn =>
            .ret (rtn, l, bp, st, fd)

/-- The header byte a call of `get_next_sector_byte` that returned `GS_OK` stored. -/
def stored_byte : Option Nat → Outcome Nat
  | some b => .ret b
  | none => .oob

/-- One call of `get_next_dblk(fd, bp, &len)`: status, `*len`, the buffer
`bp`, the statics and the file afterwards. -/
def get_next_dblk (cfg : Config) (fuel : Nat) (st : State) (fd : Source) (bp : List Nat) :
    Outcome (gs_rtn_t × Nat × List Nat × State × Source) :=
  (get_next_sector_byte cfg fuel st fd).bind fun (rtn, b0, st, fd) =>
    if rtn ≠ GS_OK then .ret (rtn, 0, bp, st, fd)
    else (stored_byte b0).bind fun hdr0 =>
      (get_next_sector_byte cfg fuel st fd).bind fun (rtn, b1, st, fd) =>
        if rtn ≠ GS_OK then .ret (rtn, 0, bp, st, fd)
        else (stored_byte b1).bind fun hdr1 =>
          (get_next_sector_byte cfg fuel st fd).bind fun (rtn, b2, st, fd) =>
            if rtn ≠ GS_OK then .ret (rtn, 0, bp, st, fd)
            else (stored_byte b2).bind fun hdr2 =>
              dblk_body cfg fuel st fd bp hdr0 hdr1 hdr2

/-! ## read_file_packet (filesource.c lines 489-514) -/

/-- One call of `read_file_packet(fd, &len)`.  `cur_dblk` is the static buffer
the dblk is assembled in, `alloc` tells whether `malloc` succeeds and `len` is
what `*len` held before the call.  The result is the packet (`none` for NULL),
`*len`, the buffer, the statics and the file afterwards. -/
def read_file_packet (cfg : Config) (fuel : Nat) (alloc : Bool) (st : State) (fd : Source)
    (cur_dblk : List Nat) (len : Nat) :
    Outcome (Option (List Nat) × Nat × List Nat × State × Source) :=
  (get_next_dblk cfg fuel st fd cur_dblk).bind fun (rtn, l, cur_dblk, st, fd) =>
    if rtn ≠ GS_OK ∧ rtn ≠ GS_BAD_DBLK then .ret (none, len, cur_dblk, st, fd)
    else if alloc = false then .ret (none, len, cur_dblk, st, fd)
    else if l ≤ cur_dblk.length then .ret (some (cur_dblk.take l), l, cur_dblk, st, fd)
    else .oob

/-! ## A sample configuration -/

/-- Modelled from the spec: the generated headers of the 2008 mm3 build are not
in the source tree, so this sample fixes one set of values for them.  The SYNC
layout is the one in the comment above `resync` (2 len, 1 dtype, 4 stamp,
4 sync_majik, big-endian like the dblk length), the envelope is the serial
header of the spec (destination, source, length, group, type), and the sensor
payload sizes are those listed in typed_data.h. -/
def sample_cfg : Config :=
  { DT_IGNORE := 0
    DT_SYNC := 2
    DT_SYNC_RESTART := 3
    DT_PANIC := 4
    DT_SENSOR_DATA := 7
    DT_TEST := 9
    DT_GPS_RAW := 11
    DT_VERSION := 12
    DT_MAX := 13
    DT_HDR_SIZE_SYNC := 11
    DT_HDR_SIZE_PANIC := 16
    DT_HDR_SIZE_SENSOR_DATA := 12
    DT_HDR_SIZE_VERSION := 5
    MM3_NUM_SENSORS := 9
    sns_payload_len := [0, 2, 2, 4, 6, 2, 2, 4, 6]
    DT_SYNC_SIZE := 11
    dt_sync_len := { offset := 0, size := 2, le := false }
    dt_sync_dtype := { offset := 2, size := 1, le := false }
    dt_sync_sync_majik := { offset := 7, size := 4, le := false }
    dt_sensor_data_sns_id := { offset := 3, size := 1, le := false }
    SPACKET_SIZE := 7
    spacket_data_offset := 7
    spacket_header_dest := { offset := 0, size := 2, le := false }
    spacket_header_src := { offset := 2, size := 2, le := false }
    spacket_header_length := { offset := 4, size := 1, le := false }
    spacket_header_group := { offset := 5, size := 1, le := false }
    spacket_header_type := { offset := 6, size := 1, le := false }
    SERIAL_TOS_SERIAL_ACTIVE_MESSAGE_ID := 0
    MM3_DATA_MSG_AM_TYPE := 33 }

/-! ## Building sectors -/

/-- A sector as the logger lays it out: `data` padded with zeros to 508 bytes,
the little-endian sequence number, the little-endian checksum of the first
510 bytes. -/
def mk_sector (data : List Nat) (seq : Nat) : List Nat :=
  let body := data.take 508 ++ List.replicate (508 - data.length) 0
    ++ [seq % 256, seq / 256 % 256]
  let sum := running_sum body
  body ++ [sum % 256, sum / 256]

/-! ## Vocabulary of the statements -/

/-- A sector as `read` delivers it: 512 bytes. -/
def is_sector (s : List Nat) : Prop :=
  s.length = 512 ∧ ∀ b ∈ s, b < 256

instance (s : List Nat) : Decidable (is_sector s) :=
  decidable_of_iff (s.length = 512 ∧ s.all (fun b => decide (b < 256)) = true)
    (by simp [is_sector])

/-- The checksum rule of the data model: the sum of the first 510 bytes, taken
modulo 65536, equals the little-endian number in the last two bytes. -/
def chksum_valid (s : List Nat) : Prop :=
  (s.take 510).sum % 65536 = s.getD 510 0 + 256 * s.getD 511 0

instance (s : List Nat) : Decidable (chksum_valid s) := by
  unfold chksum_valid; infer_instance

/-- The sequence number a sector carries: little-endian in bytes 508 and 509. -/
def stored_seq (s : List Nat) : Nat :=
  s.getD 508 0 + 256 * s.getD 509 0

/-- Calling `get_sector` `n` times in a row; the statuses in call order. -/
def get_sectors : Nat → State → Source → Outcome (List gs_rtn_t × State × Source)
  | 0, st, fd => .ret ([], st, fd)
  | n + 1, st, fd =>
    (get_sector st fd).bind fun (rtn, st, fd) =>
      (get_sectors n st fd).bind fun (rtns, st, fd) => .ret (rtn :: rtns, st, fd)

/-- Calling `get_next_sector_byte` `n` times in a row with every call
returning `GS_OK` (reading `n` bytes without a cursor fault): the bytes stored,
in order, and the statics and the file after the last call. -/
def read_ok (cfg : Config) (fuel : Nat) :
    Nat → State → Source → Option (List Nat × State × Source)
  | 0, st, fd => some ([], st, fd)
  | n + 1, st, fd =>
    match get_next_sector_byte cfg fuel st fd with
    | .ret (GS_OK, some b, st, fd) =>
      match read_ok cfg fuel n st fd with
      | some (bs, st, fd) => some (b :: bs, st, fd)
      | none => none
    | _ => none

/-- The array `mem` with the bytes `bs` stored from index `i` on. -/
def splice (mem : List Nat) (i : Nat) (bs : List Nat) : List Nat :=
  mem.take i ++ bs ++ mem.drop (i + bs.length)

/-- The sensor id embedded in a dblk: what the accessor of the `sns_id` field
reads in the dblk taken as a message of its own, as a `uint8_t`. -/
def embedded_sns_id (cfg : Config) (blk : List Nat) : Nat :=
  ((tmsg_read blk { data := 0, len := blk.length } cfg.dt_sensor_data_sns_id).getD 0) % 256

/-- The length rule of each dblk type, as the cases of the `switch` state it,
for a dblk of type `dtype`, declared length `len` and embedded sensor id `sns_id`.
The `DT_IGNORE` case asks for `cur_dblk_len == 0`, which no dblk with a valid
header (length at least 3) meets. -/
def length_rule (cfg : Config) (dtype len sns_id : Nat) : Prop :=
  (dtype = cfg.DT_IGNORE ∧ len = 0) ∨
  ((dtype = cfg.DT_SYNC ∨ dtype = cfg.DT_SYNC_RESTART) ∧ len = cfg.DT_HDR_SIZE_SYNC) ∨
  (dtype = cfg.DT_PANIC ∧ len = cfg.DT_HDR_SIZE_PANIC) ∨
  (dtype = cfg.DT_SENSOR_DATA ∧ 1 ≤ sns_id ∧ sns_id < cfg.MM3_NUM_SENSORS ∧
    len = cfg.sns_payload_len.getD sns_id 0 + cfg.DT_HDR_SIZE_SENSOR_DATA) ∨
  dtype = cfg.DT_TEST ∨
  dtype = cfg.DT_GPS_RAW ∨
  (dtype = cfg.DT_VERSION ∧ len = cfg.DT_HDR_SIZE_VERSION)

instance (cfg : Config) (dtype len sns_id : Nat) : Decidable (length_rule cfg dtype len sns_id) := by
  unfold length_rule; infer_instance

/-- Modelled from the spec: the per-type length rule of the data model, for a
record of type `dtype`, total length `len` (header included) and embedded sensor
id `sns_id`.  A `DT_IGNORE` record is padding: it carries zero bytes beyond its
3-byte header.  SYNC, PANIC and VERSION records have the fixed size of their
type, a sensor record the size its sensor id asks for, and `DT_TEST` and
`DT_GPS_RAW` records any length. -/
def record_length_rule (cfg : Config) (dtype len sns_id : Nat) : Prop :=
  (dtype = cfg.DT_IGNORE ∧ len = 3) ∨
  ((dtype = cfg.DT_SYNC ∨ dtype = cfg.DT_SYNC_RESTART) ∧ len = cfg.DT_HDR_SIZE_SYNC) ∨
  (dtype = cfg.DT_PANIC ∧ len = cfg.DT_HDR_SIZE_PANIC) ∨
  (dtype = cfg.DT_SENSOR_DATA ∧ 1 ≤ sns_id ∧ sns_id < cfg.MM3_NUM_SENSORS ∧
    len = cfg.sns_payload_len.getD sns_id 0 + cfg.DT_HDR_SIZE_SENSOR_DATA) ∨
  dtype = cfg.DT_TEST ∨
  dtype = cfg.DT_GPS_RAW ∨
  (dtype = cfg.DT_VERSION ∧ len = cfg.DT_HDR_SIZE_VERSION)

instance (cfg : Config) (dtype len sns_id : Nat) :
    Decidable (record_length_rule cfg dtype len sns_id) := by
  unfold record_length_rule; infer_instance

/-- Modelled from the spec: a record of the logical stream: 2-byte big-endian
total length, 1-byte dtype, payload; with a valid header and a length that
satisfies the rule of its type in the data model (`record_length_rule`). -/
def is_record (cfg : Config) (r : List Nat) : Prop :=
  (r.length = 256 * r.getD 0 0 + r.getD 1 0 ∧ r.getD 0 0 < 256 ∧ r.getD 1 0 < 256) ∧
  3 ≤ r.length ∧
  r.getD 2 0 < cfg.DT_MAX ∧
  record_length_rule cfg (r.getD 2 0) r.length (embedded_sns_id cfg r)

instance (cfg : Config) (r : List Nat) : Decidable (is_record cfg r) := by
  unfold is_record; infer_instance

/-- The logical stream a list of sectors carries: their 508-byte data regions,
one after the other. -/
def stream_of (sectors : List (List Nat)) : List Nat :=
  (sectors.map (fun s => s.take 508)).flatten

/-- The dblk an output buffer holds after the packet-type byte and the
envelope, given the `*len` that was returned. -/
def emitted (cfg : Config) (len : Nat) (bp : List Nat) : List Nat :=
  (bp.drop (1 + cfg.SPACKET_SIZE)).take (len - (1 + cfg.SPACKET_SIZE))

/-- Calling `get_next_dblk` `m` times in a row on the same buffer; for every
call its status and the dblk it left in the buffer. -/
def get_dblks (cfg : Config) (fuel : Nat) :
    Nat → State → Source → List Nat →
      Outcome (List (gs_rtn_t × List Nat) × List Nat × State × Source)
  | 0, st, fd, bp => .ret ([], bp, st, fd)
  | m + 1, st, fd, bp =>
    (get_next_dblk cfg fuel st fd bp).bind fun (rtn, len, bp1, st, fd) =>
      (get_dblks cfg fuel m st fd bp1).bind fun (out, bp2, st, fd) =>
        .ret ((rtn, emitted cfg len bp1) :: out, bp2, st, fd)

/-- The bytes of the current sector that `get_next_sector_byte` has not
delivered yet. -/
def unread (st : State) : List Nat :=
  (st.sector_data.drop st.cur_sector_ptr).take st.remaining_bytes

/-- The statics and the sectors still in the file hold the logical stream
`stream`: the cursor and the count are inside the buffer, the sectors are
checksum-valid and numbered upwards from the expected sequence number, and the
unread bytes followed by the data regions of the sectors are `stream`. -/
def feeds (st : State) (sectors : List (List Nat)) (stream : List Nat) : Prop :=
  st.cur_sector_ptr + st.remaining_bytes ≤ st.sector_data.length ∧
  st.remaining_bytes < 65536 ∧
  (∀ s ∈ sectors, is_sector s ∧ chksum_valid s) ∧
  (∀ i, i < sectors.length →
    stored_seq (sectors.getD i []) = (st.cur_seq + 1 + i) % 65536) ∧
  unread st ++ stream_of sectors = stream

/-- A valid SYNC record begins at offset `k` of the buffer `mem`: read through
the accessors, the majik is `SYNC_MAJIK`, the length is `DT_SYNC_SIZE` and the
dtype is `DT_SYNC` or `DT_SYNC_RESTART`. -/
def valid_sync_at (cfg : Config) (mem : List Nat) (k : Nat) : Prop :=
  tmsg_read mem { data := k, len := cfg.DT_SYNC_SIZE } cfg.dt_sync_sync_majik = some SYNC_MAJIK ∧
  tmsg_read mem { data := k, len := cfg.DT_SYNC_SIZE } cfg.dt_sync_len = some cfg.DT_SYNC_SIZE ∧
  (tmsg_read mem { data := k, len := cfg.DT_SYNC_SIZE } cfg.dt_sync_dtype = some cfg.DT_SYNC ∨
   tmsg_read mem { data := k, len := cfg.DT_SYNC_SIZE } cfg.dt_sync_dtype
     = some cfg.DT_SYNC_RESTART)

instance (cfg : Config) (mem : List Nat) (k : Nat) : Decidable (valid_sync_at cfg mem k) := by
  unfold valid_sync_at; infer_instance

/-- The fields of the serial header that `get_next_dblk` sets, in the order of
the calls (lines 340-344). -/
def Config.envelope_fields (cfg : Config) : List Field :=
  [cfg.spacket_header_dest, cfg.spacket_header_src, cfg.spacket_header_length,
   cfg.spacket_header_group, cfg.spacket_header_type]

/-- The layout of a serial header: its fields lie inside the `SPACKET_SIZE`
bytes of the header, no two of them share a byte, and the destination and type
fields are wide enough for the constants stored in them. -/
def Config.envelope_wf (cfg : Config) : Prop :=
  (∀ f ∈ cfg.envelope_fields, f.offset + f.size ≤ cfg.SPACKET_SIZE) ∧
  cfg.envelope_fields.Pairwise
    (fun f g => f.offset + f.size ≤ g.offset ∨ g.offset + g.size ≤ f.offset) ∧
  0xffff < 256 ^ cfg.spacket_header_dest.size ∧
  cfg.MM3_DATA_MSG_AM_TYPE < 256 ^ cfg.spacket_header_type.size

instance (cfg : Config) : Decidable cfg.envelope_wf := by
  unfold Config.envelope_wf; infer_instance

/-- Iterations of the loop of `resync` that surely suffice on the file `fd`:
a scan of one buffer takes fewer than 65540 iterations, and every other
iteration reads a sector. -/
def fuel_bound (fd : Source) : Nat :=
  65540 * (fd.length + 1)

/-- The number of sectors that `n` byte reads without a fault load when `r`
bytes of the current sector are unread: none when `n ≤ r`, and one more for every
508 bytes, or part of 508 bytes, beyond `r`. -/
def sectors_needed (n r : Nat) : Nat :=
  if n ≤ r then 0 else (n - r + 507) / 508

/-- The read delivered a full sector that fails the checksum test of
`get_sector` (line 137). -/
def checksum_fault : ReadResult → Bool
  | .error => false
  | .bytes dbuff => decide (dbuff.length = SECTOR_SIZE) && decide (chksum dbuff ≠ running_sum dbuff)

/-- How many reads of a piece of the file deliver a sector that fails the
checksum test. -/
def checksum_faults (fd : Source) : Nat :=
  fd.countP checksum_fault

/-- Two runs end the same way: both return, with results related by `R`, or
both call `exit` with the same code, or both leave an array, or both run out of
fuel. -/
def Outcome.rel {α β : Type} (R : α → β → Prop) : Outcome α → Outcome β → Prop
  | .ret a, .ret b => R a b
  | .exit c, .exit d => c = d
  | .oob, .oob => True
  | .nofuel, .nofuel => True
  | _, _ => False

/-- Two buffers of the same size that hold the same bytes at the indices from
`lo` up to `hi`. -/
def same_bytes (lo hi : Nat) (x y : List Nat) : Prop :=
  x.length = y.length ∧ ∀ j, lo ≤ j → j < hi → x[j]? = y[j]?

/-- The sector `s` with bit `b` of byte `i` flipped. -/
def flip_bit (s : List Nat) (i b : Nat) : List Nat :=
  s.set i (s.getD i 0 ^^^ 2 ^ b)

/-- A read that delivers fewer than 512 bytes: an error, or at most 511 bytes. -/
def short_read : ReadResult → Prop
  | .error => True
  | .bytes bs => bs.length < 512

instance (r : ReadResult) : Decidable (short_read r) := by
  cases r <;> unfold short_read <;> infer_instance

/-! ## Sample inputs under `sample_cfg` -/

/-- A SYNC record: length 11, dtype `DT_SYNC`, a stamp, the majik. -/
def sample_sync : List Nat := [0, 11, 2, 0, 0, 0, 0, 0xde, 0xdf, 0x00, 0xef]

/-- A sensor record of sensor 1: header of 12 bytes and 2 payload bytes. -/
def sample_sensor : List Nat := [0, 14, 7, 1, 0, 0, 0, 0, 0, 0, 0, 0, 5, 6]

/-- A `DT_TEST` record of 505 bytes. -/
def sample_test : List Nat := [1, 249, 9] ++ List.replicate 502 1

/-- A checksum-valid sector with sequence number 5 and no SYNC record. -/
def sample_blank : List Nat := mk_sector [] 5

/-- A checksum-valid sector with sequence number 9 that starts with a SYNC
record and has the byte 0x55 at offset 498. -/
def sample_synced : List Nat := mk_sector (sample_sync ++ List.replicate 487 0 ++ [0x55]) 9

/-- A sector with sequence number 4 whose first data byte was changed after
the checksum was computed. -/
def sample_corrupt : List Nat := (mk_sector [] 4).set 0 1

/-- A SYNC record whose stamp starts with the byte 0xff. -/
def sample_sync_ff : List Nat := [0, 11, 2, 0xff, 0, 0, 0, 0xde, 0xdf, 0x00, 0xef]

/-- A `DT_IGNORE` record that is only its 3-byte header. -/
def sample_ignore : List Nat := [0, 3, 0]

/-- Every second sector of a recording: eleven checksum-valid sectors without a
SYNC record, numbered 5, 7, ..., 25, and then a checksum-valid sector numbered
27 that starts with a SYNC record. -/
def sample_gapped_sectors : List (List Nat) :=
  ((List.range 11).map fun i => mk_sector [] (5 + 2 * i)) ++ [mk_sector sample_sync 27]

/-- The file that holds the sectors of `sample_gapped_sectors`. -/
def sample_gapped : Source :=
  sample_gapped_sectors.map .bytes

/-- A `DT_SENSOR_DATA` record that is only its 3-byte header: too short to hold
the sensor id, which lies behind the header. -/
def sample_short_sensor : List Nat := [0, 3, 7]

/-- A `DT_TEST` record of 248 bytes: with the packet-type byte and the serial
header of 7 bytes in front of it, `*len` is 256. -/
def sample_test_248 : List Nat := [0, 248, 9] ++ List.replicate 245 1

/-- Every second sector of a recording: twelve checksum-valid sectors without a
SYNC record, numbered 5, 7, ..., 27. -/
def sample_gapped_blank : List (List Nat) :=
  [mk_sector [] 5, mk_sector [] 7, mk_sector [] 9, mk_sector [] 11, mk_sector [] 13,
   mk_sector [] 15, mk_sector [] 17, mk_sector [] 19, mk_sector [] 21, mk_sector [] 23,
   mk_sector [] 25, mk_sector [] 27]

/-- The statics after `n` bytes of the sector `s` have been delivered. -/
def State.at_offset (s : List Nat) (seq n : Nat) : State :=
  { sector_data := s, cur_sector_ptr := n, remaining_bytes := 508 - n, cur_seq := seq }

/-! ## Record layouts of the producer (include/typed_data.h) -/

/-- The types of the fields of `dt_sync_t` and `dt_reboot_t`. -/
inductive ctype where
  | uint16_t
  | uint32_t
  | uint64_t
  | dtype_t
  | datetime_t
  deriving DecidableEq, Repr

/-- The sizes typed_data.h does not fix itself: that of the enum `dtype_t`
(2 bytes by its comments, through the member `DT_16`) and that of `datetime_t`,
declared in datetime.h (10 bytes by its comments). -/
structure type_sizes where
  dtype_t : Nat
  datetime_t : Nat
  deriving DecidableEq, Repr

/-- Size of a field type in bytes. -/
def ctype.size (sz : type_sizes) : ctype → Nat
  | .uint16_t => 2
  | .uint32_t => 4
  | .uint64_t => 8
  | .dtype_t => sz.dtype_t
  | .datetime_t => sz.datetime_t

/-- The field names of `dt_sync_t` and `dt_reboot_t`. -/
inductive field_name where
  | len
  | dtype
  | recnum
  | systime
  | recsum
  | datetime
  | prev_sync
  | sync_majik
  | dt_h_revision
  | base
  deriving DecidableEq, Repr

/-- A `PACKED` structure: its fields in the order of their declaration. -/
abbrev packed_struct := List (field_name × ctype)

/-- The reboot record, `dt_reboot_t` (typed_data.h lines 177-192). -/
def dt_reboot_t : packed_struct :=
  [(.len, .uint16_t), (.dtype, .dtype_t), (.recnum, .uint32_t), (.systime, .uint64_t),
   (.recsum, .uint16_t), (.datetime, .datetime_t), (.prev_sync, .uint32_t),
   (.sync_majik, .uint32_t), (.dt_h_revision, .uint32_t), (.base, .uint32_t)]

/-- The sync record, `dt_sync_t` (typed_data.h lines 222-231). -/
def dt_sync_t : packed_struct :=
  [(.len, .uint16_t), (.dtype, .dtype_t), (.recnum, .uint32_t), (.systime, .uint64_t),
   (.recsum, .uint16_t), (.datetime, .datetime_t), (.prev_sync, .uint32_t),
   (.sync_majik, .uint32_t)]

/-- The byte offset of a field from the start of a `PACKED` structure: no
padding, so the sizes of the fields declared before it; `none` when the
structure has no such field. -/
def offsetof (sz : type_sizes) : packed_struct → field_name → Option Nat
  | [], _ => none
  | (n, t) :: rest, name =>
    if n = name then some 0 else (offsetof sz rest name).map (fun off => t.size sz + off)

/-- The size of a `PACKED` structure. -/
def sizeof (sz : type_sizes) (s : packed_struct) : Nat :=
  (s.map fun f => f.2.size sz).sum

/-- Where a resync lands on a record of layout `s` that starts at address `start`: it
finds the majik at its offset in `s` and backs up by the offset the majik has in
`dt_sync_t`. -/
def backed_up (sz : type_sizes) (s : packed_struct) (start : Nat) : Option Nat :=
  (offsetof sz s .sync_majik).bind fun found =>
    (offsetof sz dt_sync_t .sync_majik).map fun off => start + found - off

/-! ## Lemmas on get_sector -/

@[simp] theorem Outcome.bind_ret {α β : Type} (a : α) (f : α → Outcome β) :
    (Outcome.ret a).bind f = f a := rfl

theorem Outcome.bind_eq_ret {α β : Type} {x : Outcome α} {f : α → Outcome β} {b : β}
    (h : x.bind f = .ret b) : ∃ a, x = .ret a ∧ f a = .ret b := by
  cases x with
  | ret a => exact ⟨a, rfl, h⟩
  | exit c => cases h
  | oob => cases h
  | nofuel => cases h

theorem foldl_add_mod (l : List Nat) (a : Nat) :
    l.foldl (fun s b => (s + b) % 65536) (a % 65536) = (a + l.sum) % 65536 := by
  induction l generalizing a with
  | nil => simp
  | cons b l ih =>
    simp only [List.foldl_cons, List.sum_cons]
    rw [show (a % 65536 + b) % 65536 = (a + b) % 65536 by omega, ih (a + b), Nat.add_assoc]

theorem running_sum_eq (dbuff : List Nat) :
    running_sum dbuff = (dbuff.take 510).sum % 65536 := by
  have h := foldl_add_mod (dbuff.take 510) 0
  simpa [running_sum, SECTOR_SIZE] using h

theorem getD_lt_of_is_sector {s : List Nat} (hs : is_sector s) (i : Nat) : s.getD i 0 < 256 := by
  rcases hs with ⟨_, hb⟩
  by_cases hi : i < s.length
  · rw [List.getD_eq_getElem _ _ hi]
    exact hb _ (List.getElem_mem _)
  · rw [List.getD_eq_default _ _ (by omega)]
    omega

theorem chksum_eq {s : List Nat} (hs : is_sector s) :
    chksum s = s.getD 510 0 + 256 * s.getD 511 0 := by
  have h0 := getD_lt_of_is_sector hs 510
  have h1 := getD_lt_of_is_sector hs 511
  simp only [chksum, CHKSUM_OFF, Nat.reduceAdd]
  omega

theorem sector_seq_eq {s : List Nat} (hs : is_sector s) :
    sector_seq s = stored_seq s := by
  have h0 := getD_lt_of_is_sector hs 508
  have h1 := getD_lt_of_is_sector hs 509
  simp only [sector_seq, stored_seq, SEQ_OFF, Nat.reduceAdd]
  omega

/-- What `get_sector` does with a full sector. -/
theorem get_sector_full (st : State) (fd : Source) (s : List Nat) (hs : is_sector s) :
    get_sector st (.bytes s :: fd) =
      if ¬ chksum_valid s then .ret (GS_CHKSUM_FAIL, { st with sector_data := s }, fd)
      else if (st.cur_seq + 1) % 65536 ≠ stored_seq s then
        .ret (GS_SEQ_FAIL, { st with sector_data := s, cur_seq := (st.cur_seq + 1) % 65536 }, fd)
      else
        .ret (GS_OK, { sector_data := s, cur_sector_ptr := 0, remaining_bytes := 508,
                       cur_seq := (st.cur_seq + 1) % 65536 }, fd) := by
  have hl : s.length = 512 := hs.1
  have e1 : (chksum s ≠ running_sum s) = ¬ chksum_valid s := by
    rw [chksum_eq hs, running_sum_eq]; unfold chksum_valid
    exact propext ⟨fun h h' => h h'.symm, fun h h' => h h'.symm⟩
  simp only [get_sector, hl, SECTOR_SIZE, OVERHEAD, sector_seq_eq hs, e1]
  simp

/-- A checksum-valid sector that carries the expected sequence number is accepted. -/
theorem get_sector_accept (st : State) (fd : Source) (s : List Nat) (hs : is_sector s)
    (hc : chksum_valid s) (hq : stored_seq s = (st.cur_seq + 1) % 65536) :
    get_sector st (.bytes s :: fd) =
      .ret (GS_OK, { sector_data := s, cur_sector_ptr := 0, remaining_bytes := 508,
                     cur_seq := (st.cur_seq + 1) % 65536 }, fd) := by
  rw [get_sector_full st fd s hs, if_neg (not_not.mpr hc), if_neg (not_not.mpr hq.symm)]

/-- Sectors numbered upwards from the expected value are all accepted. -/
theorem get_sectors_chain (rest : Source) (sectors : List (List Nat)) :
    ∀ (st : State),
      (∀ s ∈ sectors, is_sector s ∧ chksum_valid s) →
      (∀ i, i < sectors.length →
        stored_seq (sectors.getD i []) = (st.cur_seq + 1 + i) % 65536) →
      ∃ st', get_sectors sectors.length st (sectors.map .bytes ++ rest)
        = .ret (List.replicate sectors.length GS_OK, st', rest) := by
  induction sectors with
  | nil => intro st _ _; exact ⟨st, rfl⟩
  | cons s ss ih =>
    intro st hv hq
    have hs := hv s (List.mem_cons_self _ _)
    have h0 : stored_seq s = (st.cur_seq + 1) % 65536 := by
      simpa using hq 0 (by simp)
    obtain ⟨st', h'⟩ := ih
      { sector_data := s, cur_sector_ptr := 0, remaining_bytes := 508,
        cur_seq := (st.cur_seq + 1) % 65536 }
      (fun x hx => hv x (List.mem_cons_of_mem _ hx))
      (fun i hi => by
        have := hq (i + 1) (by simpa using hi)
        simp only [List.getD_cons_succ] at this
        rw [this]
        show (st.cur_seq + 1 + (i + 1)) % 65536 = ((st.cur_seq + 1) % 65536 + 1 + i) % 65536
        omega)
    refine ⟨st', ?_⟩
    simp only [List.map_cons, List.cons_append, List.length_cons, get_sectors,
      get_sector_accept st _ s hs.1 hs.2 h0, Outcome.bind_ret, h', List.replicate_succ]

/-! ## Theorems on get_sector -/

/-- C1: for every 512-byte sector and every state, `get_sector` returns
`GS_CHKSUM_FAIL` exactly when the sum of bytes 0..509 modulo 65536 differs from
`byte[510] + 256 * byte[511]`; when the two are equal the status is another one. -/
theorem get_sector_chksum_fail_iff (st : State) (fd : Source) (s : List Nat)
    (hs : is_sector s) :
    ∃ rtn st', get_sector st (.bytes s :: fd) = .ret (rtn, st', fd) ∧
      (rtn = GS_CHKSUM_FAIL ↔
        (s.take 510).sum % 65536 ≠ s.getD 510 0 + 256 * s.getD 511 0) := by
  rw [get_sector_full st fd s hs]
  by_cases hc : chksum_valid s
  · by_cases hq : (st.cur_seq + 1) % 65536 = stored_seq s
    · rw [if_neg (not_not.mpr hc), if_neg (not_not.mpr hq)]
      exact ⟨_, _, rfl, ⟨fun h => (nomatch h), fun h => absurd hc h⟩⟩
    · rw [if_neg (not_not.mpr hc), if_pos hq]
      exact ⟨_, _, rfl, ⟨fun h => (nomatch h), fun h => absurd hc h⟩⟩
  · rw [if_pos hc]
    exact ⟨_, _, rfl, ⟨fun _ => hc, fun _ => rfl⟩⟩

set_option maxRecDepth 100000 in
theorem get_sector_chksum_fail_iff_witness :
    is_sector (mk_sector [1, 2, 3] 7) ∧
    ∃ rtn st', get_sector State.init (.bytes (mk_sector [1, 2, 3] 7) :: []) = .ret (rtn, st', []) ∧
      (rtn = GS_CHKSUM_FAIL ↔
        ((mk_sector [1, 2, 3] 7).take 510).sum % 65536
          ≠ (mk_sector [1, 2, 3] 7).getD 510 0 + 256 * (mk_sector [1, 2, 3] 7).getD 511 0) :=
  ⟨by decide, get_sector_chksum_fail_iff State.init [] (mk_sector [1, 2, 3] 7) (by decide)⟩

/-- C2: for every checksum-valid 512-byte sector and every state with
expected-sequence counter c, `get_sector` sets the counter to (c+1) mod 65536
and returns `GS_SEQ_FAIL` exactly when that new value differs from
`byte[508] + 256 * byte[509]`, the only other status being `GS_OK`; and whenever
the result is `GS_CHKSUM_FAIL` the counter is left at c. -/
theorem get_sector_seq_check (st : State) (fd : Source) (s : List Nat) (hs : is_sector s) :
    (chksum_valid s →
      ∃ rtn st', get_sector st (.bytes s :: fd) = .ret (rtn, st', fd) ∧
        st'.cur_seq = (st.cur_seq + 1) % 65536 ∧
        (rtn = GS_OK ∨ rtn = GS_SEQ_FAIL) ∧
        (rtn = GS_SEQ_FAIL ↔
          (st.cur_seq + 1) % 65536 ≠ s.getD 508 0 + 256 * s.getD 509 0)) ∧
    (∀ st' fd', get_sector st (.bytes s :: fd) = .ret (GS_CHKSUM_FAIL, st', fd') →
      st'.cur_seq = st.cur_seq) := by
  rw [get_sector_full st fd s hs]
  constructor
  · intro hc
    rw [if_neg (not_not.mpr hc)]
    by_cases hq : (st.cur_seq + 1) % 65536 = stored_seq s
    · rw [if_neg (not_not.mpr hq)]
      exact ⟨_, _, rfl, rfl, Or.inl rfl, ⟨fun h => (nomatch h), fun h => absurd hq h⟩⟩
    · rw [if_pos hq]
      exact ⟨_, _, rfl, rfl, Or.inr rfl, ⟨fun _ => hq, fun _ => rfl⟩⟩
  · intro st' fd' h
    split at h
    · cases h; rfl
    · split at h <;> cases h

set_option maxRecDepth 100000 in
theorem get_sector_seq_check_witness :
    is_sector (mk_sector [1, 2, 3] 7) ∧
    ((chksum_valid (mk_sector [1, 2, 3] 7) →
      ∃ rtn st', get_sector { State.init with cur_seq := 6 } (.bytes (mk_sector [1, 2, 3] 7) :: [])
          = .ret (rtn, st', []) ∧
        st'.cur_seq = (6 + 1) % 65536 ∧
        (rtn = GS_OK ∨ rtn = GS_SEQ_FAIL) ∧
        (rtn = GS_SEQ_FAIL ↔
          (6 + 1) % 65536 ≠ (mk_sector [1, 2, 3] 7).getD 508 0
            + 256 * (mk_sector [1, 2, 3] 7).getD 509 0)) ∧
    (∀ st' fd', get_sector { State.init with cur_seq := 6 } (.bytes (mk_sector [1, 2, 3] 7) :: [])
        = .ret (GS_CHKSUM_FAIL, st', fd') → st'.cur_seq = 6)) :=
  ⟨by decide,
   get_sector_seq_check { State.init with cur_seq := 6 } [] (mk_sector [1, 2, 3] 7) (by decide)⟩

theorem get_sectors_succ (n : Nat) (st : State) (fd : Source) :
    get_sectors (n + 1) st fd
      = (get_sector st fd).bind fun (rtn, st, fd) =>
          (get_sectors n st fd).bind fun (rtns, st, fd) => .ret (rtn :: rtns, st, fd) := rfl

theorem get_sectors_length :
    ∀ (n : Nat) (st : State) (fd : Source) (rs : List gs_rtn_t) (st' : State) (fd' : Source),
      get_sectors n st fd = .ret (rs, st', fd') → rs.length = n := by
  intro n
  induction n with
  | zero => intro st fd rs st' fd' h; cases h; rfl
  | succ n ih =>
    intro st fd rs st' fd' h
    simp only [get_sectors] at h
    obtain ⟨⟨r1, sta, fda⟩, _, hb⟩ := Outcome.bind_eq_ret h
    obtain ⟨⟨rt, stb, fdb⟩, hc, hd⟩ := Outcome.bind_eq_ret hb
    cases hd
    simp only [List.length_cons, ih _ _ _ _ _ hc]

/-- Over sectors that are all turned down, the expected counter advances by one
for every `GS_SEQ_FAIL` and stays for every `GS_CHKSUM_FAIL`. -/
theorem get_sectors_rejected (fd : Source) (mids : List (List Nat)) :
    ∀ (st : State) (rs : List gs_rtn_t) (tl : Source) (rtns : List gs_rtn_t) (st' : State)
      (fd' : Source),
      (∀ s ∈ mids, is_sector s) →
      get_sectors (mids.length + tl.length) st (mids.map .bytes ++ tl ++ fd)
        = .ret (rs ++ rtns, st', fd') →
      rs.length = mids.length →
      (∀ r ∈ rs, r ≠ GS_OK) →
      ∃ st1, get_sectors tl.length st1 (tl ++ fd) = .ret (rtns, st', fd') ∧
        (st1.cur_seq + 1) % 65536 = (st.cur_seq + rs.count GS_SEQ_FAIL + 1) % 65536 := by
  induction mids with
  | nil =>
    intro st rs tl rtns st' fd' _ h hl _
    have : rs = [] := List.length_eq_zero.mp hl
    subst this
    refine ⟨st, ?_, by simp⟩
    simpa using h
  | cons s ss ih =>
    intro st rs tl rtns st' fd' hm h hl hr
    match rs, hl with
    | r :: rs, hl =>
      have hs := hm s (List.mem_cons_self _ _)
      have e : (s :: ss).length + tl.length = (ss.length + tl.length) + 1 := by
        simp only [List.length_cons]; omega
      rw [e] at h
      simp only [List.map_cons, List.cons_append, get_sectors] at h
      rw [get_sector_full st _ s hs] at h
      have hr0 : r ≠ GS_OK := hr r (List.mem_cons_self _ _)
      have key : ∀ (x : gs_rtn_t) (stx : State),
          ((Outcome.ret (x, stx, ss.map ReadResult.bytes ++ tl ++ fd) :
              Outcome (gs_rtn_t × State × Source)).bind fun (rtn, st, fd) =>
            (get_sectors (ss.length + tl.length) st fd).bind fun (rtns, st, fd) =>
              .ret (rtn :: rtns, st, fd)) = .ret (r :: (rs ++ rtns), st', fd') →
          x = r ∧ get_sectors (ss.length + tl.length) stx (ss.map .bytes ++ tl ++ fd)
            = .ret (rs ++ rtns, st', fd') := by
        intro x stx hx
        simp only [Outcome.bind_ret] at hx
        obtain ⟨⟨rt, st2, fd2⟩, h1, h2⟩ := Outcome.bind_eq_ret hx
        simp only [Outcome.ret.injEq, Prod.mk.injEq, List.cons.injEq] at h2
        obtain ⟨⟨hxr, hrt⟩, hst, hfd⟩ := h2
        subst hrt hst hfd
        exact ⟨hxr, h1⟩
      have hrs : ∀ r ∈ rs, r ≠ GS_OK := fun x hx => hr x (List.mem_cons_of_mem _ hx)
      have hss : ∀ s ∈ ss, is_sector s := fun x hx => hm x (List.mem_cons_of_mem _ hx)
      have hl2 : rs.length = ss.length := by simpa using hl
      split at h
      · obtain ⟨hx, h1⟩ := key _ _ h
        obtain ⟨st1, h2, h3⟩ := ih _ rs tl rtns st' fd' hss h1 hl2 hrs
        refine ⟨st1, h2, ?_⟩
        rw [h3, ← hx]
        simp
      · split at h
        · obtain ⟨hx, h1⟩ := key _ _ h
          obtain ⟨st1, h2, h3⟩ := ih _ rs tl rtns st' fd' hss h1 hl2 hrs
          refine ⟨st1, h2, ?_⟩
          rw [h3, ← hx]
          simp only [List.count_cons_self]
          omega
        · obtain ⟨hx, _⟩ := key _ _ h
          exact absurd hx.symm hr0

/-- C3 (counterexample): from the fresh state the checksum-valid sectors
numbered 0, 7 and 2 get the statuses `GS_OK`, `GS_SEQ_FAIL`, `GS_OK`.  The third
sector is accepted although it carries 2, which is not the sequence number 0 of
the previous accepted sector plus one: the counter advanced on the rejected
sector too. -/
theorem get_sector_accepts_after_reject :
    (∀ s ∈ [mk_sector [] 0, mk_sector [] 7, mk_sector [] 2], is_sector s ∧ chksum_valid s) ∧
    get_sectors 3 State.init ([mk_sector [] 0, mk_sector [] 7, mk_sector [] 2].map .bytes)
      = .ret ([GS_OK, GS_SEQ_FAIL, GS_OK], State.at_offset (mk_sector [] 2) 2 0, []) ∧
    stored_seq (mk_sector [] 0) = 0 ∧ stored_seq (mk_sector [] 2) = 2 ∧
    stored_seq (mk_sector [] 2) ≠ (stored_seq (mk_sector [] 0) + 1) % 65536 := by
  set_option maxRecDepth 1000000 in
  refine ⟨by decide, by decide, by decide, by decide, by decide⟩

/-- C3 (amended): from the freshly initialised state (`cur_seq = 0xFFFF`), for
every list of checksum-valid sectors whose i-th sector carries sequence number
i mod 65536, every `get_sector` call returns `GS_OK`; the same holds from every
state when the sectors are numbered upwards, modulo 65536, from the expected
counter plus one (so also across the wrap from 65535 to 0).  An accepted sector
carries the expected counter plus one, and the counter advances by one on every
checksum-valid sector, accepted or rejected with `GS_SEQ_FAIL`, and stays on a
checksum failure: whenever two successive calls both accept their sector, the
second sector carries the sequence number of the first plus one modulo 65536,
and whenever the calls between two accepting calls all reject their sector, k
of them with `GS_SEQ_FAIL`, the later accepted sector carries the sequence
number of the earlier one plus k + 1 modulo 65536. -/
theorem get_sector_in_sequence (sectors : List (List Nat)) (rest : Source)
    (hv : ∀ s ∈ sectors, is_sector s ∧ chksum_valid s)
    (hq : ∀ i, i < sectors.length → stored_seq (sectors.getD i []) = i % 65536) :
    (∃ st', get_sectors sectors.length State.init (sectors.map .bytes ++ rest)
        = .ret (List.replicate sectors.length GS_OK, st', rest)) ∧
    (∀ (st : State) (secs : List (List Nat)) (fd : Source),
      (∀ s ∈ secs, is_sector s ∧ chksum_valid s) →
      (∀ i, i < secs.length → stored_seq (secs.getD i []) = (st.cur_seq + 1 + i) % 65536) →
      ∃ st', get_sectors secs.length st (secs.map .bytes ++ fd)
        = .ret (List.replicate secs.length GS_OK, st', fd)) ∧
    (∀ (st : State) (s1 s2 : List Nat) (fd : Source) (st1 st2 : State) (fd1 fd2 : Source),
      is_sector s1 → is_sector s2 →
      get_sector st (.bytes s1 :: fd) = .ret (GS_OK, st1, fd1) →
      get_sector st1 (.bytes s2 :: fd1) = .ret (GS_OK, st2, fd2) →
      stored_seq s2 = (stored_seq s1 + 1) % 65536) ∧
    (∀ (st : State) (s1 s2 : List Nat) (mids : List (List Nat)) (fd : Source)
        (rs : List gs_rtn_t) (st' : State) (fd' : Source),
      is_sector s1 → is_sector s2 → (∀ s ∈ mids, is_sector s) →
      get_sectors (mids.length + 2) st ((s1 :: mids ++ [s2]).map .bytes ++ fd)
        = .ret (GS_OK :: rs ++ [GS_OK], st', fd') →
      (∀ r ∈ rs, r ≠ GS_OK) →
      stored_seq s2 = (stored_seq s1 + rs.count GS_SEQ_FAIL + 1) % 65536) := by
  refine ⟨?_, fun st secs fd h1 h2 => get_sectors_chain fd secs st h1 h2, ?_, ?_⟩
  · apply get_sectors_chain rest sectors State.init hv
    intro i hi
    rw [hq i hi]
    show i % 65536 = (65535 + 1 + i) % 65536
    omega
  · intro st s1 s2 fd st1 st2 fd1 fd2 h1 h2 e1 e2
    rw [get_sector_full st fd s1 h1] at e1
    rw [get_sector_full st1 fd1 s2 h2] at e2
    split at e1
    · cases e1
    · split at e1
      · cases e1
      · rename_i hq1
        split at e2
        · cases e2
        · split at e2
          · cases e2
          · rename_i hq2
            cases e1
            simp only [ne_eq, not_not] at hq1 hq2
            rw [← hq2, ← hq1]
  · intro st s1 s2 mids fd rs st' fd' h1 h2 hm h hr
    have e : mids.length + 2 = (mids.length + 1) + 1 := rfl
    rw [e, get_sectors_succ] at h
    simp only [List.map_cons, List.cons_append] at h
    obtain ⟨⟨r1, sta, fda⟩, ha, hb⟩ := Outcome.bind_eq_ret h
    obtain ⟨⟨rt, stb, fdb⟩, hc, hd⟩ := Outcome.bind_eq_ret hb
    simp only [Outcome.ret.injEq, Prod.mk.injEq, List.cons.injEq] at hd
    obtain ⟨⟨hr1, hrt⟩, hst, hfd⟩ := hd
    subst hr1 hrt hst hfd
    rw [get_sector_full st _ s1 h1] at ha
    have hseq1 : sta.cur_seq = stored_seq s1 ∧ fda = mids.map .bytes ++ [.bytes s2] ++ fd := by
      split at ha
      · cases ha
      · split at ha
        · cases ha
        · rename_i hq1
          cases ha
          simp only [ne_eq, not_not] at hq1
          exact ⟨hq1, by simp⟩
    obtain ⟨hq1, hfda⟩ := hseq1
    subst hfda
    replace hc : get_sectors (mids.length + [ReadResult.bytes s2].length) sta
        (mids.map .bytes ++ [.bytes s2] ++ fd) = .ret (rs ++ [GS_OK], stb, fdb) := hc
    obtain ⟨st1, hlast, hcnt⟩ := get_sectors_rejected fd mids sta rs [.bytes s2] [GS_OK] stb fdb hm
      hc (by
        have := get_sectors_length _ _ _ _ _ _ hc
        simpa using this) hr
    simp only [List.length_singleton, List.singleton_append, get_sectors] at hlast
    rw [get_sector_full st1 _ s2 h2] at hlast
    split at hlast
    · cases hlast
    · split at hlast
      · cases hlast
      · rename_i hq2
        simp only [ne_eq, not_not] at hq2
        rw [← hq2, hcnt, hq1]

set_option maxRecDepth 100000 in
theorem get_sector_in_sequence_witness :
    (∃ st', get_sectors 3 State.init
        ([mk_sector [1] 0, mk_sector [2] 1, mk_sector [3] 2].map .bytes ++ [])
        = .ret (List.replicate 3 GS_OK, st', [])) ∧
    (∃ st', get_sectors 3 { State.init with cur_seq := 65534 }
        ([mk_sector [1] 65535, mk_sector [2] 0, mk_sector [3] 1].map .bytes ++ [])
        = .ret (List.replicate 3 GS_OK, st', [])) ∧
    stored_seq (mk_sector [] 2)
      = (stored_seq (mk_sector [] 0) + [GS_SEQ_FAIL].count GS_SEQ_FAIL + 1) % 65536 :=
  ⟨(get_sector_in_sequence [mk_sector [1] 0, mk_sector [2] 1, mk_sector [3] 2] []
      (by decide) (by decide)).1,
   (get_sector_in_sequence [mk_sector [1] 0, mk_sector [2] 1, mk_sector [3] 2] []
      (by decide) (by decide)).2.1 { State.init with cur_seq := 65534 }
      [mk_sector [1] 65535, mk_sector [2] 0, mk_sector [3] 1] [] (by decide) (by decide),
   (get_sector_in_sequence [mk_sector [1] 0, mk_sector [2] 1, mk_sector [3] 2] []
      (by decide) (by decide)).2.2.2 State.init (mk_sector [] 0) (mk_sector [] 2)
      [mk_sector [] 7] [] [GS_SEQ_FAIL] (State.at_offset (mk_sector [] 2) 2 0) []
      (by decide) (by decide) (by decide) (by decide) (by decide)⟩

/-! ## Lemmas on get_next_dblk -/

theorem splice_length (mem : List Nat) (i : Nat) (bs : List Nat)
    (h : i + bs.length ≤ mem.length) : (splice mem i bs).length = mem.length := by
  simp only [splice, List.length_append, List.length_take, List.length_drop]
  omega

theorem splice_nil (mem : List Nat) (i : Nat) : splice mem i [] = mem := by
  simp [splice]

theorem poke_splice (mem : List Nat) (i : Nat) (bs : List Nat) (v : Nat)
    (h : i + bs.length < mem.length) :
    poke (splice mem i bs) (i + bs.length) v = some (splice mem i (bs ++ [v])) := by
  have hl : (mem.take i ++ bs).length = i + bs.length := by
    simp only [List.length_append, List.length_take]; omega
  have hlen := splice_length mem i bs (by omega)
  unfold poke
  rw [if_pos (by omega)]
  congr 1
  unfold splice
  rw [List.set_append_right _ _ (by omega), hl, Nat.sub_self,
    List.drop_eq_getElem_cons h, List.set_cons_zero]
  simp [List.append_assoc, Nat.add_assoc]

theorem emitted_splice (mem : List Nat) (i : Nat) (bs : List Nat)
    (h : i + bs.length ≤ mem.length) :
    ((splice mem i bs).drop i).take bs.length = bs := by
  have hl : (mem.take i).length = i := by
    simp only [List.length_take]; omega
  unfold splice
  rw [List.append_assoc]
  conv_lhs => rw [show List.drop i (List.take i mem ++ (bs ++ List.drop (i + bs.length) mem))
    = bs ++ List.drop (i + bs.length) mem from by
      have := List.drop_left (List.take i mem) (bs ++ List.drop (i + bs.length) mem)
      rwa [hl] at this]
  exact List.take_left _ _

theorem field_encode_length (f : Field) (v : Nat) : (field_encode f v).length = f.size := by
  unfold field_encode
  split <;> simp

theorem tmsg_write_some (mem : List Nat) (msg : tmsg_t) (f : Field) (v : Nat)
    (h : msg.data + msg.len ≤ mem.length) :
    ∃ mem', tmsg_write mem msg f v = some mem' ∧ mem'.length = mem.length := by
  unfold tmsg_write
  split
  · rw [if_pos (by omega)]
    refine ⟨_, rfl, ?_⟩
    simp only [List.length_append, List.length_take, List.length_drop, field_encode_length]
    omega
  · exact ⟨_, rfl, rfl⟩

theorem poke_some (mem : List Nat) (i v : Nat) (h : i < mem.length) :
    ∃ mem', poke mem i v = some mem' ∧ mem'.length = mem.length := by
  unfold poke
  rw [if_pos h]
  exact ⟨_, rfl, by simp⟩

/-- The envelope code succeeds on a buffer that holds `l` bytes and leaves the
three header bytes right after the envelope. -/
theorem dblk_envelope_some (cfg : Config) (bp : List Nat) (l hdr0 hdr1 hdr2 : Nat)
    (hl : 1 ≤ l) (hbp : l ≤ bp.length) (hd : 1 + cfg.spacket_data_offset + 3 ≤ bp.length) :
    ∃ y, dblk_envelope cfg bp l hdr0 hdr1 hdr2
        = some (splice y (1 + cfg.spacket_data_offset) [hdr0, hdr1, hdr2]) ∧
      y.length = bp.length := by
  obtain ⟨y0, e0, l0⟩ := poke_some bp 0 cfg.SERIAL_TOS_SERIAL_ACTIVE_MESSAGE_ID (by omega)
  obtain ⟨y1, e1, l1⟩ := tmsg_write_some y0 ⟨1, l - 1⟩ cfg.spacket_header_dest 0xffff
    (by simp only; omega)
  obtain ⟨y2, e2, l2⟩ := tmsg_write_some y1 ⟨1, l - 1⟩ cfg.spacket_header_src 0
    (by simp only; omega)
  obtain ⟨y3, e3, l3⟩ := tmsg_write_some y2 ⟨1, l - 1⟩ cfg.spacket_header_length l
    (by simp only; omega)
  obtain ⟨y4, e4, l4⟩ := tmsg_write_some y3 ⟨1, l - 1⟩ cfg.spacket_header_group 0
    (by simp only; omega)
  obtain ⟨y5, e5, l5⟩ := tmsg_write_some y4 ⟨1, l - 1⟩ cfg.spacket_header_type
    cfg.MM3_DATA_MSG_AM_TYPE (by simp only; omega)
  have hy : y5.length = bp.length := by omega
  refine ⟨y5, ?_, hy⟩
  have p0 := poke_splice y5 (1 + cfg.spacket_data_offset) [] hdr0 (by simp; omega)
  have p1 := poke_splice y5 (1 + cfg.spacket_data_offset) [hdr0] hdr1 (by simp; omega)
  have p2 := poke_splice y5 (1 + cfg.spacket_data_offset) [hdr0, hdr1] hdr2 (by simp; omega)
  simp only [splice_nil, List.length_nil, Nat.add_zero, List.nil_append, List.length_cons,
    List.cons_append, List.length_singleton] at p0 p1 p2
  simp only [dblk_envelope, e0, e1, e2, e3, e4, e5, Option.bind_eq_bind, Option.some_bind,
    p0, p1]
  exact p2

theorem read_ok_succ (cfg : Config) (fuel n : Nat) (st : State) (fd : Source)
    (b : Nat) (bs : List Nat) (st' : State) (fd' : Source)
    (h : read_ok cfg fuel (n + 1) st fd = some (b :: bs, st', fd')) :
    ∃ st1 fd1, get_next_sector_byte cfg fuel st fd = .ret (GS_OK, some b, st1, fd1) ∧
      read_ok cfg fuel n st1 fd1 = some (bs, st', fd') := by
  simp only [read_ok] at h
  split at h
  · rename_i b1 st1 fd1 heq
    split at h
    · rename_i bs1 st2 fd2 heq2
      simp only [Option.some.injEq, Prod.mk.injEq, List.cons.injEq] at h
      obtain ⟨⟨rfl, rfl⟩, rfl, rfl⟩ := h
      exact ⟨st1, fd1, heq, heq2⟩
    · cases h
  · cases h

theorem read_ok_length (cfg : Config) (fuel : Nat) :
    ∀ (n : Nat) (st : State) (fd : Source) (bs : List Nat) (st' : State) (fd' : Source),
      read_ok cfg fuel n st fd = some (bs, st', fd') → bs.length = n := by
  intro n
  induction n with
  | zero =>
    intro st fd bs st' fd' h
    simp only [read_ok, Option.some.injEq, Prod.mk.injEq] at h
    rw [← h.1]; rfl
  | succ n ih =>
    intro st fd bs st' fd' h
    cases bs with
    | nil =>
      simp only [read_ok] at h
      split at h
      · split at h
        · simp at h
        · cases h
      · cases h
    | cons b bs =>
      obtain ⟨st1, fd1, _, h2⟩ := read_ok_succ cfg fuel n st fd b bs st' fd' h
      simp [ih st1 fd1 bs st' fd' h2]

/-- The payload loop stores the bytes of `n` fault-free reads behind what is
already in place. -/
theorem dblk_payload_read_ok (cfg : Config) (fuel : Nat) (bp : List Nat) :
    ∀ (n : Nat) (pre : List Nat) (st : State) (fd : Source) (payload : List Nat)
      (st' : State) (fd' : Source),
      read_ok cfg fuel n st fd = some (payload, st', fd') →
      1 + cfg.spacket_data_offset + pre.length + n ≤ bp.length →
      dblk_payload cfg fuel n pre.length st fd (splice bp (1 + cfg.spacket_data_offset) pre)
        = .ret (GS_OK, splice bp (1 + cfg.spacket_data_offset) (pre ++ payload), st', fd') := by
  intro n
  induction n with
  | zero =>
    intro pre st fd payload st' fd' h _
    simp only [read_ok, Option.some.injEq, Prod.mk.injEq] at h
    obtain ⟨rfl, rfl, rfl⟩ := h
    simp [dblk_payload]
  | succ n ih =>
    intro pre st fd payload st' fd' h hbp
    have hlen := read_ok_length cfg fuel _ _ _ _ _ _ h
    cases payload with
    | nil => simp at hlen
    | cons b bs =>
      obtain ⟨st1, fd1, h1, h2⟩ := read_ok_succ cfg fuel n st fd b bs st' fd' h
      have hp := poke_splice bp (1 + cfg.spacket_data_offset) pre b (by omega)
      have := ih (pre ++ [b]) st1 fd1 bs st' fd' h2 (by simp; omega)
      simp only [List.length_append, List.length_singleton, List.append_assoc,
        List.singleton_append] at this
      simp only [dblk_payload, h1, Outcome.bind_ret, hp, Outcome.ofOption, ne_eq,
        not_true_eq_false, if_false, this]

theorem tmsg_read_window (mem : List Nat) (d len : Nat) (f : Field)
    (h : d + len ≤ mem.length) :
    tmsg_read mem { data := d, len := len } f
      = tmsg_read ((mem.drop d).take len)
          { data := 0, len := ((mem.drop d).take len).length } f := by
  have hl : ((mem.drop d).take len).length = len := by
    simp only [List.length_take, List.length_drop]; omega
  rw [hl]
  unfold tmsg_read
  by_cases hf : f.offset + f.size ≤ len
  · simp only [hf, if_true, hl]
    rw [if_pos (by omega), if_pos (by omega)]
    congr 2
    rw [List.drop_take, List.drop_drop, List.take_take, Nat.zero_add,
      Nat.min_eq_left (by omega)]
  · simp only [hf, if_false]

theorem tmsg_read_self (blk : List Nat) (f : Field) :
    ∃ v, tmsg_read blk { data := 0, len := blk.length } f = some v := by
  unfold tmsg_read
  by_cases hf : f.offset + f.size ≤ blk.length
  · simp only [hf, if_true]
    rw [if_pos (by omega)]
    exact ⟨_, rfl⟩
  · simp only [hf, if_false]
    exact ⟨_, rfl⟩

/-- The `switch`, run on a dblk taken as a message of its own: it yields
`GS_OK` or `GS_BAD_DBLK`, and `GS_OK` exactly when the length rule holds. -/
theorem dblk_rule_spec (cfg : Config) (hcfg : cfg.wf) (blk : List Nat) (dtype : Nat) :
    ∃ rtn, dblk_rule cfg blk { data := 0, len := blk.length } dtype blk.length = .ret rtn ∧
      (rtn = GS_OK ∨ rtn = GS_BAD_DBLK) ∧
      (rtn = GS_OK ↔ length_rule cfg dtype blk.length (embedded_sns_id cfg blk)) := by
  obtain ⟨hnd, htab, _⟩ := hcfg
  simp only [Config.case_labels, List.nodup_cons, List.mem_cons, List.mem_singleton,
    List.not_mem_nil, not_or, List.nodup_nil, or_false, not_false_eq_true, and_true] at hnd
  obtain ⟨v, hv⟩ := tmsg_read_self blk cfg.dt_sensor_data_sns_id
  have hid : embedded_sns_id cfg blk = v % 256 := by
    simp only [embedded_sns_id, hv, Option.getD_some]
  unfold dblk_rule length_rule
  rw [hid, hv]
  by_cases h1 : dtype = cfg.DT_IGNORE
  · subst h1
    by_cases hl : blk.length = 0
    · exact ⟨GS_OK, by simp [hl], Or.inl rfl, by simp [hl]⟩
    · refine ⟨GS_BAD_DBLK, by simp [hl], Or.inr rfl, ?_⟩
      simp only [hl, and_false, false_or, reduceCtorEq, false_iff]
      tauto
  by_cases h2 : dtype = cfg.DT_SYNC
  · subst h2
    by_cases hl : blk.length = cfg.DT_HDR_SIZE_SYNC
    · exact ⟨GS_OK, by simp [h1, hl], Or.inl rfl, by simp [hl]⟩
    · refine ⟨GS_BAD_DBLK, by simp [h1, hl], Or.inr rfl, ?_⟩
      simp only [hl, and_false, false_or, reduceCtorEq, false_iff]
      tauto
  by_cases h3 : dtype = cfg.DT_SYNC_RESTART
  · subst h3
    by_cases hl : blk.length = cfg.DT_HDR_SIZE_SYNC
    · exact ⟨GS_OK, by simp [h1, h2, hl], Or.inl rfl, by simp [hl]⟩
    · refine ⟨GS_BAD_DBLK, by simp [h1, h2, hl], Or.inr rfl, ?_⟩
      simp only [hl, and_false, false_or, reduceCtorEq, false_iff]
      tauto
  by_cases h4 : dtype = cfg.DT_PANIC
  · subst h4
    by_cases hl : blk.length = cfg.DT_HDR_SIZE_PANIC
    · exact ⟨GS_OK, by simp [h1, h2, h3, hl], Or.inl rfl, by simp [hl]⟩
    · refine ⟨GS_BAD_DBLK, by simp [h1, h2, h3, hl], Or.inr rfl, ?_⟩
      simp only [hl, and_false, false_or, reduceCtorEq, false_iff]
      tauto
  by_cases h5 : dtype = cfg.DT_SENSOR_DATA
  · subst h5
    obtain ⟨n56, n57, n58⟩ := hnd.2.2.2.2.1
    clear hnd hid hv
    rw [if_neg h1, if_neg h2, if_neg h3, if_neg h4, if_pos rfl]
    simp only [Outcome.ofOption, Outcome.bind_ret]
    by_cases hs : v % 256 < 1 ∨ v % 256 ≥ cfg.MM3_NUM_SENSORS
    · rw [if_pos hs]
      have hs1 : ¬ (1 ≤ v % 256 ∧ v % 256 < cfg.MM3_NUM_SENSORS) := by omega
      refine ⟨GS_BAD_DBLK, rfl, Or.inr rfl, ?_⟩
      simp only [reduceCtorEq, false_iff]
      tauto
    · have hlt : v % 256 < cfg.sns_payload_len.length := by omega
      have hget : cfg.sns_payload_len[v % 256]? = some (cfg.sns_payload_len.getD (v % 256) 0) := by
        rw [List.getD_eq_getElem?_getD, List.getElem?_eq_getElem hlt]; rfl
      have hs1 : 1 ≤ v % 256 ∧ v % 256 < cfg.MM3_NUM_SENSORS := by omega
      rw [if_neg hs, hget]
      simp only [Outcome.ofOption, Outcome.bind_ret]
      by_cases hl : blk.length = cfg.sns_payload_len.getD (v % 256) 0 + cfg.DT_HDR_SIZE_SENSOR_DATA
      · rw [if_neg (not_not.mpr hl)]
        refine ⟨GS_OK, rfl, Or.inl rfl, ?_⟩
        simp only [true_iff]
        tauto
      · rw [if_pos hl]
        refine ⟨GS_BAD_DBLK, rfl, Or.inr rfl, ?_⟩
        simp only [reduceCtorEq, false_iff]
        tauto
  by_cases h6 : dtype = cfg.DT_TEST
  · subst h6
    refine ⟨GS_OK, ?_, Or.inl rfl, by simp⟩
    rw [if_neg h1, if_neg h2, if_neg h3, if_neg h4, if_neg h5, if_pos rfl]
  by_cases h7 : dtype = cfg.DT_GPS_RAW
  · subst h7
    refine ⟨GS_OK, ?_, Or.inl rfl, by simp⟩
    rw [if_neg h1, if_neg h2, if_neg h3, if_neg h4, if_neg h5, if_neg h6, if_pos rfl]
  by_cases h8 : dtype = cfg.DT_VERSION
  · subst h8
    by_cases hl : blk.length = cfg.DT_HDR_SIZE_VERSION
    · exact ⟨GS_OK, by simp [h1, h2, h3, h4, h5, h6, h7, hl], Or.inl rfl, by simp [hl]⟩
    · refine ⟨GS_BAD_DBLK, by simp [h1, h2, h3, h4, h5, h6, h7, hl], Or.inr rfl, ?_⟩
      simp only [hl, and_false, false_or, reduceCtorEq, false_iff]
      tauto
  · exact ⟨GS_BAD_DBLK, by simp [h1, h2, h3, h4, h5, h6, h7, h8], Or.inr rfl,
      by simp [h1, h2, h3, h4, h5, h6, h7, h8]⟩

theorem dblk_rule_window (cfg : Config) (mem : List Nat) (d len dtype n : Nat)
    (h : d + len ≤ mem.length) :
    dblk_rule cfg mem { data := d, len := len } dtype n
      = dblk_rule cfg ((mem.drop d).take len)
          { data := 0, len := ((mem.drop d).take len).length } dtype n := by
  unfold dblk_rule
  rw [tmsg_read_window mem d len _ h]

/-- The call `get_next_dblk` on a block whose header is valid and whose `len` bytes are
read without a cursor fault: it returns with `*len = len + 1 + SPACKET_SIZE`,
the block stored behind the envelope, the statics and the file as the reads
left them, and the status the length rule gives. -/
theorem get_next_dblk_read_ok (cfg : Config) (fuel : Nat) (st : State) (fd : Source)
    (bp : List Nat) (len h0 h1 h2 : Nat) (payload : List Nat) (st' : State) (fd' : Source)
    (hcfg : cfg.wf)
    (hread : read_ok cfg fuel len st fd = some (h0 :: h1 :: h2 :: payload, st', fd'))
    (hb0 : h0 < 256) (hb1 : h1 < 256) (hlen : 256 * h0 + h1 = len)
    (hdt : h2 < cfg.DT_MAX)
    (hbp : len + 1 + cfg.SPACKET_SIZE ≤ bp.length) :
    ∃ y rtn, y.length = bp.length ∧
      get_next_dblk cfg fuel st fd bp
        = .ret (rtn, len + 1 + cfg.SPACKET_SIZE,
                splice y (1 + cfg.SPACKET_SIZE) (h0 :: h1 :: h2 :: payload), st', fd') ∧
      (rtn = GS_OK ∨ rtn = GS_BAD_DBLK) ∧
      (rtn = GS_OK ↔
        length_rule cfg h2 len (embedded_sns_id cfg (h0 :: h1 :: h2 :: payload))) := by
  have hoff : cfg.spacket_data_offset = cfg.SPACKET_SIZE := hcfg.2.2
  have hl := read_ok_length cfg fuel _ _ _ _ _ _ hread
  simp only [List.length_cons] at hl
  obtain ⟨n, rfl⟩ : ∃ n, len = n + 3 := ⟨payload.length, by omega⟩
  have hn : payload.length = n := by omega
  obtain ⟨s1, f1, r1, hread⟩ := read_ok_succ cfg fuel _ st fd h0 _ st' fd' hread
  obtain ⟨s2, f2, r2, hread⟩ := read_ok_succ cfg fuel _ s1 f1 h1 _ st' fd' hread
  obtain ⟨s3, f3, r3, hread⟩ := read_ok_succ cfg fuel _ s2 f2 h2 _ st' fd' hread
  obtain ⟨y, hy, hylen⟩ := dblk_envelope_some cfg bp (n + 3 + 1 + cfg.SPACKET_SIZE) h0 h1 h2
    (by omega) hbp (by omega)
  have hpay := dblk_payload_read_ok cfg fuel y n [h0, h1, h2] s3 f3 payload st' fd' hread
    (by simp only [List.length_cons, List.length_nil]; omega)
  simp only [List.length_cons, List.length_nil, Nat.zero_add, Nat.reduceAdd,
    List.cons_append, List.nil_append] at hpay
  have hlen' : (h0 * 256 + h1) % 65536 = n + 3 := by omega
  have hblk : (h0 :: h1 :: h2 :: payload).length = n + 3 := by
    simp only [List.length_cons]; omega
  have hsl : (splice y (1 + cfg.SPACKET_SIZE) (h0 :: h1 :: h2 :: payload)).length = y.length :=
    splice_length _ _ _ (by rw [hblk]; omega)
  have hem := emitted_splice y (1 + cfg.SPACKET_SIZE) (h0 :: h1 :: h2 :: payload)
    (by rw [hblk]; omega)
  rw [hblk] at hem
  have hrule := dblk_rule_window cfg (splice y (1 + cfg.SPACKET_SIZE) (h0 :: h1 :: h2 :: payload))
    (1 + cfg.SPACKET_SIZE) (n + 3) h2 (n + 3) (by rw [hsl]; omega)
  rw [hem] at hrule
  obtain ⟨rtn, hr, hor, hiff⟩ := dblk_rule_spec cfg hcfg (h0 :: h1 :: h2 :: payload) h2
  rw [hblk] at hr hiff
  rw [hblk] at hrule
  refine ⟨y, rtn, hylen, ?_, hor, hiff⟩
  have hc : ¬ (h2 ≥ cfg.DT_MAX ∨ n + 3 < 3) := by omega
  have e1 : n + 3 - 3 = n := by omega
  have e2 : n + 3 + 1 + cfg.SPACKET_SIZE - 1 - cfg.SPACKET_SIZE = n + 3 := by omega
  rw [hoff] at hy hpay
  simp only [get_next_dblk, r1, r2, r3, Outcome.bind_ret, ne_eq, not_true_eq_false, if_false,
    stored_byte, dblk_body, hlen', hc, hy, Outcome.ofOption, e1, hoff]
  simp only [hpay, Outcome.bind_ret, ne_eq, not_true_eq_false, if_false, e2, hrule, hr]

/-! ## Lemmas on the logical stream -/

theorem deliver_unread (rtn : gs_rtn_t) (st : State) (fd : Source)
    (h1 : 1 ≤ st.remaining_bytes)
    (h2 : st.cur_sector_ptr + st.remaining_bytes ≤ st.sector_data.length)
    (h3 : st.remaining_bytes < 65536) :
    ∃ b, deliver rtn st fd
        = .ret (rtn, some b,
            { st with cur_sector_ptr := st.cur_sector_ptr + 1,
                      remaining_bytes := st.remaining_bytes - 1 }, fd) ∧
      unread st = b :: unread { st with cur_sector_ptr := st.cur_sector_ptr + 1,
                                        remaining_bytes := st.remaining_bytes - 1 } := by
  have hc : st.cur_sector_ptr < st.sector_data.length := by omega
  refine ⟨st.sector_data[st.cur_sector_ptr], ?_, ?_⟩
  · have hm : (st.remaining_bytes + 65535) % 65536 = st.remaining_bytes - 1 := by omega
    simp only [deliver, List.getElem?_eq_getElem hc, hm]
  · obtain ⟨r, hr⟩ : ∃ r, st.remaining_bytes = r + 1 := ⟨st.remaining_bytes - 1, by omega⟩
    simp only [unread, hr, List.drop_eq_getElem_cons hc, List.take_succ_cons,
      Nat.add_sub_cancel]

theorem stream_of_cons (s : List Nat) (ss : List (List Nat)) :
    stream_of (s :: ss) = s.take 508 ++ stream_of ss := by
  simp [stream_of]

theorem stream_of_nil : stream_of [] = [] := rfl

/-- One byte of a well-formed stream: `get_next_sector_byte` returns `GS_OK`
with that byte and the rest of the stream is still ahead. -/
theorem get_next_sector_byte_feeds (cfg : Config) (fuel : Nat) (rest : Source) (st : State)
    (sectors : List (List Nat)) (b : Nat) (tl : List Nat)
    (h : feeds st sectors (b :: tl)) :
    ∃ st' sectors',
      get_next_sector_byte cfg fuel st (sectors.map .bytes ++ rest)
        = .ret (GS_OK, some b, st', sectors'.map .bytes ++ rest) ∧
      feeds st' sectors' tl := by
  obtain ⟨hin, hlt, hv, hq, hs⟩ := h
  by_cases hr : st.remaining_bytes = 0
  · have hu : unread st = [] := by simp [unread, hr]
    rw [hu, List.nil_append] at hs
    cases sectors with
    | nil => simp [stream_of_nil] at hs
    | cons s ss =>
      have hsec := hv s (List.mem_cons_self _ _)
      have h0 : stored_seq s = (st.cur_seq + 1) % 65536 := by
        simpa using hq 0 (by simp)
      have hacc := get_sector_accept st (ss.map .bytes ++ rest) s hsec.1 hsec.2 h0
      have hlen : s.length = 512 := hsec.1.1
      obtain ⟨b', hd, hun⟩ := deliver_unread GS_OK
        (State.mk s 0 508 ((st.cur_seq + 1) % 65536)) (ss.map .bytes ++ rest)
        (by simp) (by simp [hlen]) (by simp)
      have hu0 : unread (State.mk s 0 508 ((st.cur_seq + 1) % 65536)) = s.take 508 := by
        simp [unread]
      rw [hu0] at hun
      rw [stream_of_cons, hun, List.cons_append] at hs
      obtain ⟨rfl, rfl⟩ := List.cons.inj hs
      refine ⟨_, ss, ?_, ?_, ?_, ?_, ?_, rfl⟩
      · simp only [get_next_sector_byte, hr, if_true, List.map_cons, List.cons_append, hacc,
          Outcome.bind_ret, reduceCtorEq, if_false, ne_eq, not_true_eq_false, hd]
      · simp only [hlen]; omega
      · simp only; omega
      · exact fun x hx => hv x (List.mem_cons_of_mem _ hx)
      · intro i hi
        have := hq (i + 1) (by simpa using hi)
        simp only [List.getD_cons_succ] at this
        rw [this]
        show (st.cur_seq + 1 + (i + 1)) % 65536 = ((st.cur_seq + 1) % 65536 + 1 + i) % 65536
        omega
  · obtain ⟨b', hd, hun⟩ := deliver_unread GS_OK st (sectors.map .bytes ++ rest)
      (by omega) hin hlt
    rw [hun, List.cons_append] at hs
    obtain ⟨rfl, rfl⟩ := List.cons.inj hs
    refine ⟨{ st with cur_sector_ptr := st.cur_sector_ptr + 1,
                      remaining_bytes := st.remaining_bytes - 1 },
      sectors, ?_, ?_, ?_, hv, hq, rfl⟩
    · simp only [get_next_sector_byte, hr, if_false, hd]
    · simp only; omega
    · simp only; omega

/-- The next bytes of a well-formed stream are read without a cursor fault. -/
theorem read_ok_feeds (cfg : Config) (fuel : Nat) (rest : Source) (bs : List Nat) :
    ∀ (st : State) (sectors : List (List Nat)) (tl : List Nat),
      feeds st sectors (bs ++ tl) →
      ∃ st' sectors',
        read_ok cfg fuel bs.length st (sectors.map .bytes ++ rest)
          = some (bs, st', sectors'.map .bytes ++ rest) ∧
        feeds st' sectors' tl := by
  induction bs with
  | nil => intro st sectors tl h; exact ⟨st, sectors, rfl, h⟩
  | cons b bs ih =>
    intro st sectors tl h
    obtain ⟨st1, sec1, h1, hf1⟩ := get_next_sector_byte_feeds cfg fuel rest st sectors b
      (bs ++ tl) h
    obtain ⟨st2, sec2, h2, hf2⟩ := ih st1 sec1 tl hf1
    exact ⟨st2, sec2, by simp only [List.length_cons, read_ok, h1, h2], hf2⟩

/-- Away from `DT_IGNORE` the rule of the data model is the condition the
`switch` tests. -/
theorem record_length_rule_code (cfg : Config) (dtype len sns_id : Nat)
    (hd : dtype ≠ cfg.DT_IGNORE) (h : record_length_rule cfg dtype len sns_id) :
    length_rule cfg dtype len sns_id := by
  unfold record_length_rule at h
  unfold length_rule
  rcases h with ⟨h, _⟩ | h
  · exact absurd h hd
  · exact Or.inr h

theorem is_record_shape (cfg : Config) (r : List Nat) (h : is_record cfg r) :
    ∃ h0 h1 h2 payload, r = h0 :: h1 :: h2 :: payload ∧ h0 < 256 ∧ h1 < 256 ∧
      256 * h0 + h1 = r.length ∧ h2 < cfg.DT_MAX ∧ r.getD 2 0 = h2 ∧
      record_length_rule cfg h2 r.length (embedded_sns_id cfg r) := by
  obtain ⟨⟨hl, hb0, hb1⟩, h3, hdt, hrule⟩ := h
  match r, h3 with
  | h0 :: h1 :: h2 :: payload, _ =>
    simp only [List.getD_cons_zero, List.getD_cons_succ] at hl hb0 hb1 hdt hrule
    exact ⟨h0, h1, h2, payload, rfl, hb0, hb1, hl.symm, hdt, rfl, hrule⟩

/-- The records of a well-formed stream without padding records come out of
successive calls of `get_next_dblk`, each with `GS_OK`. -/
theorem get_dblks_feeds (cfg : Config) (fuel : Nat) (rest : Source) (hcfg : cfg.wf)
    (recs : List (List Nat)) :
    ∀ (st : State) (sectors : List (List Nat)) (tl : List Nat) (bp : List Nat),
      feeds st sectors (recs.flatten ++ tl) →
      (∀ r ∈ recs, is_record cfg r) →
      (∀ r ∈ recs, r.getD 2 0 ≠ cfg.DT_IGNORE) →
      (∀ r ∈ recs, r.length + 1 + cfg.SPACKET_SIZE ≤ bp.length) →
      ∃ bp' st' fd',
        get_dblks cfg fuel recs.length st (sectors.map .bytes ++ rest) bp
          = .ret (recs.map (fun r => (GS_OK, r)), bp', st', fd') := by
  induction recs with
  | nil => intro st sectors tl bp _ _ _ _; exact ⟨bp, st, _, rfl⟩
  | cons r rs ih =>
    intro st sectors tl bp hf hrec hni hbp
    obtain ⟨h0, h1, h2, payload, hr, hb0, hb1, hlen, hdt, hd2, hrule⟩ :=
      is_record_shape cfg r (hrec r (List.mem_cons_self _ _))
    have hrule := record_length_rule_code cfg h2 _ _
      (by rw [← hd2]; exact hni r (List.mem_cons_self _ _)) hrule
    subst hr
    rw [List.flatten_cons, List.append_assoc] at hf
    obtain ⟨st1, sec1, hread, hf1⟩ := read_ok_feeds cfg fuel rest _ st sectors _ hf
    have hbr := hbp _ (List.mem_cons_self _ _)
    obtain ⟨y, rtn, hy, hget, _, hiff⟩ := get_next_dblk_read_ok cfg fuel st
      (sectors.map .bytes ++ rest) bp _ h0 h1 h2 payload st1 _ hcfg hread hb0 hb1 hlen hdt hbr
    have hok : rtn = GS_OK := hiff.mpr hrule
    subst hok
    have hsl : (splice y (1 + cfg.SPACKET_SIZE) (h0 :: h1 :: h2 :: payload)).length
        = bp.length := by
      rw [splice_length _ _ _ (by omega), hy]
    obtain ⟨bp', st', fd', hrest⟩ := ih st1 sec1 tl _ hf1
      (fun x hx => hrec x (List.mem_cons_of_mem _ hx))
      (fun x hx => hni x (List.mem_cons_of_mem _ hx))
      (fun x hx => by rw [hsl]; exact hbp x (List.mem_cons_of_mem _ hx))
    have hem : emitted cfg ((h0 :: h1 :: h2 :: payload).length + 1 + cfg.SPACKET_SIZE)
        (splice y (1 + cfg.SPACKET_SIZE) (h0 :: h1 :: h2 :: payload))
        = h0 :: h1 :: h2 :: payload := by
      unfold emitted
      rw [show (h0 :: h1 :: h2 :: payload).length + 1 + cfg.SPACKET_SIZE
        - (1 + cfg.SPACKET_SIZE) = (h0 :: h1 :: h2 :: payload).length by omega]
      exact emitted_splice y _ _ (by omega)
    refine ⟨bp', st', fd', ?_⟩
    have e : ((h0 :: h1 :: h2 :: payload) :: rs).length = rs.length + 1 := rfl
    rw [e]
    simp only [get_dblks, hget, Outcome.bind_ret, hrest, hem, List.map_cons]

/-! ## The table `sns_payload_len` is read only inside `[1, MM3_NUM_SENSORS)` -/

theorem resync_loop_table (cfg : Config) (t : List Nat) :
    ∀ (fuel : Nat) (st : State) (fd : Source) (ic : Nat) (msg : tmsg_t) (bb : Nat),
      resync_loop { cfg with sns_payload_len := t } fuel st fd ic msg bb
        = resync_loop cfg fuel st fd ic msg bb := by
  intro fuel
  induction fuel with
  | zero => intros; rfl
  | succ n ih =>
    intro st fd ic msg bb
    simp only [resync_loop, ih]
    rfl

theorem get_next_sector_byte_table (cfg : Config) (t : List Nat) (fuel : Nat) (st : State)
    (fd : Source) :
    get_next_sector_byte { cfg with sns_payload_len := t } fuel st fd
      = get_next_sector_byte cfg fuel st fd := by
  simp only [get_next_sector_byte, resync, resync_loop_table]

theorem dblk_payload_table (cfg : Config) (t : List Nat) (fuel : Nat) :
    ∀ (n i : Nat) (st : State) (fd : Source) (bp : List Nat),
      dblk_payload { cfg with sns_payload_len := t } fuel n i st fd bp
        = dblk_payload cfg fuel n i st fd bp := by
  intro n
  induction n with
  | zero => intros; rfl
  | succ n ih =>
    intro i st fd bp
    simp only [dblk_payload, get_next_sector_byte_table, ih]

theorem dblk_rule_table (cfg : Config) (t : List Nat)
    (ht : ∀ i, 1 ≤ i → i < cfg.MM3_NUM_SENSORS → t[i]? = cfg.sns_payload_len[i]?)
    (bp : List Nat) (msg : tmsg_t) (dtype len : Nat) :
    dblk_rule { cfg with sns_payload_len := t } bp msg dtype len
      = dblk_rule cfg bp msg dtype len := by
  have key : ∀ v : Nat,
      (if v % 256 < 1 ∨ v % 256 ≥ cfg.MM3_NUM_SENSORS then Outcome.ret GS_BAD_DBLK
       else (Outcome.ofOption t[v % 256]?).bind fun payload_len =>
          if len ≠ payload_len + cfg.DT_HDR_SIZE_SENSOR_DATA then Outcome.ret GS_BAD_DBLK
          else Outcome.ret GS_OK)
      = (if v % 256 < 1 ∨ v % 256 ≥ cfg.MM3_NUM_SENSORS then Outcome.ret GS_BAD_DBLK
       else (Outcome.ofOption cfg.sns_payload_len[v % 256]?).bind fun payload_len =>
          if len ≠ payload_len + cfg.DT_HDR_SIZE_SENSOR_DATA then Outcome.ret GS_BAD_DBLK
          else Outcome.ret GS_OK) := by
    intro v
    by_cases hs : v % 256 < 1 ∨ v % 256 ≥ cfg.MM3_NUM_SENSORS
    · rw [if_pos hs, if_pos hs]
    · rw [if_neg hs, if_neg hs, ht _ (by omega) (by omega)]
  simp only [dblk_rule, key]

/-- The call `get_next_dblk` gives the same result under every table that agrees with
`sns_payload_len` on the indices of `[1, MM3_NUM_SENSORS)`. -/
theorem get_next_dblk_table (cfg : Config) (t : List Nat)
    (ht : ∀ i, 1 ≤ i → i < cfg.MM3_NUM_SENSORS → t[i]? = cfg.sns_payload_len[i]?)
    (fuel : Nat) (st : State) (fd : Source) (bp : List Nat) :
    get_next_dblk { cfg with sns_payload_len := t } fuel st fd bp
      = get_next_dblk cfg fuel st fd bp := by
  have hb : ∀ st fd bp h0 h1 h2,
      dblk_body { cfg with sns_payload_len := t } fuel st fd bp h0 h1 h2
        = dblk_body cfg fuel st fd bp h0 h1 h2 := by
    intro st fd bp h0 h1 h2
    simp only [dblk_body, dblk_payload_table, dblk_rule_table cfg t ht]
    rfl
  simp only [get_next_dblk, get_next_sector_byte_table, hb]

/-! ## Theorems on get_next_dblk -/

/-- For every list of records other than `DT_IGNORE` padding (2-byte big-endian
total length, 1-byte dtype, payload; header valid and length rule of the type
satisfied) whose concatenation starts the data regions of checksum-valid
sectors numbered 0, 1, 2, ..., the first m calls of `get_next_dblk` from the
fresh state all return `GS_OK`, and the i-th call leaves exactly the bytes of
the i-th record behind the envelope, wherever the sector boundaries fall. -/
theorem get_next_dblk_stream (cfg : Config) (fuel : Nat) (recs : List (List Nat))
    (sectors : List (List Nat)) (pad : List Nat) (rest : Source) (bp : List Nat)
    (hcfg : cfg.wf)
    (hv : ∀ s ∈ sectors, is_sector s ∧ chksum_valid s)
    (hq : ∀ i, i < sectors.length → stored_seq (sectors.getD i []) = i % 65536)
    (hrec : ∀ r ∈ recs, is_record cfg r)
    (hni : ∀ r ∈ recs, r.getD 2 0 ≠ cfg.DT_IGNORE)
    (hstream : stream_of sectors = recs.flatten ++ pad)
    (hbp : ∀ r ∈ recs, r.length + 1 + cfg.SPACKET_SIZE ≤ bp.length) :
    ∃ bp' st' fd',
      get_dblks cfg fuel recs.length State.init (sectors.map .bytes ++ rest) bp
        = .ret (recs.map (fun r => (GS_OK, r)), bp', st', fd') := by
  apply get_dblks_feeds cfg fuel rest hcfg recs State.init sectors pad bp ?_ hrec hni hbp
  refine ⟨Nat.zero_le _, by decide, hv, ?_, ?_⟩
  · intro i hi
    rw [hq i hi]
    show i % 65536 = (65535 + 1 + i) % 65536
    omega
  · rw [← hstream]
    rfl

set_option maxRecDepth 1000000 in
theorem get_next_dblk_stream_witness :
    ∃ bp' st' fd',
      get_dblks sample_cfg 0 3 State.init
        ([mk_sector ((sample_test ++ sample_sync ++ sample_sensor).take 508) 0,
          mk_sector ((sample_test ++ sample_sync ++ sample_sensor).drop 508) 1].map .bytes ++ [])
        (List.replicate 520 0)
        = .ret ([(GS_OK, sample_test), (GS_OK, sample_sync), (GS_OK, sample_sensor)],
                bp', st', fd') :=
  get_next_dblk_stream sample_cfg 0 [sample_test, sample_sync, sample_sensor]
    [mk_sector ((sample_test ++ sample_sync ++ sample_sensor).take 508) 0,
     mk_sector ((sample_test ++ sample_sync ++ sample_sensor).drop 508) 1]
    (List.replicate 486 0) [] (List.replicate 520 0)
    (by decide) (by decide) (by decide) (by decide) (by decide) (by decide) (by decide)

/-- C4 (evaluation at the failing input): the data region of sector 0 starts
with three records that each satisfy the length rule of their type: a SYNC
record, a `DT_IGNORE` padding record that is only its 3-byte header, and a
sensor record.  The three calls of `get_next_dblk` from the fresh state hand
out the bytes of the three records in order, with the statuses `GS_OK`,
`GS_BAD_DBLK`, `GS_OK`: the padding record is not accepted, because the
`DT_IGNORE` case of the `switch` asks for `cur_dblk_len == 0`. -/
theorem get_next_dblk_padding_rejected :
    (∀ r ∈ [sample_sync, sample_ignore, sample_sensor], is_record sample_cfg r) ∧
    (is_sector (mk_sector (sample_sync ++ sample_ignore ++ sample_sensor) 0) ∧
      chksum_valid (mk_sector (sample_sync ++ sample_ignore ++ sample_sensor) 0) ∧
      stored_seq (mk_sector (sample_sync ++ sample_ignore ++ sample_sensor) 0) = 0) ∧
    (mk_sector (sample_sync ++ sample_ignore ++ sample_sensor) 0).take 28
      = [sample_sync, sample_ignore, sample_sensor].flatten ∧
    get_dblks sample_cfg 0 3 State.init
        [.bytes (mk_sector (sample_sync ++ sample_ignore ++ sample_sensor) 0)]
        (List.replicate 22 0)
      = .ret ([(GS_OK, sample_sync), (GS_BAD_DBLK, sample_ignore), (GS_OK, sample_sensor)],
              [0, 255, 255, 0, 0, 22, 0, 33] ++ sample_sensor,
              State.at_offset (mk_sector (sample_sync ++ sample_ignore ++ sample_sensor) 0) 0 28,
              []) := by
  set_option maxRecDepth 1000000 in
  refine ⟨by decide, by decide, by decide, by decide⟩

/-- C5: for every block whose header is valid (dtype < DT_MAX; the declared
length L = 256*h0 + h1 covers the 3 header bytes) and whose L bytes are read
without a cursor fault, `get_next_dblk` sets `*len = L + 1 + SPACKET_SIZE` and
leaves, right after the packet-type byte and the SPACKET_SIZE-byte envelope,
exactly the L bytes consumed from the stream, in order; the status is `GS_OK`
when the length rule passes and `GS_BAD_DBLK` when it fails, and the record and
its length are returned in both cases. -/
theorem get_next_dblk_assembles (cfg : Config) (fuel : Nat) (st : State) (fd : Source)
    (bp : List Nat) (len h0 h1 h2 : Nat) (payload : List Nat) (st' : State) (fd' : Source)
    (hcfg : cfg.wf)
    (hread : read_ok cfg fuel len st fd = some (h0 :: h1 :: h2 :: payload, st', fd'))
    (hb0 : h0 < 256) (hb1 : h1 < 256) (hlen : 256 * h0 + h1 = len)
    (hdt : h2 < cfg.DT_MAX)
    (hbp : len + 1 + cfg.SPACKET_SIZE ≤ bp.length) :
    ∃ rtn bp' st'' fd'',
      get_next_dblk cfg fuel st fd bp
        = .ret (rtn, len + 1 + cfg.SPACKET_SIZE, bp', st'', fd'') ∧
      (bp'.drop (1 + cfg.SPACKET_SIZE)).take len = h0 :: h1 :: h2 :: payload ∧
      (length_rule cfg h2 len (embedded_sns_id cfg (h0 :: h1 :: h2 :: payload)) →
        rtn = GS_OK) ∧
      (¬ length_rule cfg h2 len (embedded_sns_id cfg (h0 :: h1 :: h2 :: payload)) →
        rtn = GS_BAD_DBLK) := by
  obtain ⟨y, rtn, hy, hget, hor, hiff⟩ := get_next_dblk_read_ok cfg fuel st fd bp len h0 h1 h2
    payload st' fd' hcfg hread hb0 hb1 hlen hdt hbp
  have hl := read_ok_length cfg fuel _ _ _ _ _ _ hread
  refine ⟨rtn, _, st', fd', hget, ?_, hiff.mpr, ?_⟩
  · have := emitted_splice y (1 + cfg.SPACKET_SIZE) (h0 :: h1 :: h2 :: payload) (by omega)
    rwa [hl] at this
  · intro hn
    rcases hor with h | h
    · exact absurd (hiff.mp h) hn
    · exact h

set_option maxRecDepth 1000000 in
theorem get_next_dblk_assembles_witness :
    ∃ rtn bp' st'' fd'',
      get_next_dblk sample_cfg 0 State.init [.bytes (mk_sector sample_sensor 0)]
          (List.replicate 22 0)
        = .ret (rtn, 14 + 1 + sample_cfg.SPACKET_SIZE, bp', st'', fd'') ∧
      (bp'.drop (1 + sample_cfg.SPACKET_SIZE)).take 14 = sample_sensor ∧
      (length_rule sample_cfg 7 14 (embedded_sns_id sample_cfg sample_sensor) → rtn = GS_OK) ∧
      (¬ length_rule sample_cfg 7 14 (embedded_sns_id sample_cfg sample_sensor) →
        rtn = GS_BAD_DBLK) :=
  get_next_dblk_assembles sample_cfg 0 State.init [.bytes (mk_sector sample_sensor 0)]
    (List.replicate 22 0) 14 0 14 7 [1, 0, 0, 0, 0, 0, 0, 0, 0, 5, 6]
    (State.at_offset (mk_sector sample_sensor 0) 0 14) []
    (by decide) (by decide) (by decide) (by decide) (by decide) (by decide) (by decide)

/-- C6: for every header-valid block read without a cursor fault,
`get_next_dblk` returns `GS_OK` or `GS_BAD_DBLK`, and: for `DT_SYNC` and
`DT_SYNC_RESTART` it is `GS_OK` iff the declared length is `DT_HDR_SIZE_SYNC`;
for `DT_PANIC` iff it is `DT_HDR_SIZE_PANIC`; for `DT_VERSION` iff it is
`DT_HDR_SIZE_VERSION`; for `DT_TEST` and `DT_GPS_RAW` it is `GS_OK` whatever the
length; for every dtype that is none of the case labels it is `GS_BAD_DBLK`. -/
theorem get_next_dblk_length_rules (cfg : Config) (fuel : Nat) (st : State) (fd : Source)
    (bp : List Nat) (len h0 h1 h2 : Nat) (payload : List Nat) (st' : State) (fd' : Source)
    (hcfg : cfg.wf)
    (hread : read_ok cfg fuel len st fd = some (h0 :: h1 :: h2 :: payload, st', fd'))
    (hb0 : h0 < 256) (hb1 : h1 < 256) (hlen : 256 * h0 + h1 = len)
    (hdt : h2 < cfg.DT_MAX)
    (hbp : len + 1 + cfg.SPACKET_SIZE ≤ bp.length) :
    ∃ rtn len' bp' st'' fd'',
      get_next_dblk cfg fuel st fd bp = .ret (rtn, len', bp', st'', fd'') ∧
      (rtn = GS_OK ∨ rtn = GS_BAD_DBLK) ∧
      ((h2 = cfg.DT_SYNC ∨ h2 = cfg.DT_SYNC_RESTART) →
        (rtn = GS_OK ↔ len = cfg.DT_HDR_SIZE_SYNC)) ∧
      (h2 = cfg.DT_PANIC → (rtn = GS_OK ↔ len = cfg.DT_HDR_SIZE_PANIC)) ∧
      (h2 = cfg.DT_VERSION → (rtn = GS_OK ↔ len = cfg.DT_HDR_SIZE_VERSION)) ∧
      ((h2 = cfg.DT_TEST ∨ h2 = cfg.DT_GPS_RAW) → rtn = GS_OK) ∧
      (h2 ∉ cfg.case_labels → rtn = GS_BAD_DBLK) := by
  obtain ⟨y, rtn, hy, hget, hor, hiff⟩ := get_next_dblk_read_ok cfg fuel st fd bp len h0 h1 h2
    payload st' fd' hcfg hread hb0 hb1 hlen hdt hbp
  have hnd := hcfg.1
  simp only [Config.case_labels, List.nodup_cons, List.mem_cons, List.mem_singleton,
    List.not_mem_nil, not_or, List.nodup_nil, or_false, not_false_eq_true, and_true] at hnd
  obtain ⟨⟨n12, n13, n14, n15, n16, n17, n18⟩, ⟨n23, n24, n25, n26, n27, n28⟩,
    ⟨n34, n35, n36, n37, n38⟩, ⟨n45, n46, n47, n48⟩, ⟨n56, n57, n58⟩, ⟨n67, n68⟩, n78⟩ := hnd
  refine ⟨rtn, _, _, st', fd', hget, hor, ?_, ?_, ?_, ?_, ?_⟩
  · intro hd
    rw [hiff]
    unfold length_rule
    rcases hd with hd | hd <;> subst hd <;> constructor
    · intro h
      rcases h with h | h | h | h | h | h | h
      · exact absurd h.1.symm n12
      · exact h.2
      · exact absurd h.1 n24
      · exact absurd h.1 n25
      · exact absurd h n26
      · exact absurd h n27
      · exact absurd h.1 n28
    · intro h; exact Or.inr (Or.inl ⟨Or.inl rfl, h⟩)
    · intro h
      rcases h with h | h | h | h | h | h | h
      · exact absurd h.1.symm n13
      · exact h.2
      · exact absurd h.1 n34
      · exact absurd h.1 n35
      · exact absurd h n36
      · exact absurd h n37
      · exact absurd h.1 n38
    · intro h; exact Or.inr (Or.inl ⟨Or.inr rfl, h⟩)
  · intro hd
    rw [hiff]
    unfold length_rule
    subst hd
    constructor
    · intro h
      rcases h with h | h | h | h | h | h | h
      · exact absurd h.1.symm n14
      · rcases h.1 with h | h
        · exact absurd h.symm n24
        · exact absurd h.symm n34
      · exact h.2
      · exact absurd h.1 n45
      · exact absurd h n46
      · exact absurd h n47
      · exact absurd h.1 n48
    · intro h; exact Or.inr (Or.inr (Or.inl ⟨rfl, h⟩))
  · intro hd
    rw [hiff]
    unfold length_rule
    subst hd
    constructor
    · intro h
      rcases h with h | h | h | h | h | h | h
      · exact absurd h.1.symm n18
      · rcases h.1 with h | h
        · exact absurd h.symm n28
        · exact absurd h.symm n38
      · exact absurd h.1.symm n48
      · exact absurd h.1.symm n58
      · exact absurd h.symm n68
      · exact absurd h.symm n78
      · exact h.2
    · intro h; exact Or.inr (Or.inr (Or.inr (Or.inr (Or.inr (Or.inr ⟨rfl, h⟩)))))
  · intro hd
    rw [hiff]
    unfold length_rule
    rcases hd with hd | hd
    · exact Or.inr (Or.inr (Or.inr (Or.inr (Or.inl hd))))
    · exact Or.inr (Or.inr (Or.inr (Or.inr (Or.inr (Or.inl hd)))))
  · intro hd
    simp only [Config.case_labels, List.mem_cons, List.mem_singleton, List.not_mem_nil,
      not_or, or_false] at hd
    obtain ⟨d1, d2, d3, d4, d5, d6, d7, d8⟩ := hd
    rcases hor with h | h
    · have hr := hiff.mp h
      unfold length_rule at hr
      rcases hr with hr | hr | hr | hr | hr | hr | hr
      · exact absurd hr.1 d1
      · rcases hr.1 with hr | hr
        · exact absurd hr d2
        · exact absurd hr d3
      · exact absurd hr.1 d4
      · exact absurd hr.1 d5
      · exact absurd hr d6
      · exact absurd hr d7
      · exact absurd hr.1 d8
    · exact h

set_option maxRecDepth 1000000 in
theorem get_next_dblk_length_rules_witness :
    ∃ rtn len' bp' st'' fd'',
      get_next_dblk sample_cfg 0 State.init [.bytes (mk_sector sample_sync 0)]
          (List.replicate 19 0)
        = .ret (rtn, len', bp', st'', fd'') ∧
      (rtn = GS_OK ∨ rtn = GS_BAD_DBLK) ∧
      ((2 = sample_cfg.DT_SYNC ∨ 2 = sample_cfg.DT_SYNC_RESTART) →
        (rtn = GS_OK ↔ 11 = sample_cfg.DT_HDR_SIZE_SYNC)) ∧
      (2 = sample_cfg.DT_PANIC → (rtn = GS_OK ↔ 11 = sample_cfg.DT_HDR_SIZE_PANIC)) ∧
      (2 = sample_cfg.DT_VERSION → (rtn = GS_OK ↔ 11 = sample_cfg.DT_HDR_SIZE_VERSION)) ∧
      ((2 = sample_cfg.DT_TEST ∨ 2 = sample_cfg.DT_GPS_RAW) → rtn = GS_OK) ∧
      (2 ∉ sample_cfg.case_labels → rtn = GS_BAD_DBLK) :=
  get_next_dblk_length_rules sample_cfg 0 State.init [.bytes (mk_sector sample_sync 0)]
    (List.replicate 19 0) 11 0 11 2 [0, 0, 0, 0, 0xde, 0xdf, 0x00, 0xef]
    (State.at_offset (mk_sector sample_sync 0) 0 11) []
    (by decide) (by decide) (by decide) (by decide) (by decide) (by decide) (by decide)

/-- C7: for every header-valid `DT_SENSOR_DATA` block read without a cursor
fault, `get_next_dblk` returns `GS_OK` exactly when the embedded sensor id s
satisfies 1 <= s < MM3_NUM_SENSORS and the declared length equals
`sns_payload_len[s] + DT_HDR_SIZE_SENSOR_DATA`, and `GS_BAD_DBLK` otherwise; the
call performs no out-of-bounds access, and its result is the same under every
table that agrees with `sns_payload_len` on `[1, MM3_NUM_SENSORS)`, so no entry
outside that range is consulted. -/
theorem get_next_dblk_sensor_data (cfg : Config) (fuel : Nat) (st : State) (fd : Source)
    (bp : List Nat) (len h0 h1 h2 : Nat) (payload : List Nat) (st' : State) (fd' : Source)
    (hcfg : cfg.wf)
    (hread : read_ok cfg fuel len st fd = some (h0 :: h1 :: h2 :: payload, st', fd'))
    (hb0 : h0 < 256) (hb1 : h1 < 256) (hlen : 256 * h0 + h1 = len)
    (hdt : h2 < cfg.DT_MAX)
    (hbp : len + 1 + cfg.SPACKET_SIZE ≤ bp.length)
    (hsd : h2 = cfg.DT_SENSOR_DATA) :
    ∃ rtn len' bp' st'' fd'',
      get_next_dblk cfg fuel st fd bp = .ret (rtn, len', bp', st'', fd'') ∧
      (rtn = GS_OK ∨ rtn = GS_BAD_DBLK) ∧
      (rtn = GS_OK ↔
        1 ≤ embedded_sns_id cfg (h0 :: h1 :: h2 :: payload) ∧
        embedded_sns_id cfg (h0 :: h1 :: h2 :: payload) < cfg.MM3_NUM_SENSORS ∧
        len = cfg.sns_payload_len.getD (embedded_sns_id cfg (h0 :: h1 :: h2 :: payload)) 0
                + cfg.DT_HDR_SIZE_SENSOR_DATA) ∧
      (∀ t : List Nat,
        (∀ i, 1 ≤ i → i < cfg.MM3_NUM_SENSORS → t[i]? = cfg.sns_payload_len[i]?) →
        get_next_dblk { cfg with sns_payload_len := t } fuel st fd bp
          = get_next_dblk cfg fuel st fd bp) := by
  obtain ⟨y, rtn, hy, hget, hor, hiff⟩ := get_next_dblk_read_ok cfg fuel st fd bp len h0 h1 h2
    payload st' fd' hcfg hread hb0 hb1 hlen hdt hbp
  have hnd := hcfg.1
  simp only [Config.case_labels, List.nodup_cons, List.mem_cons, List.mem_singleton,
    List.not_mem_nil, not_or, List.nodup_nil, or_false, not_false_eq_true, and_true] at hnd
  obtain ⟨⟨n12, n13, n14, n15, n16, n17, n18⟩, ⟨n23, n24, n25, n26, n27, n28⟩,
    ⟨n34, n35, n36, n37, n38⟩, ⟨n45, n46, n47, n48⟩, ⟨n56, n57, n58⟩, ⟨n67, n68⟩, n78⟩ := hnd
  refine ⟨rtn, _, _, st', fd', hget, hor, ?_,
    fun t ht => get_next_dblk_table cfg t ht fuel st fd bp⟩
  rw [hiff]
  unfold length_rule
  subst hsd
  constructor
  · intro h
    rcases h with h | h | h | h | h | h | h
    · exact absurd h.1.symm n15
    · rcases h.1 with h | h
      · exact absurd h.symm n25
      · exact absurd h.symm n35
    · exact absurd h.1.symm n45
    · exact h.2
    · exact absurd h n56
    · exact absurd h n57
    · exact absurd h.1 n58
  · intro h
    exact Or.inr (Or.inr (Or.inr (Or.inl ⟨rfl, h⟩)))

set_option maxRecDepth 1000000 in
theorem get_next_dblk_sensor_data_witness :
    ∃ rtn len' bp' st'' fd'',
      get_next_dblk sample_cfg 0 State.init [.bytes (mk_sector sample_sensor 0)]
          (List.replicate 22 0)
        = .ret (rtn, len', bp', st'', fd'') ∧
      (rtn = GS_OK ∨ rtn = GS_BAD_DBLK) ∧
      (rtn = GS_OK ↔
        1 ≤ embedded_sns_id sample_cfg sample_sensor ∧
        embedded_sns_id sample_cfg sample_sensor < sample_cfg.MM3_NUM_SENSORS ∧
        14 = sample_cfg.sns_payload_len.getD (embedded_sns_id sample_cfg sample_sensor) 0
                + sample_cfg.DT_HDR_SIZE_SENSOR_DATA) ∧
      (∀ t : List Nat,
        (∀ i, 1 ≤ i → i < sample_cfg.MM3_NUM_SENSORS → t[i]? = sample_cfg.sns_payload_len[i]?) →
        get_next_dblk { sample_cfg with sns_payload_len := t } 0 State.init
            [.bytes (mk_sector sample_sensor 0)] (List.replicate 22 0)
          = get_next_dblk sample_cfg 0 State.init [.bytes (mk_sector sample_sensor 0)]
              (List.replicate 22 0)) :=
  get_next_dblk_sensor_data sample_cfg 0 State.init [.bytes (mk_sector sample_sensor 0)]
    (List.replicate 22 0) 14 0 14 7 [1, 0, 0, 0, 0, 0, 0, 0, 0, 5, 6]
    (State.at_offset (mk_sector sample_sensor 0) 0 14) []
    (by decide) (by decide) (by decide) (by decide) (by decide) (by decide) (by decide)
    (by decide)

/-- C8: for every three header bytes h0, h1, h2 read without a cursor fault,
with length = 256*h0 + h1 and dtype = h2: if dtype >= DT_MAX or length < 3,
`get_next_dblk` returns `GS_BAD_DBLK` with `*len = 0`, the buffer untouched, and
the statics and the file exactly as the three reads left them, so no payload
byte has been consumed. -/
theorem get_next_dblk_bad_header (cfg : Config) (fuel : Nat) (st : State) (fd : Source)
    (bp : List Nat) (h0 h1 h2 : Nat) (st3 : State) (fd3 : Source)
    (hread : read_ok cfg fuel 3 st fd = some ([h0, h1, h2], st3, fd3))
    (hb0 : h0 < 256) (hb1 : h1 < 256)
    (hbad : h2 ≥ cfg.DT_MAX ∨ 256 * h0 + h1 < 3) :
    get_next_dblk cfg fuel st fd bp = .ret (GS_BAD_DBLK, 0, bp, st3, fd3) := by
  obtain ⟨s1, f1, r1, hread⟩ := read_ok_succ cfg fuel _ st fd h0 _ st3 fd3 hread
  obtain ⟨s2, f2, r2, hread⟩ := read_ok_succ cfg fuel _ s1 f1 h1 _ st3 fd3 hread
  obtain ⟨s3, f3, r3, hread⟩ := read_ok_succ cfg fuel _ s2 f2 h2 _ st3 fd3 hread
  simp only [read_ok, Option.some.injEq, Prod.mk.injEq, true_and] at hread
  obtain ⟨rfl, rfl⟩ := hread
  have hc : h2 ≥ cfg.DT_MAX ∨ (h0 * 256 + h1) % 65536 < 3 := by omega
  simp only [get_next_dblk, r1, r2, r3, Outcome.bind_ret, ne_eq, not_true_eq_false, if_false,
    stored_byte, dblk_body, hc, if_true]

set_option maxRecDepth 1000000 in
theorem get_next_dblk_bad_header_witness :
    get_next_dblk sample_cfg 0 State.init [.bytes (mk_sector [0, 2, 9, 1, 1] 0)] []
      = .ret (GS_BAD_DBLK, 0, [], State.at_offset (mk_sector [0, 2, 9, 1, 1] 0) 0 3, []) :=
  get_next_dblk_bad_header sample_cfg 0 State.init [.bytes (mk_sector [0, 2, 9, 1, 1] 0)] []
    0 2 9 (State.at_offset (mk_sector [0, 2, 9, 1, 1] 0) 0 3) []
    (by decide) (by decide) (by decide) (by decide)

/-- C9: a `get_next_dblk` call that reads a valid header with declared length L
and meets no cursor fault returns `GS_OK` or `GS_BAD_DBLK` with the statics and
the file exactly as L successive byte reads leave them: 3 header bytes and
L - 3 payload bytes are consumed, and the next call starts at the first byte
after the record. -/
theorem get_next_dblk_consumes (cfg : Config) (fuel : Nat) (st : State) (fd : Source)
    (bp : List Nat) (len h0 h1 h2 : Nat) (payload : List Nat) (st' : State) (fd' : Source)
    (hcfg : cfg.wf)
    (hread : read_ok cfg fuel len st fd = some (h0 :: h1 :: h2 :: payload, st', fd'))
    (hb0 : h0 < 256) (hb1 : h1 < 256) (hlen : 256 * h0 + h1 = len)
    (hdt : h2 < cfg.DT_MAX)
    (hbp : len + 1 + cfg.SPACKET_SIZE ≤ bp.length) :
    payload.length = len - 3 ∧
    ∃ rtn len' bp',
      get_next_dblk cfg fuel st fd bp = .ret (rtn, len', bp', st', fd') ∧
      (rtn = GS_OK ∨ rtn = GS_BAD_DBLK) := by
  obtain ⟨y, rtn, hy, hget, hor, hiff⟩ := get_next_dblk_read_ok cfg fuel st fd bp len h0 h1 h2
    payload st' fd' hcfg hread hb0 hb1 hlen hdt hbp
  have hl := read_ok_length cfg fuel _ _ _ _ _ _ hread
  simp only [List.length_cons] at hl
  exact ⟨by omega, rtn, _, _, hget, hor⟩

set_option maxRecDepth 1000000 in
theorem get_next_dblk_consumes_witness :
    [0, 0, 0, 0, 0xde, 0xdf, 0x00, 0xef].length = 11 - 3 ∧
    ∃ rtn len' bp',
      get_next_dblk sample_cfg 0 State.init
          [.bytes (mk_sector (sample_sync ++ sample_sensor) 0)] (List.replicate 30 0)
        = .ret (rtn, len', bp',
            State.at_offset (mk_sector (sample_sync ++ sample_sensor) 0) 0 11, []) ∧
      (rtn = GS_OK ∨ rtn = GS_BAD_DBLK) :=
  get_next_dblk_consumes sample_cfg 0 State.init
    [.bytes (mk_sector (sample_sync ++ sample_sensor) 0)] (List.replicate 30 0)
    11 0 11 2 [0, 0, 0, 0, 0xde, 0xdf, 0x00, 0xef]
    (State.at_offset (mk_sector (sample_sync ++ sample_sensor) 0) 0 11) []
    (by decide) (by decide) (by decide) (by decide) (by decide) (by decide) (by decide)

/-! ## resync -/

/-- C10 (evaluation at the failing input): `get_next_sector_byte` finds a
sequence fault on a checksum-valid sector without a SYNC record and enters
`resync` in use-current mode; the next sector is checksum-valid, fails the
sequence check too and starts with a valid SYNC record.  `resync` returns with
the window on that record (offset 0) but with the cursor at offset 498 and 10
bytes remaining, the values the scan of the previous sector left; the bytes at
the cursor are not a SYNC record, and `get_next_sector_byte` hands out the byte
at offset 498. -/
theorem resync_returns_off_record :
    resync sample_cfg 1000
        { sector_data := sample_blank, cur_sector_ptr := 508, remaining_bytes := 0,
          cur_seq := 4 }
        [.bytes sample_synced] RESYNC_USE_CUR
      = .ret ({ sector_data := sample_synced, cur_sector_ptr := 498,
                remaining_bytes := 10, cur_seq := 9 }, []) ∧
    sync_match sample_cfg sample_synced { data := 0, len := 11 } = some true ∧
    sync_match sample_cfg sample_synced { data := 498, len := 11 } = some false ∧
    ¬ (498 + sample_cfg.DT_SYNC_SIZE ≤ 508) ∧
    get_next_sector_byte sample_cfg 1000
        { sector_data := mk_sector [] 3, cur_sector_ptr := 508, remaining_bytes := 0,
          cur_seq := 3 }
        [.bytes sample_blank, .bytes sample_synced]
      = .ret (GS_RESYNC, some 0x55,
              { sector_data := sample_synced, cur_sector_ptr := 499,
                remaining_bytes := 9, cur_seq := 9 }, []) := by
  set_option maxRecDepth 1000000 in decide

/-! ## Lemmas on the outcome of calls -/

@[simp] theorem Outcome.bind_exit {α β : Type} (c : Nat) (f : α → Outcome β) :
    (Outcome.exit c : Outcome α).bind f = .exit c := rfl

@[simp] theorem Outcome.bind_oob {α β : Type} (f : α → Outcome β) :
    (Outcome.oob : Outcome α).bind f = .oob := rfl

@[simp] theorem Outcome.bind_nofuel {α β : Type} (f : α → Outcome β) :
    (Outcome.nofuel : Outcome α).bind f = .nofuel := rfl

theorem get_sector_nil (st : State) : get_sector st [] = .exit 1 := rfl

theorem get_sector_short (st : State) (fd : Source) (r : ReadResult) (hr : short_read r) :
    get_sector st (r :: fd) = .exit 1 := by
  cases r with
  | error => rfl
  | bytes bs =>
    have hl : bs.length < 512 := hr
    have hne : bs.length ≠ SECTOR_SIZE := by unfold SECTOR_SIZE; omega
    simp only [get_sector, hne, ne_eq, not_false_eq_true, if_true, ite_self]

/-! ## Lemmas on a flipped bit -/

theorem sum_set_add (l : List Nat) :
    ∀ (i : Nat) (v : Nat), i < l.length → (l.set i v).sum + l.getD i 0 = l.sum + v := by
  induction l with
  | nil => intro i v h; simp at h
  | cons a l ih =>
    intro i v h
    cases i with
    | zero => simp only [List.set_cons_zero, List.sum_cons, List.getD_cons_zero]; omega
    | succ i =>
      have := ih i v (by simpa using h)
      simp only [List.set_cons_succ, List.sum_cons, List.getD_cons_succ]
      omega

theorem flip_byte_lt (x b : Nat) (hx : x < 256) (hb : b < 8) : x ^^^ 2 ^ b < 256 := by
  have h2 : 2 ^ b < 2 ^ 8 := Nat.pow_lt_pow_right (by norm_num) hb
  exact Nat.xor_lt_two_pow (n := 8) hx h2

theorem flip_byte_ne (x b : Nat) : x ^^^ 2 ^ b ≠ x := by
  intro h
  have h0 : x ^^^ 2 ^ b = x ^^^ 0 := by rw [h, Nat.xor_zero]
  have := Nat.xor_right_injective h0
  exact absurd this (by positivity)

theorem flip_bit_is_sector (s : List Nat) (i b : Nat) (hs : is_sector s) (hb : b < 8) :
    is_sector (flip_bit s i b) := by
  refine ⟨by simp only [flip_bit, List.length_set]; exact hs.1, ?_⟩
  intro x hx
  rcases List.mem_or_eq_of_mem_set hx with h | h
  · exact hs.2 x h
  · rw [h]; exact flip_byte_lt _ _ (getD_lt_of_is_sector hs i) hb

theorem flip_bit_chksum (s : List Nat) (i b : Nat) (hs : is_sector s) (hc : chksum_valid s)
    (hi : i < 510) (hb : b < 8) : ¬ chksum_valid (flip_bit s i b) := by
  have hl : s.length = 512 := hs.1
  have hx := getD_lt_of_is_sector hs i
  have hy := flip_byte_lt _ b hx hb
  have hne := flip_byte_ne (s.getD i 0) b
  have htl : i < (s.take 510).length := by simp only [List.length_take]; omega
  have hsum := sum_set_add (s.take 510) i (s.getD i 0 ^^^ 2 ^ b) htl
  have hg : (s.take 510).getD i 0 = s.getD i 0 := by
    rw [List.getD_eq_getElem _ _ htl, List.getD_eq_getElem _ _ (by omega), List.getElem_take]
  have h510 : (flip_bit s i b).getD 510 0 = s.getD 510 0 := by
    simp only [flip_bit, List.getD_eq_getElem?_getD, List.getElem?_set_ne (show i ≠ 510 by omega)]
  have h511 : (flip_bit s i b).getD 511 0 = s.getD 511 0 := by
    simp only [flip_bit, List.getD_eq_getElem?_getD, List.getElem?_set_ne (show i ≠ 511 by omega)]
  unfold chksum_valid at hc ⊢
  rw [h510, h511, ← hc]
  simp only [flip_bit, List.set_take]
  rw [hg] at hsum
  omega

/-! ## Theorems on read_file_packet, end of input and corrupted sectors -/

/-- C16: whenever `get_next_dblk` returns `GS_OK` or `GS_BAD_DBLK` with length l
(and the assembled buffer holds l bytes), `read_file_packet`, allocation
succeeding, returns a copy of the first l bytes of the buffer and sets
`*len = l`, so a bad data block does not end the iteration; for every other
status it returns NULL and leaves `*len` as it was. -/
theorem read_file_packet_status (cfg : Config) (fuel : Nat) (alloc : Bool) (st : State)
    (fd : Source) (cur_dblk : List Nat) (len : Nat) (rtn : gs_rtn_t) (l : Nat)
    (buf : List Nat) (st' : State) (fd' : Source)
    (h : get_next_dblk cfg fuel st fd cur_dblk = .ret (rtn, l, buf, st', fd')) :
    ((rtn = GS_OK ∨ rtn = GS_BAD_DBLK) → l ≤ buf.length →
      read_file_packet cfg fuel true st fd cur_dblk len
        = .ret (some (buf.take l), l, buf, st', fd')) ∧
    (rtn ≠ GS_OK → rtn ≠ GS_BAD_DBLK →
      read_file_packet cfg fuel alloc st fd cur_dblk len = .ret (none, len, buf, st', fd')) := by
  constructor
  · intro hr hl
    have hn : ¬ (rtn ≠ GS_OK ∧ rtn ≠ GS_BAD_DBLK) := by
      rcases hr with h1 | h1 <;> simp [h1]
    simp only [read_file_packet, h, Outcome.bind_ret, hn, if_false, hl, if_true,
      Bool.true_eq_false]
  · intro h1 h2
    simp only [read_file_packet, h, Outcome.bind_ret, ne_eq, h1, h2, not_false_eq_true,
      and_self, if_true]

set_option maxRecDepth 1000000 in
theorem read_file_packet_status_witness :
    read_file_packet sample_cfg 0 true State.init [.bytes (mk_sector [0, 3, 0, 1, 1] 0)]
        (List.replicate 11 0) 77
      = .ret (some ([0, 255, 255, 0, 0, 11, 0, 33, 0, 3, 0].take 11), 11,
              [0, 255, 255, 0, 0, 11, 0, 33, 0, 3, 0],
              State.at_offset (mk_sector [0, 3, 0, 1, 1] 0) 0 3, []) :=
  (read_file_packet_status sample_cfg 0 true State.init [.bytes (mk_sector [0, 3, 0, 1, 1] 0)]
    (List.replicate 11 0) 77 GS_BAD_DBLK 11 [0, 255, 255, 0, 0, 11, 0, 33, 0, 3, 0]
    (State.at_offset (mk_sector [0, 3, 0, 1, 1] 0) 0 3) [] (by decide)).1
    (Or.inr rfl) (by decide)

/-- C17 (evaluation at the failing input): with no unread bytes left and the
file at its end (`read` returns 0, here as a used-up file and as a read of zero
bytes), `get_sector` prints `eof` and calls `exit(1)`; so `get_next_dblk` does
not return `GS_EOF` and `read_file_packet` does not return NULL: both end the
process with exit code 1. -/
theorem get_next_dblk_at_end_of_input (cfg : Config) (fuel : Nat) (alloc : Bool)
    (sector : List Nat) (cursor seq : Nat) (bp : List Nat) (len : Nat) :
    get_next_dblk cfg fuel
        { sector_data := sector, cur_sector_ptr := cursor, remaining_bytes := 0, cur_seq := seq }
        [] bp = .exit 1 ∧
    get_next_dblk cfg fuel
        { sector_data := sector, cur_sector_ptr := cursor, remaining_bytes := 0, cur_seq := seq }
        [.bytes []] bp = .exit 1 ∧
    read_file_packet cfg fuel alloc
        { sector_data := sector, cur_sector_ptr := cursor, remaining_bytes := 0, cur_seq := seq }
        [] bp len = .exit 1 ∧
    get_next_dblk cfg fuel State.init [] bp = .exit 1 := by
  have h2 : ∀ st : State, get_sector st [.bytes []] = .exit 1 := fun _ => rfl
  refine ⟨?_, ?_, ?_, ?_⟩ <;>
    simp only [read_file_packet, get_next_dblk, get_next_sector_byte, State.init, if_true,
      get_sector_nil, h2, Outcome.bind_exit]

/-- C18: for every state, a read that delivers fewer than 512 bytes (a read
error, zero bytes at the end of the file, or a partial sector) makes
`get_sector` end the process with `exit(1)` instead of returning a status; the
same happens in every iteration of the loop of `resync` that reads a sector
(ignore-current mode, or use-current mode with the buffer exhausted), whatever
the count of bad blocks and whatever follows in the file: the read is not
counted and `resync` does not go on. -/
theorem get_sector_short_read (cfg : Config) (fuel : Nat) (st : State) (fd : Source)
    (r : ReadResult) (ignore_cur : Nat) (msg : tmsg_t) (bad_blks : Nat)
    (hr : short_read r) :
    get_sector st (r :: fd) = .exit 1 ∧
    get_sector st [] = .exit 1 ∧
    (ignore_cur ≠ RESYNC_USE_CUR →
      resync_loop cfg (fuel + 1) st (r :: fd) ignore_cur msg bad_blks = .exit 1 ∧
      resync_loop cfg (fuel + 1) st [] ignore_cur msg bad_blks = .exit 1) ∧
    (sync_match cfg st.sector_data msg = some false →
      (st.remaining_bytes + 65535) % 65536 < cfg.DT_SYNC_SIZE →
      resync_loop cfg (fuel + 1) st (r :: fd) RESYNC_USE_CUR msg bad_blks = .exit 1 ∧
      resync_loop cfg (fuel + 1) st [] RESYNC_USE_CUR msg bad_blks = .exit 1) ∧
    resync cfg (fuel + 1) st (r :: fd) RESYNC_IGNORE_CUR = .exit 1 := by
  have h1 : ∀ st : State, get_sector st (r :: fd) = .exit 1 :=
    fun st => get_sector_short st fd r hr
  refine ⟨h1 st, rfl, ?_, ?_, ?_⟩
  · intro hic
    simp only [resync_loop, hic, if_false, h1, get_sector_nil, Outcome.bind_exit, and_self]
  · intro hm hrem
    have hn : ¬ ((st.remaining_bytes + 65535) % 65536 ≥ cfg.DT_SYNC_SIZE) := by omega
    simp only [resync_loop, if_true, hm, hn, if_false, h1, get_sector_nil, Outcome.bind_exit,
      and_self]
  · have hic : RESYNC_IGNORE_CUR ≠ RESYNC_USE_CUR := by decide
    simp only [resync, resync_loop, hic, if_false, h1, Outcome.bind_exit]

set_option maxRecDepth 1000000 in
theorem get_sector_short_read_witness :
    short_read (.bytes (List.replicate 511 7)) ∧
    get_sector State.init (.bytes (List.replicate 511 7) :: [.bytes sample_synced]) = .exit 1 ∧
    resync sample_cfg (0 + 1) State.init
      (.bytes (List.replicate 511 7) :: [.bytes sample_synced]) RESYNC_IGNORE_CUR = .exit 1 :=
  ⟨by decide,
   (get_sector_short_read sample_cfg 0 State.init [.bytes sample_synced]
      (.bytes (List.replicate 511 7)) RESYNC_IGNORE_CUR { data := 0, len := 11 } 0
      (by decide)).1,
   (get_sector_short_read sample_cfg 0 State.init [.bytes sample_synced]
      (.bytes (List.replicate 511 7)) RESYNC_IGNORE_CUR { data := 0, len := 11 } 0
      (by decide)).2.2.2.2⟩

/-- C19: for every 512-byte sector whose stored checksum matches the sum of its
first 510 bytes, every byte index i < 510 and every bit position b < 8, the
sector with bit b of byte i flipped and the checksum bytes unchanged makes
`get_sector` return `GS_CHKSUM_FAIL`, in every state. -/
theorem get_sector_bit_flip (st : State) (fd : Source) (s : List Nat) (i b : Nat)
    (hs : is_sector s) (hc : chksum_valid s) (hi : i < 510) (hb : b < 8) :
    ∃ st', get_sector st (.bytes (flip_bit s i b) :: fd) = .ret (GS_CHKSUM_FAIL, st', fd) := by
  rw [get_sector_full st fd _ (flip_bit_is_sector s i b hs hb),
    if_pos (flip_bit_chksum s i b hs hc hi hb)]
  exact ⟨_, rfl⟩

set_option maxRecDepth 1000000 in
theorem get_sector_bit_flip_witness :
    ∃ st', get_sector State.init (.bytes (flip_bit (mk_sector [1, 2, 3] 0) 509 7) :: [])
      = .ret (GS_CHKSUM_FAIL, st', []) :=
  get_sector_bit_flip State.init [] (mk_sector [1, 2, 3] 0) 509 7
    (by decide) (by decide) (by decide) (by decide)

/-! ## Lemmas on the scan of resync -/

theorem tmsg_read_in (mem : List Nat) (msg : tmsg_t) (f : Field)
    (h : msg.data + msg.len ≤ mem.length) : ∃ v, tmsg_read mem msg f = some v := by
  unfold tmsg_read
  by_cases hf : f.offset + f.size ≤ msg.len
  · rw [if_pos hf, if_pos (by omega)]
    exact ⟨_, rfl⟩
  · rw [if_neg hf]
    exact ⟨_, rfl⟩

/-- The test of the loop is true exactly at a valid SYNC record. -/
theorem sync_match_true_iff (cfg : Config) (mem : List Nat) (k : Nat) :
    sync_match cfg mem { data := k, len := cfg.DT_SYNC_SIZE } = some true
      ↔ valid_sync_at cfg mem k := by
  unfold sync_match valid_sync_at
  cases h1 : tmsg_read mem { data := k, len := cfg.DT_SYNC_SIZE } cfg.dt_sync_sync_majik with
  | none => simp
  | some majik =>
    by_cases hm : majik = SYNC_MAJIK
    · subst hm
      cases h2 : tmsg_read mem { data := k, len := cfg.DT_SYNC_SIZE } cfg.dt_sync_len with
      | none => simp
      | some len =>
        by_cases hl : len = cfg.DT_SYNC_SIZE
        · subst hl
          cases h3 : tmsg_read mem { data := k, len := cfg.DT_SYNC_SIZE } cfg.dt_sync_dtype with
          | none => simp
          | some dtype => simp
        · simp [hl]
    · simp [hm]

/-- Inside the buffer the test of the loop is false exactly where no valid
SYNC record begins. -/
theorem sync_match_false_of_not_valid (cfg : Config) (mem : List Nat) (k : Nat)
    (h : k + cfg.DT_SYNC_SIZE ≤ mem.length) (hv : ¬ valid_sync_at cfg mem k) :
    sync_match cfg mem { data := k, len := cfg.DT_SYNC_SIZE } = some false := by
  have hiff := sync_match_true_iff cfg mem k
  obtain ⟨v1, h1⟩ := tmsg_read_in mem { data := k, len := cfg.DT_SYNC_SIZE }
    cfg.dt_sync_sync_majik h
  obtain ⟨v2, h2⟩ := tmsg_read_in mem { data := k, len := cfg.DT_SYNC_SIZE } cfg.dt_sync_len h
  obtain ⟨v3, h3⟩ := tmsg_read_in mem { data := k, len := cfg.DT_SYNC_SIZE } cfg.dt_sync_dtype h
  have hne : sync_match cfg mem { data := k, len := cfg.DT_SYNC_SIZE } ≠ some true :=
    fun h => hv (hiff.mp h)
  have hsome : ∃ b, sync_match cfg mem { data := k, len := cfg.DT_SYNC_SIZE } = some b := by
    unfold sync_match
    rw [h1, h2, h3]
    simp only
    split
    · split
      · exact ⟨_, rfl⟩
      · exact ⟨_, rfl⟩
    · exact ⟨_, rfl⟩
  obtain ⟨b, hb⟩ := hsome
  cases b with
  | true => exact absurd hb hne
  | false => exact hb

/-- The scan of the current buffer from offset `j` stops at the first valid
SYNC record at or after `j`, when there is one that fits in the data region. -/
theorem resync_loop_scan (cfg : Config) (sd : List Nat) (seq : Nat) (fd : Source) (bb k : Nat)
    (hk : k + cfg.DT_SYNC_SIZE ≤ 508) (hlen : 508 ≤ sd.length)
    (hv : valid_sync_at cfg sd k) :
    ∀ (d j fuel : Nat), j + d = k → d < fuel →
      ∃ j', j ≤ j' ∧ j' ≤ k ∧ valid_sync_at cfg sd j' ∧
        (∀ i, j ≤ i → i < j' → ¬ valid_sync_at cfg sd i) ∧
        resync_loop cfg fuel
            { sector_data := sd, cur_sector_ptr := j, remaining_bytes := 508 - j, cur_seq := seq }
            fd RESYNC_USE_CUR { data := j, len := cfg.DT_SYNC_SIZE } bb
          = .ret ({ sector_data := sd, cur_sector_ptr := j', remaining_bytes := 508 - j',
                    cur_seq := seq }, fd) := by
  intro d
  induction d with
  | zero =>
    intro j fuel hj hf
    obtain ⟨f, rfl⟩ : ∃ f, fuel = f + 1 := ⟨fuel - 1, by omega⟩
    have hjk : j = k := by omega
    subst hjk
    refine ⟨j, Nat.le_refl _, Nat.le_refl _, hv, fun i h1 h2 => by omega, ?_⟩
    simp only [resync_loop, if_true, (sync_match_true_iff cfg sd j).mpr hv]
  | succ d ih =>
    intro j fuel hj hf
    obtain ⟨f, rfl⟩ : ∃ f, fuel = f + 1 := ⟨fuel - 1, by omega⟩
    by_cases hvj : valid_sync_at cfg sd j
    · refine ⟨j, Nat.le_refl _, by omega, hvj, fun i h1 h2 => by omega, ?_⟩
      simp only [resync_loop, if_true, (sync_match_true_iff cfg sd j).mpr hvj]
    · have hm := sync_match_false_of_not_valid cfg sd j (by omega) hvj
      obtain ⟨j', h1, h2, h3, h4, h5⟩ := ih (j + 1) f (by omega) (by omega)
      refine ⟨j', by omega, h2, h3, ?_, ?_⟩
      · intro i hi1 hi2
        by_cases hij : i = j
        · rw [hij]; exact hvj
        · exact h4 i (by omega) hi2
      · have e1 : (508 - j + 65535) % 65536 = 508 - (j + 1) := by omega
        have e2 : 508 - (j + 1) ≥ cfg.DT_SYNC_SIZE := by omega
        simp only [resync_loop, if_true, hm, e1, e2, h5]

theorem resync_loop_bad_sector (cfg : Config) (fuel : Nat) (st : State) (b : List Nat)
    (fd : Source) (msg : tmsg_t) (bb : Nat) (hb : is_sector b) (hc : ¬ chksum_valid b) :
    resync_loop cfg (fuel + 1) st (.bytes b :: fd) RESYNC_IGNORE_CUR msg bb
      = if bb + 1 > 4 then .exit 1
        else resync_loop cfg fuel { st with sector_data := b } fd RESYNC_IGNORE_CUR
          { data := 0, len := cfg.DT_SYNC_SIZE } (bb + 1) := by
  have hic : RESYNC_IGNORE_CUR ≠ RESYNC_USE_CUR := by decide
  simp only [resync_loop, hic, if_false, get_sector_full st fd b hb, if_pos hc,
    Outcome.bind_ret, reduceCtorEq]

theorem resync_loop_good_sector (cfg : Config) (fuel : Nat) (sd : List Nat) (seq : Nat)
    (s : List Nat) (fd : Source) (msg : tmsg_t) (bb : Nat)
    (hs : is_sector s) (hc : chksum_valid s) :
    resync_loop cfg (fuel + 1)
        { sector_data := sd, cur_sector_ptr := 0, remaining_bytes := 508, cur_seq := seq }
        (.bytes s :: fd) RESYNC_IGNORE_CUR msg bb
      = resync_loop cfg fuel
          { sector_data := s, cur_sector_ptr := 0, remaining_bytes := 508,
            cur_seq := stored_seq s }
          fd RESYNC_USE_CUR { data := 0, len := cfg.DT_SYNC_SIZE } bb := by
  have hic : RESYNC_IGNORE_CUR ≠ RESYNC_USE_CUR := by decide
  by_cases hq : (seq + 1) % 65536 = stored_seq s
  · simp only [resync_loop, hic, if_false, get_sector_full _ fd s hs, if_neg (not_not.mpr hc),
      hq, ne_eq, not_true_eq_false, Outcome.bind_ret, if_true]
  · simp only [resync_loop, hic, if_false, get_sector_full _ fd s hs, if_neg (not_not.mpr hc),
      hq, ne_eq, not_false_eq_true, if_true, Outcome.bind_ret, reduceCtorEq,
      sector_seq_eq hs]

/-! ## Theorems on resync -/

/-- C11: for every 512-byte sector buffer and every offset k with
k + DT_SYNC_SIZE <= 508 at which a valid SYNC record begins (majik, length and
dtype as the accessors read them), `resync` entered in use-current mode returns,
given fuel for k + 1 iterations, without reading a sector (the file is
untouched), with the cursor at the lowest offset j at which a valid SYNC record
begins (so j <= k) and `remaining_bytes = 508 - j`, whatever the alignment of
k. -/
theorem resync_use_cur_finds_sync (cfg : Config) (fuel : Nat) (st : State) (fd : Source)
    (k : Nat)
    (hlen : st.sector_data.length = 512)
    (hk : k + cfg.DT_SYNC_SIZE ≤ 508)
    (hv : valid_sync_at cfg st.sector_data k)
    (hfuel : k < fuel) :
    ∃ j, j ≤ k ∧ valid_sync_at cfg st.sector_data j ∧
      (∀ i, i < j → ¬ valid_sync_at cfg st.sector_data i) ∧
      resync cfg fuel st fd RESYNC_USE_CUR
        = .ret ({ sector_data := st.sector_data, cur_sector_ptr := j,
                  remaining_bytes := 508 - j, cur_seq := 0 }, fd) := by
  obtain ⟨j, _, h2, h3, h4, h5⟩ := resync_loop_scan cfg st.sector_data 0 fd 0 k hk (by omega) hv
    k 0 fuel (by omega) hfuel
  exact ⟨j, h2, h3, fun i hi => h4 i (Nat.zero_le _) hi, h5⟩

set_option maxRecDepth 1000000 in
theorem resync_use_cur_finds_sync_witness :
    ∃ j, j ≤ 5 ∧ valid_sync_at sample_cfg (mk_sector ([9, 9, 9, 9, 9] ++ sample_sync) 7) j ∧
      (∀ i, i < j → ¬ valid_sync_at sample_cfg (mk_sector ([9, 9, 9, 9, 9] ++ sample_sync) 7) i) ∧
      resync sample_cfg 6
          { sector_data := mk_sector ([9, 9, 9, 9, 9] ++ sample_sync) 7, cur_sector_ptr := 508,
            remaining_bytes := 0, cur_seq := 4 }
          [.bytes sample_blank] RESYNC_USE_CUR
        = .ret ({ sector_data := mk_sector ([9, 9, 9, 9, 9] ++ sample_sync) 7,
                  cur_sector_ptr := j, remaining_bytes := 508 - j, cur_seq := 0 },
                [.bytes sample_blank]) :=
  resync_use_cur_finds_sync sample_cfg 6
    { sector_data := mk_sector ([9, 9, 9, 9, 9] ++ sample_sync) 7, cur_sector_ptr := 508,
      remaining_bytes := 0, cur_seq := 4 }
    [.bytes sample_blank] 5 (by decide) (by decide) (by decide) (by decide)

/-- C12: `resync` is entered in ignore-current mode.  If the next 4 sectors all
fail the checksum and the following sector is checksum-valid and holds a valid
SYNC record at an offset k with k + DT_SYNC_SIZE <= 508, `resync` returns (given
fuel for k + 6 iterations) with the stream positioned at the lowest valid SYNC
record of that sector, the rest of the file unread.  If a 5th consecutive sector
fails the checksum, `resync` ends the process with `exit(1)` at that sector,
whatever follows in the file. -/
theorem resync_ignore_cur_bounded (cfg : Config) (fuel : Nat) (st : State)
    (b1 b2 b3 b4 s : List Nat) (rest : Source) (k : Nat)
    (hb : ∀ b ∈ [b1, b2, b3, b4], is_sector b ∧ ¬ chksum_valid b)
    (hs : is_sector s) (hc : chksum_valid s)
    (hk : k + cfg.DT_SYNC_SIZE ≤ 508)
    (hv : valid_sync_at cfg s k)
    (hfuel : k + 5 < fuel) :
    (∃ j, j ≤ k ∧ valid_sync_at cfg s j ∧ (∀ i, i < j → ¬ valid_sync_at cfg s i) ∧
      resync cfg fuel st ([b1, b2, b3, b4, s].map .bytes ++ rest) RESYNC_IGNORE_CUR
        = .ret ({ sector_data := s, cur_sector_ptr := j, remaining_bytes := 508 - j,
                  cur_seq := stored_seq s }, rest)) ∧
    (∀ (b5 : List Nat) (rest' : Source) (fuel' : Nat),
      is_sector b5 → ¬ chksum_valid b5 → 5 ≤ fuel' →
      resync cfg fuel' st ([b1, b2, b3, b4, b5].map .bytes ++ rest') RESYNC_IGNORE_CUR
        = .exit 1) := by
  have h1 := hb b1 (by simp)
  have h2 := hb b2 (by simp)
  have h3 := hb b3 (by simp)
  have h4 := hb b4 (by simp)
  have hic : RESYNC_IGNORE_CUR ≠ RESYNC_USE_CUR := by decide
  constructor
  · obtain ⟨f, rfl⟩ : ∃ f, fuel = f + 1 + 1 + 1 + 1 + 1 := ⟨fuel - 5, by omega⟩
    obtain ⟨j, _, hj2, hj3, hj4, hj5⟩ := resync_loop_scan cfg s (stored_seq s) rest 4 k hk
      (by rw [hs.1]; omega) hv k 0 f (by omega) (by omega)
    refine ⟨j, hj2, hj3, fun i hi => hj4 i (Nat.zero_le _) hi, ?_⟩
    simp only [resync, hic, if_false, List.map_cons, List.map_nil, List.cons_append,
      List.nil_append, SECTOR_SIZE, OVERHEAD, Nat.reduceSub,
      resync_loop_bad_sector cfg _ _ b1 _ _ _ h1.1 h1.2,
      resync_loop_bad_sector cfg _ _ b2 _ _ _ h2.1 h2.2,
      resync_loop_bad_sector cfg _ _ b3 _ _ _ h3.1 h3.2,
      resync_loop_bad_sector cfg _ _ b4 _ _ _ h4.1 h4.2,
      Nat.reduceAdd, Nat.reduceLT, gt_iff_lt, Nat.lt_irrefl,
      resync_loop_good_sector cfg _ _ _ s _ _ _ hs hc]
    exact hj5
  · intro b5 rest' fuel' h5 h5c hf
    obtain ⟨f, rfl⟩ : ∃ f, fuel' = f + 1 + 1 + 1 + 1 + 1 := ⟨fuel' - 5, by omega⟩
    simp only [resync, hic, if_false, List.map_cons, List.map_nil, List.cons_append,
      List.nil_append,
      resync_loop_bad_sector cfg _ _ b1 _ _ _ h1.1 h1.2,
      resync_loop_bad_sector cfg _ _ b2 _ _ _ h2.1 h2.2,
      resync_loop_bad_sector cfg _ _ b3 _ _ _ h3.1 h3.2,
      resync_loop_bad_sector cfg _ _ b4 _ _ _ h4.1 h4.2,
      resync_loop_bad_sector cfg _ _ b5 _ _ _ h5 h5c,
      Nat.reduceAdd, Nat.reduceLT, gt_iff_lt, Nat.lt_irrefl, if_false, if_true]

set_option maxRecDepth 1000000 in
theorem resync_ignore_cur_bounded_witness :
    (∃ j, j ≤ 3 ∧ valid_sync_at sample_cfg (mk_sector ([9, 9, 9] ++ sample_sync) 30) j ∧
      (∀ i, i < j → ¬ valid_sync_at sample_cfg (mk_sector ([9, 9, 9] ++ sample_sync) 30) i) ∧
      resync sample_cfg 9 State.init
          ([sample_corrupt, sample_corrupt, sample_corrupt, sample_corrupt,
            mk_sector ([9, 9, 9] ++ sample_sync) 30].map .bytes ++ [.bytes sample_blank])
          RESYNC_IGNORE_CUR
        = .ret ({ sector_data := mk_sector ([9, 9, 9] ++ sample_sync) 30, cur_sector_ptr := j,
                  remaining_bytes := 508 - j,
                  cur_seq := stored_seq (mk_sector ([9, 9, 9] ++ sample_sync) 30) },
                [.bytes sample_blank])) ∧
    (∀ (b5 : List Nat) (rest' : Source) (fuel' : Nat),
      is_sector b5 → ¬ chksum_valid b5 → 5 ≤ fuel' →
      resync sample_cfg fuel' State.init
          ([sample_corrupt, sample_corrupt, sample_corrupt, sample_corrupt, b5].map .bytes
            ++ rest') RESYNC_IGNORE_CUR
        = .exit 1) :=
  resync_ignore_cur_bounded sample_cfg 9 State.init sample_corrupt sample_corrupt
    sample_corrupt sample_corrupt (mk_sector ([9, 9, 9] ++ sample_sync) 30)
    [.bytes sample_blank] 3 (by decide) (by decide) (by decide) (by decide) (by decide)
    (by decide)

/-! ## Lemmas on the statuses that are returned -/

theorem get_sector_rtn (st : State) (fd : Source) (rtn : gs_rtn_t) (st' : State)
    (fd' : Source) (h : get_sector st fd = .ret (rtn, st', fd')) :
    rtn = GS_OK ∨ rtn = GS_CHKSUM_FAIL ∨ rtn = GS_SEQ_FAIL := by
  cases fd with
  | nil => cases h
  | cons r fd =>
    cases r with
    | error => cases h
    | bytes dbuff =>
      simp only [get_sector] at h
      split at h
      · cases h
      · split at h
        · cases h
        · split at h
          · cases h; exact Or.inr (Or.inl rfl)
          · split at h
            · cases h; exact Or.inr (Or.inr rfl)
            · cases h; exact Or.inl rfl

theorem deliver_rtn (r : gs_rtn_t) (st : State) (fd : Source) (rtn : gs_rtn_t)
    (b : Option Nat) (st' : State) (fd' : Source)
    (h : deliver r st fd = .ret (rtn, b, st', fd')) : rtn = r := by
  unfold deliver at h
  split at h
  · cases h
  · cases h; rfl

/-- The only statuses `get_next_sector_byte` returns are `GS_OK` and `GS_RESYNC`. -/
theorem get_next_sector_byte_rtn (cfg : Config) (fuel : Nat) (st : State) (fd : Source)
    (rtn : gs_rtn_t) (b : Option Nat) (st' : State) (fd' : Source)
    (h : get_next_sector_byte cfg fuel st fd = .ret (rtn, b, st', fd')) :
    rtn = GS_OK ∨ rtn = GS_RESYNC := by
  unfold get_next_sector_byte at h
  split at h
  · obtain ⟨⟨r1, s1, f1⟩, hg, h⟩ := Outcome.bind_eq_ret h
    have hr := get_sector_rtn st fd r1 s1 f1 hg
    simp only at h
    split at h
    · obtain ⟨⟨s2, f2⟩, _, h⟩ := Outcome.bind_eq_ret h
      exact Or.inr (deliver_rtn _ _ _ _ _ _ _ h)
    · split at h
      · obtain ⟨⟨s2, f2⟩, _, h⟩ := Outcome.bind_eq_ret h
        exact Or.inr (deliver_rtn _ _ _ _ _ _ _ h)
      · split at h
        · rename_i h1 h2 h3
          rcases hr with hr | hr | hr
          · exact absurd hr h3
          · exact absurd hr h2
          · exact absurd hr h1
        · rename_i h1 h2 h3
          have := deliver_rtn _ _ _ _ _ _ _ h
          rw [this]
          exact Or.inl (not_not.mp h3)
  · exact Or.inl (deliver_rtn _ _ _ _ _ _ _ h)

theorem dblk_rule_rtn (cfg : Config) (bp : List Nat) (msg : tmsg_t) (dtype len : Nat)
    (rtn : gs_rtn_t) (h : dblk_rule cfg bp msg dtype len = .ret rtn) :
    rtn = GS_OK ∨ rtn = GS_BAD_DBLK := by
  unfold dblk_rule at h
  have hite : ∀ (c : Prop) [Decidable c] (r : gs_rtn_t),
      (Outcome.ret (if c then GS_OK else GS_BAD_DBLK) = Outcome.ret r) →
      r = GS_OK ∨ r = GS_BAD_DBLK := by
    intro c _ r h
    simp only [Outcome.ret.injEq] at h
    rw [← h]
    split
    · exact Or.inl rfl
    · exact Or.inr rfl
  split at h
  · exact hite _ _ h
  split at h
  · exact hite _ _ h
  split at h
  · exact hite _ _ h
  split at h
  · exact hite _ _ h
  split at h
  · obtain ⟨v, _, h⟩ := Outcome.bind_eq_ret h
    simp only at h
    split at h
    · cases h; exact Or.inr rfl
    · obtain ⟨p, _, h⟩ := Outcome.bind_eq_ret h
      split at h
      · cases h; exact Or.inr rfl
      · cases h; exact Or.inl rfl
  split at h
  · cases h; exact Or.inl rfl
  split at h
  · cases h; exact Or.inl rfl
  split at h
  · exact hite _ _ h
  · cases h; exact Or.inr rfl

/-- After a sector-level fault `get_next_sector_byte` hands over to `resync`:
in ignore-current mode when the checksum fails, in use-current mode when the
sequence check fails; the byte `resync` leaves at the cursor comes back with
`GS_RESYNC`. -/
theorem get_next_sector_byte_fault (cfg : Config) (fuel : Nat) (st : State) (fd : Source)
    (s : List Nat) (hs : is_sector s) (hr : st.remaining_bytes = 0) :
    (¬ chksum_valid s →
      get_next_sector_byte cfg fuel st (.bytes s :: fd)
        = (resync cfg fuel { st with sector_data := s } fd RESYNC_IGNORE_CUR).bind
            fun (st, fd) => deliver GS_RESYNC st fd) ∧
    (chksum_valid s → (st.cur_seq + 1) % 65536 ≠ stored_seq s →
      get_next_sector_byte cfg fuel st (.bytes s :: fd)
        = (resync cfg fuel { st with sector_data := s, cur_seq := (st.cur_seq + 1) % 65536 }
            fd RESYNC_USE_CUR).bind fun (st, fd) => deliver GS_RESYNC st fd) := by
  constructor
  · intro hc
    simp only [get_next_sector_byte, hr, if_true, get_sector_full st fd s hs, if_pos hc,
      Outcome.bind_ret, reduceCtorEq, if_false]
  · intro hc hq
    simp only [get_next_sector_byte, hr, if_true, get_sector_full st fd s hs,
      if_neg (not_not.mpr hc), if_pos hq, Outcome.bind_ret]

/-! ## Theorems on sector faults and recovery -/

/-- C13 (evaluation at the failing input): `get_next_sector_byte` is called
with no unread bytes; the next sector fails the checksum, so `resync` runs in
ignore-current mode.  It reads a checksum-valid sector without a SYNC record
(sequence 7) and then a checksum-valid sector (sequence 9) that starts with a
valid SYNC record.  `resync` returns, and `get_next_sector_byte` returns
`GS_RESYNC` with the byte at the cursor `resync` left, offset 498, which is 0x55:
not the first byte of the recovered SYNC record, which begins at offset 0 with
the byte 0. -/
theorem get_next_sector_byte_resync_byte :
    resync sample_cfg 1000
        { sector_data := sample_corrupt, cur_sector_ptr := 508, remaining_bytes := 0,
          cur_seq := 3 }
        [.bytes (mk_sector [] 7), .bytes sample_synced] RESYNC_IGNORE_CUR
      = .ret ({ sector_data := sample_synced, cur_sector_ptr := 498, remaining_bytes := 10,
                cur_seq := 9 }, []) ∧
    get_next_sector_byte sample_cfg 1000
        { sector_data := mk_sector [] 3, cur_sector_ptr := 508, remaining_bytes := 0,
          cur_seq := 3 }
        [.bytes sample_corrupt, .bytes (mk_sector [] 7), .bytes sample_synced]
      = .ret (GS_RESYNC, some 0x55,
              { sector_data := sample_synced, cur_sector_ptr := 499, remaining_bytes := 9,
                cur_seq := 9 }, []) ∧
    valid_sync_at sample_cfg sample_synced 0 ∧
    ¬ valid_sync_at sample_cfg sample_synced 498 ∧
    sample_synced.getD 0 0 = 0 ∧
    sample_synced.getD 498 0 = 0x55 := by
  set_option maxRecDepth 1000000 in decide

/-- C14 (evaluation at the failing input): the next sector fails the checksum
and the one after it is checksum-valid and starts with a valid SYNC record.
`get_next_dblk` returns `GS_RESYNC` with `*len = 0` and the cursor already one
byte into the record, `read_file_packet` returns NULL, and the next call of
`get_next_dblk` decodes from the second byte of the record and returns
`GS_BAD_DBLK`; the SYNC record, which decodes with `GS_OK` when read from its
first byte, is never emitted. -/
theorem get_next_dblk_after_resync :
    get_next_dblk sample_cfg 1000
        { sector_data := mk_sector [] 3, cur_sector_ptr := 508, remaining_bytes := 0,
          cur_seq := 3 }
        [.bytes sample_corrupt, .bytes (mk_sector sample_sync_ff 5)] (List.replicate 19 0)
      = .ret (GS_RESYNC, 0, List.replicate 19 0,
              State.at_offset (mk_sector sample_sync_ff 5) 5 1, []) ∧
    read_file_packet sample_cfg 1000 true
        { sector_data := mk_sector [] 3, cur_sector_ptr := 508, remaining_bytes := 0,
          cur_seq := 3 }
        [.bytes sample_corrupt, .bytes (mk_sector sample_sync_ff 5)] (List.replicate 19 0) 77
      = .ret (none, 77, List.replicate 19 0,
              State.at_offset (mk_sector sample_sync_ff 5) 5 1, []) ∧
    get_next_dblk sample_cfg 1000 (State.at_offset (mk_sector sample_sync_ff 5) 5 1) []
        (List.replicate 19 0)
      = .ret (GS_BAD_DBLK, 0, List.replicate 19 0,
              State.at_offset (mk_sector sample_sync_ff 5) 5 4, []) ∧
    valid_sync_at sample_cfg (mk_sector sample_sync_ff 5) 0 ∧
    get_next_dblk sample_cfg 1000 (State.at_offset (mk_sector sample_sync_ff 5) 5 0) []
        (List.replicate 19 0)
      = .ret (GS_OK, 19, [0, 255, 255, 0, 0, 19, 0, 33] ++ sample_sync_ff,
              State.at_offset (mk_sector sample_sync_ff 5) 5 11, []) := by
  set_option maxRecDepth 1000000 in
  refine ⟨by decide, by decide, by decide, by decide, by decide⟩

/-- C20 (evaluation at the failing input): the last accepted sector carried
sequence 3 (`cur_seq = 3`) and the next sector is checksum-valid, carries
sequence 5 and starts with a SYNC record.  `get_sector` reports the sequence
failure and `resync`, entered in use-current mode, sets `cur_seq` to 0, not to 5:
`get_next_sector_byte` returns `GS_RESYNC` with `cur_seq = 0`, and the following
checksum-valid sector, which carries sequence 6, is answered with `GS_SEQ_FAIL`
(expected 1), not with `GS_OK`. -/
theorem resync_does_not_rebase :
    get_sector
        { sector_data := mk_sector [] 3, cur_sector_ptr := 508, remaining_bytes := 0,
          cur_seq := 3 }
        [.bytes (mk_sector sample_sync 5), .bytes (mk_sector [] 6)]
      = .ret (GS_SEQ_FAIL,
              { sector_data := mk_sector sample_sync 5, cur_sector_ptr := 508,
                remaining_bytes := 0, cur_seq := 4 },
              [.bytes (mk_sector [] 6)]) ∧
    get_next_sector_byte sample_cfg 1000
        { sector_data := mk_sector [] 3, cur_sector_ptr := 508, remaining_bytes := 0,
          cur_seq := 3 }
        [.bytes (mk_sector sample_sync 5), .bytes (mk_sector [] 6)]
      = .ret (GS_RESYNC, some 0, State.at_offset (mk_sector sample_sync 5) 0 1,
              [.bytes (mk_sector [] 6)]) ∧
    is_sector (mk_sector [] 6) ∧ chksum_valid (mk_sector [] 6) ∧
    stored_seq (mk_sector [] 6) = 6 ∧
    get_sector (State.at_offset (mk_sector sample_sync 5) 0 1) [.bytes (mk_sector [] 6)]
      = .ret (GS_SEQ_FAIL,
              { sector_data := mk_sector [] 6, cur_sector_ptr := 1, remaining_bytes := 507,
                cur_seq := 1 }, []) := by
  set_option maxRecDepth 1000000 in decide

/-! ## Theorems on the cursor and the length rules -/

/-- C21 (evaluation at the failing input): a `DT_IGNORE` record that is only its
3-byte header (declared length 3) is read without a fault and comes back with
`GS_BAD_DBLK`, not `GS_OK`.  The `DT_IGNORE` case of the `switch` asks for
`cur_dblk_len == 0`, and the header test before it lets no length below 3
through, so for every configuration the case answers `GS_BAD_DBLK` for every
length from 3 on. -/
theorem get_next_dblk_ignore_rejected :
    (∀ (cfg : Config) (bp : List Nat) (msg : tmsg_t) (n : Nat),
      dblk_rule cfg bp msg cfg.DT_IGNORE (n + 3) = .ret GS_BAD_DBLK) ∧
    sample_ignore.getD 2 0 = sample_cfg.DT_IGNORE ∧
    get_next_dblk sample_cfg 0 State.init [.bytes (mk_sector sample_ignore 0)]
        (List.replicate 11 0)
      = .ret (GS_BAD_DBLK, 11, [0, 255, 255, 0, 0, 11, 0, 33] ++ sample_ignore,
              State.at_offset (mk_sector sample_ignore 0) 0 3, []) := by
  refine ⟨?_, by decide, ?_⟩
  · intro cfg bp msg n
    simp [dblk_rule]
  · set_option maxRecDepth 1000000 in decide

/-- C24: on every 512-byte sector `get_sector` returns `GS_OK`, `GS_CHKSUM_FAIL`
or `GS_SEQ_FAIL`; with `GS_OK` the cursor is at the start of the sector buffer
and `remaining_bytes` is 508, and with `GS_CHKSUM_FAIL` or `GS_SEQ_FAIL` the
cursor and `remaining_bytes` are what they were before the call. -/
theorem get_sector_cursor (st : State) (fd : Source) (s : List Nat) (hs : is_sector s) :
    ∃ rtn st', get_sector st (.bytes s :: fd) = .ret (rtn, st', fd) ∧
      (rtn = GS_OK ∨ rtn = GS_CHKSUM_FAIL ∨ rtn = GS_SEQ_FAIL) ∧
      (rtn = GS_OK → st'.cur_sector_ptr = 0 ∧ st'.remaining_bytes = 508) ∧
      (rtn = GS_CHKSUM_FAIL ∨ rtn = GS_SEQ_FAIL →
        st'.cur_sector_ptr = st.cur_sector_ptr ∧
        st'.remaining_bytes = st.remaining_bytes) := by
  rw [get_sector_full st fd s hs]
  split
  · exact ⟨_, _, rfl, Or.inr (Or.inl rfl), fun h => (by cases h), fun _ => ⟨rfl, rfl⟩⟩
  · split
    · exact ⟨_, _, rfl, Or.inr (Or.inr rfl), fun h => (by cases h), fun _ => ⟨rfl, rfl⟩⟩
    · exact ⟨_, _, rfl, Or.inl rfl, fun _ => ⟨rfl, rfl⟩,
        fun h => (by rcases h with h | h <;> cases h)⟩

set_option maxRecDepth 1000000 in
theorem get_sector_cursor_witness :
    ∃ rtn st', get_sector (State.at_offset sample_blank 5 100) (.bytes sample_synced :: [])
        = .ret (rtn, st', []) ∧
      (rtn = GS_OK ∨ rtn = GS_CHKSUM_FAIL ∨ rtn = GS_SEQ_FAIL) ∧
      (rtn = GS_OK → st'.cur_sector_ptr = 0 ∧ st'.remaining_bytes = 508) ∧
      (rtn = GS_CHKSUM_FAIL ∨ rtn = GS_SEQ_FAIL →
        st'.cur_sector_ptr = (State.at_offset sample_blank 5 100).cur_sector_ptr ∧
        st'.remaining_bytes = (State.at_offset sample_blank 5 100).remaining_bytes) :=
  get_sector_cursor (State.at_offset sample_blank 5 100) [] sample_synced (by decide)

/-! ## Lemmas on the reads of a call -/

theorem get_sector_cases (st : State) (fd : Source) :
    get_sector st fd = .exit 1 ∨
    ∃ r fd2 rtn st2, fd = r :: fd2 ∧ get_sector st fd = .ret (rtn, st2, fd2) ∧
      (st2.remaining_bytes = st.remaining_bytes ∨ st2.remaining_bytes = 508) ∧
      ((rtn = GS_CHKSUM_FAIL ∧ checksum_fault r = true) ∨
       ((rtn = GS_OK ∨ rtn = GS_SEQ_FAIL) ∧ checksum_fault r = false)) := by
  cases fd with
  | nil => exact Or.inl rfl
  | cons r fd2 =>
    cases r with
    | error => exact Or.inl rfl
    | bytes dbuff =>
      simp only [get_sector]
      split
      · exact Or.inl rfl
      · split
        · exact Or.inl rfl
        · rename_i hlen
          have hl : dbuff.length = SECTOR_SIZE := not_not.mp hlen
          split
          · rename_i hc
            exact Or.inr ⟨_, _, _, _, rfl, rfl, Or.inl rfl,
              Or.inl ⟨rfl, by simp [checksum_fault, hl, hc]⟩⟩
          · rename_i hc
            split
            · exact Or.inr ⟨_, _, _, _, rfl, rfl, Or.inl rfl,
                Or.inr ⟨Or.inr rfl, by simp [checksum_fault, hl, not_not.mp hc]⟩⟩
            · exact Or.inr ⟨_, _, _, _, rfl, rfl, Or.inr rfl,
                Or.inr ⟨Or.inl rfl, by simp [checksum_fault, hl, not_not.mp hc]⟩⟩

/-- A call of `get_sector` that returns has taken exactly one read off the file. -/
theorem get_sector_tail (st : State) (fd : Source) (rtn : gs_rtn_t) (st' : State)
    (fd' : Source) (h : get_sector st fd = .ret (rtn, st', fd')) : ∃ r, fd = r :: fd' := by
  rcases get_sector_cases st fd with h1 | ⟨r, fd2, rtn2, st2, hfd, h2, _, _⟩
  · rw [h1] at h; cases h
  · rw [h2] at h
    simp only [Outcome.ret.injEq, Prod.mk.injEq] at h
    exact ⟨r, by rw [hfd, h.2.2]⟩

/-- One iteration of the loop of `resync`: it ends the call, or it goes on in
the same buffer with `remaining_bytes` one less (modulo 65536) and still at
least `DT_SYNC_SIZE`, or it goes on after one read. -/
theorem resync_loop_step (cfg : Config) (fuel : Nat) (st : State) (fd : Source)
    (mode : Nat) (msg : tmsg_t) (bb : Nat) :
    resync_loop cfg (fuel + 1) st fd mode msg bb = .oob ∨
    resync_loop cfg (fuel + 1) st fd mode msg bb = .exit 1 ∨
    resync_loop cfg (fuel + 1) st fd mode msg bb = .ret (st, fd) ∨
    (∃ st2 msg2, resync_loop cfg (fuel + 1) st fd mode msg bb
        = resync_loop cfg fuel st2 fd RESYNC_USE_CUR msg2 bb ∧
      mode = RESYNC_USE_CUR ∧
      st2.remaining_bytes = (st.remaining_bytes + 65535) % 65536 ∧
      cfg.DT_SYNC_SIZE ≤ st2.remaining_bytes) ∨
    (∃ r fd2 st2 mode2 msg2 bb2, fd = r :: fd2 ∧
      resync_loop cfg (fuel + 1) st fd mode msg bb
        = resync_loop cfg fuel st2 fd2 mode2 msg2 bb2 ∧
      bb2 = bb + checksum_faults [r] ∧ (bb ≤ 4 → bb2 ≤ 4)) := by
  have fetch : ∀ st1 : State,
      (get_sector st1 fd).bind (fun (x : gs_rtn_t × State × Source) =>
        if x.1 = GS_OK then
          resync_loop cfg fuel x.2.1 x.2.2 RESYNC_USE_CUR
            { data := 0, len := cfg.DT_SYNC_SIZE } bb
        else if x.1 = GS_SEQ_FAIL then
          resync_loop cfg fuel { x.2.1 with cur_seq := sector_seq x.2.1.sector_data } x.2.2
            RESYNC_USE_CUR { data := 0, len := cfg.DT_SYNC_SIZE } bb
        else if bb + 1 > 4 then .exit 1
        else resync_loop cfg fuel x.2.1 x.2.2 RESYNC_IGNORE_CUR
          { data := 0, len := cfg.DT_SYNC_SIZE } (bb + 1)) = .exit 1 ∨
      ∃ r fd2 st2 mode2 msg2 bb2, fd = r :: fd2 ∧
        (get_sector st1 fd).bind (fun (x : gs_rtn_t × State × Source) =>
          if x.1 = GS_OK then
            resync_loop cfg fuel x.2.1 x.2.2 RESYNC_USE_CUR
              { data := 0, len := cfg.DT_SYNC_SIZE } bb
          else if x.1 = GS_SEQ_FAIL then
            resync_loop cfg fuel { x.2.1 with cur_seq := sector_seq x.2.1.sector_data } x.2.2
              RESYNC_USE_CUR { data := 0, len := cfg.DT_SYNC_SIZE } bb
          else if bb + 1 > 4 then .exit 1
          else resync_loop cfg fuel x.2.1 x.2.2 RESYNC_IGNORE_CUR
            { data := 0, len := cfg.DT_SYNC_SIZE } (bb + 1))
          = resync_loop cfg fuel st2 fd2 mode2 msg2 bb2 ∧
        bb2 = bb + checksum_faults [r] ∧ (bb ≤ 4 → bb2 ≤ 4) := by
    intro st1
    rcases get_sector_cases st1 fd with h1 | ⟨r, fd2, rtn, st2, hfd, h2, _, hflt⟩
    · left; rw [h1]; rfl
    · rw [h2]
      simp only [Outcome.bind_ret]
      by_cases c1 : rtn = GS_OK
      · have hz : checksum_fault r = false := by
          rcases hflt with ⟨hx, _⟩ | ⟨_, hx⟩
          · rw [c1] at hx; cases hx
          · exact hx
        right
        exact ⟨r, fd2, _, _, _, _, hfd, by rw [if_pos c1],
          by simp [checksum_faults, hz], fun hle => hle⟩
      · rw [if_neg c1]
        by_cases c2 : rtn = GS_SEQ_FAIL
        · have hz : checksum_fault r = false := by
            rcases hflt with ⟨hx, _⟩ | ⟨_, hx⟩
            · rw [c2] at hx; cases hx
            · exact hx
          right
          exact ⟨r, fd2, _, _, _, _, hfd, by rw [if_pos c2],
            by simp [checksum_faults, hz], fun hle => hle⟩
        · rw [if_neg c2]
          have hz : checksum_fault r = true := by
            rcases hflt with ⟨_, hx⟩ | ⟨hx, _⟩
            · exact hx
            · rcases hx with hx | hx
              · exact absurd hx c1
              · exact absurd hx c2
          by_cases c3 : bb + 1 > 4
          · left; rw [if_pos c3]
          · right
            exact ⟨r, fd2, _, _, _, _, hfd, by rw [if_neg c3],
              by simp [checksum_faults, hz], fun _ => by omega⟩
  simp only [resync_loop]
  by_cases hm : mode = RESYNC_USE_CUR
  · rw [if_pos hm]
    cases hsm : sync_match cfg st.sector_data msg with
    | none => left; rfl
    | some b =>
      cases b with
      | true => right; right; left; rfl
      | false =>
        simp only
        split
        · rename_i hge
          right; right; right; left
          refine ⟨⟨st.sector_data, st.cur_sector_ptr + 1,
            (st.remaining_bytes + 65535) % 65536, st.cur_seq⟩,
            ⟨msg.data + 1, cfg.DT_SYNC_SIZE⟩, ?_, hm, ?_, hge⟩
          · rw [hm]
          · simp only
        · have hf := fetch ⟨st.sector_data, st.cur_sector_ptr + 1,
            (st.remaining_bytes + 65535) % 65536, st.cur_seq⟩
          rcases hf with h | h
          · right; left; exact h
          · right; right; right; right; exact h
  · rw [if_neg hm]
    rcases fetch st with h | h
    · right; left; exact h
    · right; right; right; right; exact h

/-- What is left of the file when the loop of `resync` returns is a tail of the
file it started on. -/
theorem resync_loop_suffix (cfg : Config) :
    ∀ (fuel : Nat) (st : State) (fd : Source) (mode : Nat) (msg : tmsg_t) (bb : Nat)
      (st' : State) (fd' : Source),
      resync_loop cfg fuel st fd mode msg bb = .ret (st', fd') → fd' <:+ fd := by
  intro fuel
  induction fuel with
  | zero =>
    intro st fd mode msg bb st' fd' h
    simp [resync_loop] at h
  | succ fuel ih =>
    intro st fd mode msg bb st' fd' h
    rcases resync_loop_step cfg fuel st fd mode msg bb with
      h1 | h1 | h1 | ⟨st2, msg2, h1, _⟩ | ⟨r, fd2, st2, mode2, msg2, bb2, hfd, h1, _, _⟩
    · rw [h1] at h; cases h
    · rw [h1] at h; cases h
    · rw [h1] at h
      simp only [Outcome.ret.injEq, Prod.mk.injEq] at h
      rw [← h.2]
    · rw [h1] at h
      exact ih _ _ _ _ _ _ _ h
    · rw [h1] at h
      rw [hfd]
      exact (ih _ _ _ _ _ _ _ h).trans (List.suffix_cons _ _)

/-- The loop of `resync` ends within the iterations counted by the file length
and the bytes left to scan. -/
theorem resync_loop_terminates (cfg : Config) (hS : 1 ≤ cfg.DT_SYNC_SIZE) :
    ∀ (fuel : Nat) (st : State) (fd : Source) (mode : Nat) (msg : tmsg_t) (bb : Nat),
      65540 * fd.length
        + (if mode = RESYNC_USE_CUR then
            (if 0 < st.remaining_bytes ∧ st.remaining_bytes < 65536 then st.remaining_bytes
             else 65537)
           else 0) + 1 ≤ fuel →
      resync_loop cfg fuel st fd mode msg bb ≠ .nofuel := by
  intro fuel
  induction fuel with
  | zero =>
    intro st fd mode msg bb hf
    omega
  | succ fuel ih =>
    intro st fd mode msg bb hf
    rcases resync_loop_step cfg fuel st fd mode msg bb with
      h1 | h1 | h1 | ⟨st2, msg2, h1, hm, hr, hge⟩ | ⟨r, fd2, st2, mode2, msg2, bb2, hfd, h1, _, _⟩
    · rw [h1]; exact fun h => by cases h
    · rw [h1]; exact fun h => by cases h
    · rw [h1]; exact fun h => by cases h
    · rw [h1]
      apply ih
      rw [if_pos hm] at hf
      rw [if_pos rfl]
      split_ifs at hf ⊢ <;> omega
    · rw [h1]
      apply ih
      rw [hfd, List.length_cons] at hf
      split_ifs at hf ⊢ <;> omega

theorem Outcome.bind_ne_nofuel {α β : Type} {x : Outcome α} {f : α → Outcome β}
    (hx : x ≠ .nofuel) (hf : ∀ a, x = .ret a → f a ≠ .nofuel) : x.bind f ≠ .nofuel := by
  cases x with
  | ret a => exact hf a rfl
  | exit c => exact fun h => by cases h
  | oob => exact fun h => by cases h
  | nofuel => exact absurd rfl hx

theorem resync_terminates (cfg : Config) (hS : 1 ≤ cfg.DT_SYNC_SIZE) (fuel : Nat)
    (st : State) (fd : Source) (mode : Nat) (hf : 65540 * fd.length + 510 ≤ fuel) :
    resync cfg fuel st fd mode ≠ .nofuel := by
  unfold resync
  apply resync_loop_terminates cfg hS
  simp only [SECTOR_SIZE, OVERHEAD]
  split_ifs <;> omega

theorem resync_suffix (cfg : Config) (fuel : Nat) (st : State) (fd : Source) (mode : Nat)
    (st' : State) (fd' : Source) (h : resync cfg fuel st fd mode = .ret (st', fd')) :
    fd' <:+ fd :=
  resync_loop_suffix cfg fuel _ fd mode _ 0 st' fd' h

theorem deliver_fd (r : gs_rtn_t) (st : State) (fd : Source) (rtn : gs_rtn_t)
    (b : Option Nat) (st' : State) (fd' : Source)
    (h : deliver r st fd = .ret (rtn, b, st', fd')) : fd' = fd := by
  unfold deliver at h
  split at h
  · cases h
  · simp only [Outcome.ret.injEq, Prod.mk.injEq] at h
    exact h.2.2.2.symm

theorem deliver_ne_nofuel (r : gs_rtn_t) (st : State) (fd : Source) :
    deliver r st fd ≠ .nofuel := by
  unfold deliver
  split <;> exact fun h => by cases h

/-- What is left of the file when `get_next_sector_byte` returns is a tail of
the file it started on. -/
theorem get_next_sector_byte_suffix (cfg : Config) (fuel : Nat) (st : State) (fd : Source)
    (rtn : gs_rtn_t) (b : Option Nat) (st' : State) (fd' : Source)
    (h : get_next_sector_byte cfg fuel st fd = .ret (rtn, b, st', fd')) : fd' <:+ fd := by
  unfold get_next_sector_byte at h
  split at h
  · obtain ⟨⟨r1, s1, f1⟩, hg, h⟩ := Outcome.bind_eq_ret h
    obtain ⟨r0, hfd⟩ := get_sector_tail st fd r1 s1 f1 hg
    have hsuf : f1 <:+ fd := by rw [hfd]; exact List.suffix_cons _ _
    simp only at h
    split at h
    · obtain ⟨⟨s2, f2⟩, hr, h⟩ := Outcome.bind_eq_ret h
      rw [deliver_fd _ _ _ _ _ _ _ h]
      exact (resync_suffix cfg fuel _ _ _ _ _ hr).trans hsuf
    · split at h
      · obtain ⟨⟨s2, f2⟩, hr, h⟩ := Outcome.bind_eq_ret h
        rw [deliver_fd _ _ _ _ _ _ _ h]
        exact (resync_suffix cfg fuel _ _ _ _ _ hr).trans hsuf
      · split at h
        · simp only [Outcome.ret.injEq, Prod.mk.injEq] at h
          rw [← h.2.2.2]; exact hsuf
        · rw [deliver_fd _ _ _ _ _ _ _ h]; exact hsuf
  · rw [deliver_fd _ _ _ _ _ _ _ h]

theorem fuel_bound_mono {fd fd' : Source} (h : fd' <:+ fd) : fuel_bound fd' ≤ fuel_bound fd := by
  have := h.length_le
  unfold fuel_bound
  omega

theorem get_next_sector_byte_terminates (cfg : Config) (hS : 1 ≤ cfg.DT_SYNC_SIZE)
    (fuel : Nat) (st : State) (fd : Source) (hf : fuel_bound fd ≤ fuel) :
    get_next_sector_byte cfg fuel st fd ≠ .nofuel := by
  unfold get_next_sector_byte
  split
  · rcases get_sector_cases st fd with h1 | ⟨r, fd2, rtn, st2, hfd, h2, _, _⟩
    · rw [h1]; exact fun h => by cases h
    · rw [h2]
      have hb : 65540 * fd2.length + 510 ≤ fuel := by
        rw [hfd] at hf
        simp only [fuel_bound, List.length_cons] at hf
        omega
      simp only [Outcome.bind_ret]
      split
      · exact Outcome.bind_ne_nofuel (resync_terminates cfg hS fuel _ _ _ hb)
          (fun a _ => deliver_ne_nofuel _ _ _)
      · split
        · exact Outcome.bind_ne_nofuel (resync_terminates cfg hS fuel _ _ _ hb)
            (fun a _ => deliver_ne_nofuel _ _ _)
        · split
          · exact fun h => by cases h
          · exact deliver_ne_nofuel _ _ _
  · exact deliver_ne_nofuel _ _ _

theorem deliver_some (r : gs_rtn_t) (st : State) (fd : Source) (rtn : gs_rtn_t)
    (b : Option Nat) (st' : State) (fd' : Source)
    (h : deliver r st fd = .ret (rtn, b, st', fd')) : ∃ v, b = some v := by
  unfold deliver at h
  split at h
  · cases h
  · simp only [Outcome.ret.injEq, Prod.mk.injEq] at h
    exact ⟨_, h.2.1.symm⟩

/-- A call of `get_next_sector_byte` that returns `GS_OK` has stored a byte. -/
theorem get_next_sector_byte_ok_some (cfg : Config) (fuel : Nat) (st : State) (fd : Source)
    (b : Option Nat) (st' : State) (fd' : Source)
    (h : get_next_sector_byte cfg fuel st fd = .ret (GS_OK, b, st', fd')) :
    ∃ v, b = some v := by
  unfold get_next_sector_byte at h
  split at h
  · obtain ⟨⟨r1, s1, f1⟩, _, h⟩ := Outcome.bind_eq_ret h
    simp only at h
    split at h
    · obtain ⟨⟨s2, f2⟩, _, h⟩ := Outcome.bind_eq_ret h
      exact deliver_some _ _ _ _ _ _ _ h
    · split at h
      · obtain ⟨⟨s2, f2⟩, _, h⟩ := Outcome.bind_eq_ret h
        exact deliver_some _ _ _ _ _ _ _ h
      · split at h
        · rename_i hne
          simp only [Outcome.ret.injEq, Prod.mk.injEq] at h
          exact absurd h.1 hne
        · exact deliver_some _ _ _ _ _ _ _ h
  · exact deliver_some _ _ _ _ _ _ _ h

/-! ## Lemmas on the parts of a call of get_next_dblk -/

theorem dblk_payload_suffix (cfg : Config) (fuel : Nat) :
    ∀ (n i : Nat) (st : State) (fd : Source) (bp : List Nat) (rtn : gs_rtn_t)
      (bp' : List Nat) (st' : State) (fd' : Source),
      dblk_payload cfg fuel n i st fd bp = .ret (rtn, bp', st', fd') → fd' <:+ fd := by
  intro n
  induction n with
  | zero =>
    intro i st fd bp rtn bp' st' fd' h
    simp only [dblk_payload, Outcome.ret.injEq, Prod.mk.injEq] at h
    rw [← h.2.2.2]
  | succ n ih =>
    intro i st fd bp rtn bp' st' fd' h
    simp only [dblk_payload] at h
    obtain ⟨⟨r1, b1, s1, f1⟩, hg, h⟩ := Outcome.bind_eq_ret h
    have hs := get_next_sector_byte_suffix cfg fuel st fd r1 b1 s1 f1 hg
    simp only at h
    obtain ⟨bp1, _, h⟩ := Outcome.bind_eq_ret h
    split at h
    · simp only [Outcome.ret.injEq, Prod.mk.injEq] at h
      rw [← h.2.2.2]; exact hs
    · exact (ih _ _ _ _ _ _ _ _ h).trans hs

theorem ofOption_ne_nofuel {α : Type} (o : Option α) : Outcome.ofOption o ≠ .nofuel := by
  cases o <;> exact fun h => by cases h

theorem stored_byte_ne_nofuel (o : Option Nat) : stored_byte o ≠ .nofuel := by
  cases o <;> exact fun h => by cases h

theorem dblk_rule_ne_nofuel (cfg : Config) (bp : List Nat) (msg : tmsg_t) (dtype len : Nat) :
    dblk_rule cfg bp msg dtype len ≠ .nofuel := by
  unfold dblk_rule
  split_ifs <;> first
    | exact fun h => by cases h
    | (apply Outcome.bind_ne_nofuel (ofOption_ne_nofuel _)
       intro v _
       simp only
       split_ifs
       · exact fun h => by cases h
       · apply Outcome.bind_ne_nofuel (ofOption_ne_nofuel _)
         intro p _
         split_ifs <;> exact fun h => by cases h)

theorem dblk_payload_terminates (cfg : Config) (hS : 1 ≤ cfg.DT_SYNC_SIZE) (fuel : Nat) :
    ∀ (n i : Nat) (st : State) (fd : Source) (bp : List Nat),
      fuel_bound fd ≤ fuel → dblk_payload cfg fuel n i st fd bp ≠ .nofuel := by
  intro n
  induction n with
  | zero =>
    intro i st fd bp _
    simp only [dblk_payload]
    exact fun h => by cases h
  | succ n ih =>
    intro i st fd bp hf
    simp only [dblk_payload]
    apply Outcome.bind_ne_nofuel (get_next_sector_byte_terminates cfg hS fuel st fd hf)
    rintro ⟨r1, b1, s1, f1⟩ hg
    have hs := get_next_sector_byte_suffix cfg fuel st fd r1 b1 s1 f1 hg
    simp only
    apply Outcome.bind_ne_nofuel (ofOption_ne_nofuel _)
    intro bp1 _
    split
    · exact fun h => by cases h
    · exact ih _ _ _ _ (Nat.le_trans (fuel_bound_mono hs) hf)

/-- What a returning call of the body of `get_next_dblk` has done: stopped at a
bad header, or written the envelope and run the payload loop. -/
theorem dblk_body_inv (cfg : Config) (fuel : Nat) (st : State) (fd : Source) (bp : List Nat)
    (h0 h1 h2 : Nat) (rtn : gs_rtn_t) (l : Nat) (bp' : List Nat) (st' : State) (fd' : Source)
    (h : dblk_body cfg fuel st fd bp h0 h1 h2 = .ret (rtn, l, bp', st', fd')) :
    ((h2 ≥ cfg.DT_MAX ∨ (h0 * 256 + h1) % 65536 < 3) ∧
      rtn = GS_BAD_DBLK ∧ l = 0 ∧ bp' = bp ∧ st' = st ∧ fd' = fd) ∨
    (¬ (h2 ≥ cfg.DT_MAX ∨ (h0 * 256 + h1) % 65536 < 3) ∧
      ∃ e r, dblk_envelope cfg bp ((h0 * 256 + h1) % 65536 + 1 + cfg.SPACKET_SIZE) h0 h1 h2
          = some e ∧
        dblk_payload cfg fuel ((h0 * 256 + h1) % 65536 - 3) 3 st fd e
          = .ret (r, bp', st', fd') ∧
        ((r ≠ GS_OK ∧ rtn = r ∧ l = 0) ∨
         (r = GS_OK ∧ l = (h0 * 256 + h1) % 65536 + 1 + cfg.SPACKET_SIZE ∧
          (rtn = GS_OK ∨ rtn = GS_BAD_DBLK)))) := by
  unfold dblk_body at h
  simp only at h
  split at h
  · rename_i hbad
    simp only [Outcome.ret.injEq, Prod.mk.injEq] at h
    obtain ⟨e1, e2, e3, e4, e5⟩ := h
    exact Or.inl ⟨hbad, e1.symm, e2.symm, e3.symm, e4.symm, e5.symm⟩
  · rename_i hok
    right
    refine ⟨hok, ?_⟩
    obtain ⟨e, he, h⟩ := Outcome.bind_eq_ret h
    obtain ⟨⟨r1, bp2, s1, f1⟩, hp, h⟩ := Outcome.bind_eq_ret h
    have he' : dblk_envelope cfg bp ((h0 * 256 + h1) % 65536 + 1 + cfg.SPACKET_SIZE) h0 h1 h2
        = some e := by
      cases hd : dblk_envelope cfg bp ((h0 * 256 + h1) % 65536 + 1 + cfg.SPACKET_SIZE) h0 h1 h2
        with
      | none => rw [hd] at he; cases he
      | some e' =>
        rw [hd] at he
        simp only [Outcome.ofOption, Outcome.ret.injEq] at he
        rw [he]
    simp only at h
    split at h
    · rename_i hne
      simp only [Outcome.ret.injEq, Prod.mk.injEq] at h
      obtain ⟨e1, e2, e3, e4, e5⟩ := h
      subst e3 e4 e5
      exact ⟨e, r1, he', hp, Or.inl ⟨hne, e1.symm, e2.symm⟩⟩
    · rename_i heq
      obtain ⟨r2, hrule, h⟩ := Outcome.bind_eq_ret h
      simp only [Outcome.ret.injEq, Prod.mk.injEq] at h
      obtain ⟨e1, e2, e3, e4, e5⟩ := h
      subst e3 e4 e5
      refine ⟨e, r1, he', hp, Or.inr ⟨not_not.mp heq, e2.symm, ?_⟩⟩
      rw [← e1]
      exact dblk_rule_rtn cfg _ _ _ _ _ hrule

theorem dblk_body_suffix (cfg : Config) (fuel : Nat) (st : State) (fd : Source) (bp : List Nat)
    (h0 h1 h2 : Nat) (rtn : gs_rtn_t) (l : Nat) (bp' : List Nat) (st' : State) (fd' : Source)
    (h : dblk_body cfg fuel st fd bp h0 h1 h2 = .ret (rtn, l, bp', st', fd')) : fd' <:+ fd := by
  rcases dblk_body_inv cfg fuel st fd bp h0 h1 h2 rtn l bp' st' fd' h with
    ⟨_, _, _, _, _, e⟩ | ⟨_, e, r, _, hp, _⟩
  · rw [e]
  · exact dblk_payload_suffix cfg fuel _ _ _ _ _ _ _ _ _ hp

theorem dblk_body_terminates (cfg : Config) (hS : 1 ≤ cfg.DT_SYNC_SIZE) (fuel : Nat)
    (st : State) (fd : Source) (bp : List Nat) (h0 h1 h2 : Nat) (hf : fuel_bound fd ≤ fuel) :
    dblk_body cfg fuel st fd bp h0 h1 h2 ≠ .nofuel := by
  unfold dblk_body
  simp only
  split
  · exact fun h => by cases h
  · apply Outcome.bind_ne_nofuel (ofOption_ne_nofuel _)
    intro e _
    apply Outcome.bind_ne_nofuel (dblk_payload_terminates cfg hS fuel _ _ _ _ _ hf)
    rintro ⟨r1, bp2, s1, f1⟩ _
    simp only
    split
    · exact fun h => by cases h
    · apply Outcome.bind_ne_nofuel (dblk_rule_ne_nofuel _ _ _ _ _)
      intro r2 _
      exact fun h => by cases h

/-- What a returning call of `get_next_dblk` has done: returned from one of the
three header reads with a status other than `GS_OK`, or read the three header
bytes and run its body. -/
theorem get_next_dblk_inv (cfg : Config) (fuel : Nat) (st : State) (fd : Source)
    (bp : List Nat) (rtn : gs_rtn_t) (l : Nat) (bp' : List Nat) (st' : State) (fd' : Source)
    (h : get_next_dblk cfg fuel st fd bp = .ret (rtn, l, bp', st', fd')) :
    (rtn ≠ GS_OK ∧ l = 0 ∧ bp' = bp ∧ fd' <:+ fd) ∨
    (∃ h0 h1 h2 s3 f3, read_ok cfg fuel 3 st fd = some ([h0, h1, h2], s3, f3) ∧ f3 <:+ fd ∧
      dblk_body cfg fuel s3 f3 bp h0 h1 h2 = .ret (rtn, l, bp', st', fd')) := by
  unfold get_next_dblk at h
  obtain ⟨⟨r1, b1, s1, f1⟩, hg1, h⟩ := Outcome.bind_eq_ret h
  have hs1 := get_next_sector_byte_suffix cfg fuel st fd r1 b1 s1 f1 hg1
  simp only at h
  split at h
  · rename_i hne
    simp only [Outcome.ret.injEq, Prod.mk.injEq] at h
    obtain ⟨e1, e2, e3, e4, e5⟩ := h
    exact Or.inl ⟨e1 ▸ hne, e2.symm, e3.symm, e5 ▸ hs1⟩
  rename_i hr1
  obtain ⟨x0, hx0, h⟩ := Outcome.bind_eq_ret h
  obtain ⟨⟨r2, b2, s2, f2⟩, hg2, h⟩ := Outcome.bind_eq_ret h
  have hs2 := (get_next_sector_byte_suffix cfg fuel s1 f1 r2 b2 s2 f2 hg2).trans hs1
  simp only at h
  split at h
  · rename_i hne
    simp only [Outcome.ret.injEq, Prod.mk.injEq] at h
    obtain ⟨e1, e2, e3, e4, e5⟩ := h
    exact Or.inl ⟨e1 ▸ hne, e2.symm, e3.symm, e5 ▸ hs2⟩
  rename_i hr2
  obtain ⟨x1, hx1, h⟩ := Outcome.bind_eq_ret h
  obtain ⟨⟨r3, b3, s3, f3⟩, hg3, h⟩ := Outcome.bind_eq_ret h
  have hs3 := (get_next_sector_byte_suffix cfg fuel s2 f2 r3 b3 s3 f3 hg3).trans hs2
  simp only at h
  split at h
  · rename_i hne
    simp only [Outcome.ret.injEq, Prod.mk.injEq] at h
    obtain ⟨e1, e2, e3, e4, e5⟩ := h
    exact Or.inl ⟨e1 ▸ hne, e2.symm, e3.symm, e5 ▸ hs3⟩
  rename_i hr3
  obtain ⟨x2, hx2, h⟩ := Outcome.bind_eq_ret h
  right
  have hr1' : r1 = GS_OK := not_not.mp hr1
  have hr2' : r2 = GS_OK := not_not.mp hr2
  have hr3' : r3 = GS_OK := not_not.mp hr3
  subst hr1' hr2' hr3'
  cases b1 with
  | none => cases hx0
  | some v0 =>
    cases b2 with
    | none => cases hx1
    | some v1 =>
      cases b3 with
      | none => cases hx2
      | some v2 =>
        simp only [stored_byte, Outcome.ret.injEq] at hx0 hx1 hx2
        subst hx0 hx1 hx2
        refine ⟨v0, v1, v2, s3, f3, ?_, hs3, h⟩
        simp only [read_ok, hg1, hg2, hg3]

theorem get_next_dblk_suffix (cfg : Config) (fuel : Nat) (st : State) (fd : Source)
    (bp : List Nat) (rtn : gs_rtn_t) (l : Nat) (bp' : List Nat) (st' : State) (fd' : Source)
    (h : get_next_dblk cfg fuel st fd bp = .ret (rtn, l, bp', st', fd')) : fd' <:+ fd := by
  rcases get_next_dblk_inv cfg fuel st fd bp rtn l bp' st' fd' h with
    ⟨_, _, _, hs⟩ | ⟨h0, h1, h2, s3, f3, _, hs, hb⟩
  · exact hs
  · exact (dblk_body_suffix cfg fuel _ _ _ _ _ _ _ _ _ _ _ hb).trans hs

theorem get_next_dblk_terminates (cfg : Config) (hS : 1 ≤ cfg.DT_SYNC_SIZE) (fuel : Nat)
    (st : State) (fd : Source) (bp : List Nat) (hf : fuel_bound fd ≤ fuel) :
    get_next_dblk cfg fuel st fd bp ≠ .nofuel := by
  unfold get_next_dblk
  apply Outcome.bind_ne_nofuel (get_next_sector_byte_terminates cfg hS fuel st fd hf)
  rintro ⟨r1, b1, s1, f1⟩ hg1
  have hf1 := Nat.le_trans (fuel_bound_mono
    (get_next_sector_byte_suffix cfg fuel st fd r1 b1 s1 f1 hg1)) hf
  simp only
  split
  · exact fun h => by cases h
  apply Outcome.bind_ne_nofuel (stored_byte_ne_nofuel _)
  intro x0 _
  apply Outcome.bind_ne_nofuel (get_next_sector_byte_terminates cfg hS fuel s1 f1 hf1)
  rintro ⟨r2, b2, s2, f2⟩ hg2
  have hf2 := Nat.le_trans (fuel_bound_mono
    (get_next_sector_byte_suffix cfg fuel s1 f1 r2 b2 s2 f2 hg2)) hf1
  simp only
  split
  · exact fun h => by cases h
  apply Outcome.bind_ne_nofuel (stored_byte_ne_nofuel _)
  intro x1 _
  apply Outcome.bind_ne_nofuel (get_next_sector_byte_terminates cfg hS fuel s2 f2 hf2)
  rintro ⟨r3, b3, s3, f3⟩ hg3
  have hf3 := Nat.le_trans (fuel_bound_mono
    (get_next_sector_byte_suffix cfg fuel s2 f2 r3 b3 s3 f3 hg3)) hf2
  simp only
  split
  · exact fun h => by cases h
  apply Outcome.bind_ne_nofuel (stored_byte_ne_nofuel _)
  intro x2 _
  exact dblk_body_terminates cfg hS fuel _ _ _ _ _ _ hf3

/-! ## Theorems on reads and termination -/

/-- C27 (counterexample): one call reads two sectors.  `get_next_sector_byte`,
called with no unread bytes, reads a sector that fails the checksum and then,
inside `resync`, the sector after it, which starts with a SYNC record; the same
holds for the call of `get_next_dblk` that makes this call for its first header
byte.  Of the three sectors in the file one is left. -/
theorem calls_read_two_sectors :
    get_next_sector_byte sample_cfg 2
        { sector_data := mk_sector [] 3, cur_sector_ptr := 508, remaining_bytes := 0,
          cur_seq := 3 }
        [.bytes sample_corrupt, .bytes (mk_sector sample_sync 9), .bytes sample_blank]
      = .ret (GS_RESYNC, some 0, State.at_offset (mk_sector sample_sync 9) 9 1,
              [.bytes sample_blank]) ∧
    get_next_dblk sample_cfg 2
        { sector_data := mk_sector [] 3, cur_sector_ptr := 508, remaining_bytes := 0,
          cur_seq := 3 }
        [.bytes sample_corrupt, .bytes (mk_sector sample_sync 9), .bytes sample_blank]
        (List.replicate 19 0)
      = .ret (GS_RESYNC, 0, List.replicate 19 0,
              State.at_offset (mk_sector sample_sync 9) 9 1, [.bytes sample_blank]) := by
  set_option maxRecDepth 1000000 in
  refine ⟨by decide, by decide⟩

theorem get_sector_ok_remaining (st : State) (fd : Source) (st' : State) (fd' : Source)
    (h : get_sector st fd = .ret (GS_OK, st', fd')) : st'.remaining_bytes = 508 := by
  cases fd with
  | nil => cases h
  | cons r fd =>
    cases r with
    | error => cases h
    | bytes dbuff =>
      simp only [get_sector] at h
      split at h
      · cases h
      · split at h
        · cases h
        · split at h
          · cases h
          · split at h
            · cases h
            · cases h; rfl

theorem deliver_remaining (r : gs_rtn_t) (st : State) (fd : Source) (rtn : gs_rtn_t)
    (b : Option Nat) (st' : State) (fd' : Source)
    (h : deliver r st fd = .ret (rtn, b, st', fd')) :
    st'.remaining_bytes = (st.remaining_bytes + 65535) % 65536 := by
  unfold deliver at h
  split at h
  · cases h
  · cases h; rfl

/-- A byte read that returns `GS_OK` takes the byte from the buffer when bytes
are unread, and reads exactly one sector when none is. -/
theorem get_next_sector_byte_ok_reads (cfg : Config) (fuel : Nat) (st : State) (fd : Source)
    (b : Option Nat) (st' : State) (fd' : Source)
    (h : get_next_sector_byte cfg fuel st fd = .ret (GS_OK, b, st', fd'))
    (hu : st.remaining_bytes < 65536) :
    (0 < st.remaining_bytes → fd' = fd ∧ st'.remaining_bytes = st.remaining_bytes - 1) ∧
    (st.remaining_bytes = 0 → ∃ r, fd = r :: fd' ∧ st'.remaining_bytes = 507) := by
  unfold get_next_sector_byte at h
  by_cases hz : st.remaining_bytes = 0
  · rw [if_pos hz] at h
    obtain ⟨⟨r1, s1, f1⟩, hg, h2⟩ := Outcome.bind_eq_ret h
    obtain ⟨r0, hfd⟩ := get_sector_tail st fd r1 s1 f1 hg
    simp only at h2
    refine ⟨fun hp => by omega, fun _ => ?_⟩
    by_cases c1 : r1 = GS_SEQ_FAIL
    · rw [if_pos c1] at h2
      obtain ⟨⟨s2, f2⟩, _, h3⟩ := Outcome.bind_eq_ret h2
      have := deliver_rtn _ _ _ _ _ _ _ h3
      cases this
    · rw [if_neg c1] at h2
      by_cases c2 : r1 = GS_CHKSUM_FAIL
      · rw [if_pos c2] at h2
        obtain ⟨⟨s2, f2⟩, _, h3⟩ := Outcome.bind_eq_ret h2
        have := deliver_rtn _ _ _ _ _ _ _ h3
        cases this
      · rw [if_neg c2] at h2
        by_cases c3 : r1 ≠ GS_OK
        · rw [if_pos c3] at h2
          simp only [Outcome.ret.injEq, Prod.mk.injEq] at h2
          exact absurd h2.1 c3
        · rw [if_neg c3] at h2
          have c4 : r1 = GS_OK := not_not.mp c3
          subst c4
          have hrem := get_sector_ok_remaining st fd s1 f1 hg
          refine ⟨r0, by rw [hfd, deliver_fd _ _ _ _ _ _ _ h2], ?_⟩
          rw [deliver_remaining _ _ _ _ _ _ _ h2, hrem]
  · rw [if_neg hz] at h
    refine ⟨fun _ => ⟨deliver_fd _ _ _ _ _ _ _ h, ?_⟩, fun h0 => absurd h0 hz⟩
    rw [deliver_remaining _ _ _ _ _ _ _ h]
    omega

/-- A byte read that returns `GS_RESYNC` has read one sector and then those read
inside `resync`. -/
theorem get_next_sector_byte_resync_reads (cfg : Config) (fuel : Nat) (st : State) (fd : Source)
    (b : Option Nat) (st' : State) (fd' : Source)
    (h : get_next_sector_byte cfg fuel st fd = .ret (GS_RESYNC, b, st', fd')) :
    ∃ r more, fd = r :: (more ++ fd') := by
  unfold get_next_sector_byte at h
  by_cases hz : st.remaining_bytes = 0
  · rw [if_pos hz] at h
    obtain ⟨⟨r1, s1, f1⟩, hg, h2⟩ := Outcome.bind_eq_ret h
    obtain ⟨r0, hfd⟩ := get_sector_tail st fd r1 s1 f1 hg
    simp only at h2
    by_cases c1 : r1 = GS_SEQ_FAIL
    · rw [if_pos c1] at h2
      obtain ⟨⟨s2, f2⟩, hr, h3⟩ := Outcome.bind_eq_ret h2
      obtain ⟨more, hm⟩ := resync_suffix cfg fuel _ _ _ _ _ hr
      rw [deliver_fd _ _ _ _ _ _ _ h3]
      exact ⟨r0, more, by rw [hfd, hm]⟩
    · rw [if_neg c1] at h2
      by_cases c2 : r1 = GS_CHKSUM_FAIL
      · rw [if_pos c2] at h2
        obtain ⟨⟨s2, f2⟩, hr, h3⟩ := Outcome.bind_eq_ret h2
        obtain ⟨more, hm⟩ := resync_suffix cfg fuel _ _ _ _ _ hr
        rw [deliver_fd _ _ _ _ _ _ _ h3]
        exact ⟨r0, more, by rw [hfd, hm]⟩
      · rw [if_neg c2] at h2
        rcases get_sector_rtn st fd r1 s1 f1 hg with e | e | e
        · subst e
          rw [if_neg (by simp)] at h2
          have := deliver_rtn _ _ _ _ _ _ _ h2
          cases this
        · exact absurd e c2
        · exact absurd e c1
  · rw [if_neg hz] at h
    have := deliver_rtn _ _ _ _ _ _ _ h
    cases this

theorem sectors_needed_succ_pos (n r : Nat) (h : 0 < r) :
    sectors_needed (n + 1) r = sectors_needed n (r - 1) := by
  unfold sectors_needed
  by_cases h1 : n + 1 ≤ r
  · rw [if_pos h1, if_pos (by omega)]
  · rw [if_neg h1, if_neg (by omega)]
    congr 1
    omega

theorem sectors_needed_succ_zero (n : Nat) :
    sectors_needed (n + 1) 0 = 1 + sectors_needed n 507 := by
  unfold sectors_needed
  rw [if_neg (by omega)]
  by_cases h1 : n ≤ 507
  · rw [if_pos h1]
    omega
  · rw [if_neg h1]
    omega

/-- Byte reads without a fault load exactly `sectors_needed` sectors. -/
theorem read_ok_reads (cfg : Config) (fuel : Nat) :
    ∀ (n : Nat) (st : State) (fd : Source) (bs : List Nat) (st' : State) (fd' : Source),
      read_ok cfg fuel n st fd = some (bs, st', fd') → st.remaining_bytes < 65536 →
      ∃ read, fd = read ++ fd' ∧ read.length = sectors_needed n st.remaining_bytes := by
  intro n
  induction n with
  | zero =>
    intro st fd bs st' fd' h _
    simp only [read_ok, Option.some.injEq, Prod.mk.injEq] at h
    exact ⟨[], by rw [← h.2.2]; rfl, by simp [sectors_needed]⟩
  | succ n ih =>
    intro st fd bs st' fd' h hu
    have hl := read_ok_length cfg fuel _ _ _ _ _ _ h
    match bs, hl with
    | b :: bs, _ =>
      obtain ⟨st1, fd1, hg, hr⟩ := read_ok_succ cfg fuel n st fd b bs st' fd' h
      obtain ⟨hp, hz⟩ := get_next_sector_byte_ok_reads cfg fuel st fd _ st1 fd1 hg hu
      by_cases h0 : st.remaining_bytes = 0
      · obtain ⟨r, hfd, hrem⟩ := hz h0
        obtain ⟨read, h1, h2⟩ := ih st1 fd1 bs st' fd' hr (by omega)
        refine ⟨r :: read, by rw [hfd, h1]; rfl, ?_⟩
        rw [h0, sectors_needed_succ_zero, List.length_cons, h2, hrem]
        omega
      · obtain ⟨hfd, hrem⟩ := hp (by omega)
        obtain ⟨read, h1, h2⟩ := ih st1 fd1 bs st' fd' hr (by omega)
        refine ⟨read, by rw [← hfd]; exact h1, ?_⟩
        rw [sectors_needed_succ_pos n _ (by omega), h2, hrem]

theorem read_ok_append (cfg : Config) (fuel : Nat) :
    ∀ (a b : Nat) (st : State) (fd : Source) (b1 b2 : List Nat) (s1 s2 : State) (f1 f2 : Source),
      read_ok cfg fuel a st fd = some (b1, s1, f1) →
      read_ok cfg fuel b s1 f1 = some (b2, s2, f2) →
      read_ok cfg fuel (a + b) st fd = some (b1 ++ b2, s2, f2) := by
  intro a
  induction a with
  | zero =>
    intro b st fd b1 b2 s1 s2 f1 f2 h1 h2
    simp only [read_ok, Option.some.injEq, Prod.mk.injEq] at h1
    obtain ⟨rfl, rfl, rfl⟩ := h1
    simpa using h2
  | succ a ih =>
    intro b st fd b1 b2 s1 s2 f1 f2 h1 h2
    have hl := read_ok_length cfg fuel _ _ _ _ _ _ h1
    match b1, hl with
    | x :: b1, _ =>
      obtain ⟨st1, fd1, hg, hr⟩ := read_ok_succ cfg fuel a st fd x b1 s1 f1 h1
      have := ih b st1 fd1 b1 b2 s1 s2 f1 f2 hr h2
      have e : a + 1 + b = (a + b) + 1 := by omega
      rw [e]
      simp only [read_ok, hg, this, List.cons_append]

/-- The byte reads of the payload loop: all of them without a fault, or some
without a fault and then one that returns `GS_RESYNC`. -/
theorem dblk_payload_reads (cfg : Config) (fuel : Nat) :
    ∀ (n i : Nat) (st : State) (fd : Source) (bp : List Nat) (rtn : gs_rtn_t)
      (bp' : List Nat) (st' : State) (fd' : Source),
      dblk_payload cfg fuel n i st fd bp = .ret (rtn, bp', st', fd') →
      (rtn = GS_OK ∧ ∃ bs, read_ok cfg fuel n st fd = some (bs, st', fd')) ∨
      (rtn = GS_RESYNC ∧ ∃ m bs st1 fd1 b, read_ok cfg fuel m st fd = some (bs, st1, fd1) ∧
        get_next_sector_byte cfg fuel st1 fd1 = .ret (GS_RESYNC, b, st', fd')) := by
  intro n
  induction n with
  | zero =>
    intro i st fd bp rtn bp' st' fd' h
    simp only [dblk_payload, Outcome.ret.injEq, Prod.mk.injEq] at h
    obtain ⟨rfl, _, rfl, rfl⟩ := h
    exact Or.inl ⟨rfl, [], rfl⟩
  | succ n ih =>
    intro i st fd bp rtn bp' st' fd' h
    simp only [dblk_payload] at h
    obtain ⟨⟨r1, b1, s1, f1⟩, hg, h2⟩ := Outcome.bind_eq_ret h
    simp only at h2
    obtain ⟨bp1, _, h3⟩ := Outcome.bind_eq_ret h2
    by_cases hne : r1 ≠ GS_OK
    · rw [if_pos hne] at h3
      simp only [Outcome.ret.injEq, Prod.mk.injEq] at h3
      obtain ⟨rfl, _, rfl, rfl⟩ := h3
      rcases get_next_sector_byte_rtn cfg fuel st fd _ _ _ _ hg with e | e
      · exact absurd e hne
      · subst e
        exact Or.inr ⟨rfl, 0, [], st, fd, b1, rfl, hg⟩
    · rw [if_neg hne] at h3
      have hok : r1 = GS_OK := not_not.mp hne
      subst hok
      obtain ⟨v, hv⟩ := get_next_sector_byte_ok_some cfg fuel st fd b1 s1 f1 hg
      subst hv
      rcases ih _ _ _ _ _ _ _ _ h3 with ⟨e, bs, hr⟩ | ⟨e, m, bs, st1, fd1, b, hr, hf⟩
      · exact Or.inl ⟨e, v :: bs, by simp only [read_ok, hg, hr]⟩
      · exact Or.inr ⟨e, m + 1, v :: bs, st1, fd1, b, by simp only [read_ok, hg, hr], hf⟩

theorem get_next_dblk_rtn_len (cfg : Config) (fuel : Nat) (st : State) (fd : Source)
    (bp : List Nat) (rtn : gs_rtn_t) (l : Nat) (bp' : List Nat) (st' : State) (fd' : Source)
    (h : get_next_dblk cfg fuel st fd bp = .ret (rtn, l, bp', st', fd')) (hl : l ≠ 0) :
    rtn = GS_OK ∨ rtn = GS_BAD_DBLK := by
  rcases get_next_dblk_inv cfg fuel st fd bp rtn l bp' st' fd' h with
    ⟨_, e, _, _⟩ | ⟨h0, h1, h2, s3, f3, _, _, hb⟩
  · exact absurd e hl
  rcases dblk_body_inv cfg fuel s3 f3 bp h0 h1 h2 rtn l bp' st' fd' hb with
    ⟨_, _, e, _⟩ | ⟨_, e, r, _, _, hcase⟩
  · exact absurd e hl
  rcases hcase with ⟨_, _, e0⟩ | ⟨_, _, hrtn⟩
  · exact absurd e0 hl
  · exact hrtn

/-- The byte reads of a call of `get_next_dblk` that returns: as many as the
declared length when a record is emitted, three when the header is bad, and
otherwise some without a fault and then one that returns `GS_RESYNC`. -/
theorem get_next_dblk_reads (cfg : Config) (fuel : Nat) (st : State) (fd : Source)
    (bp : List Nat) (rtn : gs_rtn_t) (l : Nat) (bp' : List Nat) (st' : State) (fd' : Source)
    (h : get_next_dblk cfg fuel st fd bp = .ret (rtn, l, bp', st', fd')) :
    (l ≠ 0 ∧ ∃ bs, read_ok cfg fuel (l - 1 - cfg.SPACKET_SIZE) st fd = some (bs, st', fd')) ∨
    (l = 0 ∧ rtn = GS_BAD_DBLK ∧ ∃ bs, read_ok cfg fuel 3 st fd = some (bs, st', fd')) ∨
    (l = 0 ∧ rtn = GS_RESYNC ∧ ∃ m bs st1 fd1 b, read_ok cfg fuel m st fd = some (bs, st1, fd1) ∧
      get_next_sector_byte cfg fuel st1 fd1 = .ret (GS_RESYNC, b, st', fd')) := by
  have fault : ∀ (r : gs_rtn_t) (b : Option Nat) (m : Nat) (bs : List Nat) (s1 : State)
      (f1 : Source) (s2 : State) (f2 : Source),
      read_ok cfg fuel m st fd = some (bs, s1, f1) →
      get_next_sector_byte cfg fuel s1 f1 = .ret (r, b, s2, f2) → r ≠ GS_OK →
      r = GS_RESYNC ∧ ∃ m bs st1 fd1 b, read_ok cfg fuel m st fd = some (bs, st1, fd1) ∧
        get_next_sector_byte cfg fuel st1 fd1 = .ret (GS_RESYNC, b, s2, f2) := by
    intro r b m bs s1 f1 s2 f2 hr hg hne
    rcases get_next_sector_byte_rtn cfg fuel s1 f1 _ _ _ _ hg with e | e
    · exact absurd e hne
    · subst e
      exact ⟨rfl, m, bs, s1, f1, b, hr, hg⟩
  unfold get_next_dblk at h
  obtain ⟨⟨r1, b1, s1, f1⟩, hg1, h2⟩ := Outcome.bind_eq_ret h
  simp only at h2
  by_cases c1 : r1 ≠ GS_OK
  · rw [if_pos c1] at h2
    simp only [Outcome.ret.injEq, Prod.mk.injEq] at h2
    obtain ⟨rfl, rfl, _, rfl, rfl⟩ := h2
    obtain ⟨e, hx⟩ := fault _ _ 0 [] st fd _ _ rfl hg1 c1
    exact Or.inr (Or.inr ⟨rfl, e, hx⟩)
  rw [if_neg c1] at h2
  have e1 : r1 = GS_OK := not_not.mp c1
  subst e1
  obtain ⟨v1, hv1⟩ := get_next_sector_byte_ok_some cfg fuel st fd b1 s1 f1 hg1
  subst hv1
  have hr1 : read_ok cfg fuel 1 st fd = some ([v1], s1, f1) := by simp only [read_ok, hg1]
  obtain ⟨x0, hx0, h3⟩ := Outcome.bind_eq_ret h2
  obtain ⟨⟨r2, b2, s2, f2⟩, hg2, h4⟩ := Outcome.bind_eq_ret h3
  simp only at h4
  by_cases c2 : r2 ≠ GS_OK
  · rw [if_pos c2] at h4
    simp only [Outcome.ret.injEq, Prod.mk.injEq] at h4
    obtain ⟨rfl, rfl, _, rfl, rfl⟩ := h4
    obtain ⟨e, hx⟩ := fault _ _ 1 _ s1 f1 _ _ hr1 hg2 c2
    exact Or.inr (Or.inr ⟨rfl, e, hx⟩)
  rw [if_neg c2] at h4
  have e2 : r2 = GS_OK := not_not.mp c2
  subst e2
  obtain ⟨v2, hv2⟩ := get_next_sector_byte_ok_some cfg fuel s1 f1 b2 s2 f2 hg2
  subst hv2
  have hr2 : read_ok cfg fuel 2 st fd = some ([v1, v2], s2, f2) := by
    simp only [read_ok, hg1, hg2]
  obtain ⟨x1, hx1, h5⟩ := Outcome.bind_eq_ret h4
  obtain ⟨⟨r3, b3, s3, f3⟩, hg3, h6⟩ := Outcome.bind_eq_ret h5
  simp only at h6
  by_cases c3 : r3 ≠ GS_OK
  · rw [if_pos c3] at h6
    simp only [Outcome.ret.injEq, Prod.mk.injEq] at h6
    obtain ⟨rfl, rfl, _, rfl, rfl⟩ := h6
    obtain ⟨e, hx⟩ := fault _ _ 2 _ s2 f2 _ _ hr2 hg3 c3
    exact Or.inr (Or.inr ⟨rfl, e, hx⟩)
  rw [if_neg c3] at h6
  have e3 : r3 = GS_OK := not_not.mp c3
  subst e3
  obtain ⟨v3, hv3⟩ := get_next_sector_byte_ok_some cfg fuel s2 f2 b3 s3 f3 hg3
  subst hv3
  have hr3 : read_ok cfg fuel 3 st fd = some ([v1, v2, v3], s3, f3) := by
    simp only [read_ok, hg1, hg2, hg3]
  obtain ⟨x2, hx2, hb⟩ := Outcome.bind_eq_ret h6
  rcases dblk_body_inv cfg fuel s3 f3 bp x0 x1 x2 rtn l bp' st' fd' hb with
    ⟨_, e, el, _, es, ef⟩ | ⟨hok, e, r, _, hp, hcase⟩
  · subst es ef
    exact Or.inr (Or.inl ⟨el, e, _, hr3⟩)
  · rcases dblk_payload_reads cfg fuel _ _ _ _ _ _ _ _ _ hp with
      ⟨er, bs, hrd⟩ | ⟨er, m, bs, st1, fd1, b, hrd, hf⟩
    · rcases hcase with ⟨hne, _, _⟩ | ⟨_, hl, _⟩
      · exact absurd er hne
      · left
        have hL : 3 ≤ (x0 * 256 + x1) % 65536 := by omega
        refine ⟨by omega, [v1, v2, v3] ++ bs, ?_⟩
        have := read_ok_append cfg fuel 3 ((x0 * 256 + x1) % 65536 - 3) st fd _ _ _ _ _ _ hr3 hrd
        rw [show l - 1 - cfg.SPACKET_SIZE = 3 + ((x0 * 256 + x1) % 65536 - 3) by omega]
        exact this
    · rcases hcase with ⟨_, hrt, hl⟩ | ⟨hokr, _, _⟩
      · right; right
        refine ⟨hl, by rw [hrt, er], 3 + m, [v1, v2, v3] ++ bs, st1, fd1, b, ?_, hf⟩
        exact read_ok_append cfg fuel 3 m st fd _ _ _ _ _ _ hr3 hrd
      · rw [hokr] at er; cases er

/-- C27 (amended): a call of `get_sector` that returns has read exactly one
sector.  A call of `get_next_sector_byte` that returns has read no sector when
unread bytes remained; with none remaining it has read exactly one sector when
it returns `GS_OK`, and one sector followed by those read inside `resync` when
it returns `GS_RESYNC`.  A call of `get_next_dblk` that returns has read the
sectors its byte reads needed (`remaining_bytes` is a `uint16_t`, r below): when
it emits a record (`*len` set; the declared length is L = `*len` - 1 -
SPACKET_SIZE) it has made L byte reads without a fault and read exactly
`sectors_needed L r` sectors, none when L <= r and otherwise one for every 508
bytes or part of them beyond r, which is more than one when L > r + 508; when
the header is bad, the sectors of its three byte reads; and when it returns
`GS_RESYNC`, the sectors of the n byte reads made without a fault and then those
of the byte read that met the fault, one sector and those read inside
`resync`. -/
theorem sector_reads_of_calls (cfg : Config) (fuel : Nat) (st : State) (fd : Source)
    (bp : List Nat) :
    (∀ rtn st' fd', get_sector st fd = .ret (rtn, st', fd') → ∃ r, fd = r :: fd') ∧
    (∀ rtn b st' fd', get_next_sector_byte cfg fuel st fd = .ret (rtn, b, st', fd') →
      (0 < st.remaining_bytes → fd' = fd) ∧
      (st.remaining_bytes = 0 → rtn = GS_OK → ∃ r, fd = r :: fd') ∧
      (rtn = GS_RESYNC → ∃ r more, fd = r :: (more ++ fd'))) ∧
    (∀ rtn l bp' st' fd', get_next_dblk cfg fuel st fd bp = .ret (rtn, l, bp', st', fd') →
      st.remaining_bytes < 65536 →
      (l ≠ 0 → ∃ read, fd = read ++ fd' ∧
        read.length = sectors_needed (l - 1 - cfg.SPACKET_SIZE) st.remaining_bytes) ∧
      (l = 0 → rtn = GS_BAD_DBLK → ∃ read, fd = read ++ fd' ∧
        read.length = sectors_needed 3 st.remaining_bytes) ∧
      (rtn = GS_RESYNC → ∃ n bs st1 fd1 b first r more,
        read_ok cfg fuel n st fd = some (bs, st1, fd1) ∧
        get_next_sector_byte cfg fuel st1 fd1 = .ret (GS_RESYNC, b, st', fd') ∧
        fd = first ++ r :: (more ++ fd') ∧
        first.length = sectors_needed n st.remaining_bytes)) := by
  refine ⟨fun rtn st' fd' h => get_sector_tail st fd rtn st' fd' h, ?_, ?_⟩
  · intro rtn b st' fd' h
    refine ⟨?_, ?_, ?_⟩
    · intro hp
      unfold get_next_sector_byte at h
      rw [if_neg (by omega)] at h
      exact deliver_fd _ _ _ _ _ _ _ h
    · intro hz hok
      subst hok
      unfold get_next_sector_byte at h
      rw [if_pos hz] at h
      obtain ⟨⟨r1, s1, f1⟩, hg, h2⟩ := Outcome.bind_eq_ret h
      obtain ⟨r0, hfd⟩ := get_sector_tail st fd r1 s1 f1 hg
      simp only at h2
      by_cases c1 : r1 = GS_SEQ_FAIL
      · rw [if_pos c1] at h2
        obtain ⟨⟨s2, f2⟩, _, h3⟩ := Outcome.bind_eq_ret h2
        have := deliver_rtn _ _ _ _ _ _ _ h3
        cases this
      · rw [if_neg c1] at h2
        by_cases c2 : r1 = GS_CHKSUM_FAIL
        · rw [if_pos c2] at h2
          obtain ⟨⟨s2, f2⟩, _, h3⟩ := Outcome.bind_eq_ret h2
          have := deliver_rtn _ _ _ _ _ _ _ h3
          cases this
        · rw [if_neg c2] at h2
          by_cases c3 : r1 ≠ GS_OK
          · rw [if_pos c3] at h2
            simp only [Outcome.ret.injEq, Prod.mk.injEq] at h2
            exact ⟨r0, by rw [hfd, h2.2.2.2]⟩
          · rw [if_neg c3] at h2
            exact ⟨r0, by rw [hfd, deliver_fd _ _ _ _ _ _ _ h2]⟩
    · intro hrs
      subst hrs
      exact get_next_sector_byte_resync_reads cfg fuel st fd b st' fd' h
  · intro rtn l bp' st' fd' h hu
    rcases get_next_dblk_reads cfg fuel st fd bp rtn l bp' st' fd' h with
      ⟨hl, bs, hr⟩ | ⟨hl, hrt, bs, hr⟩ | ⟨hl, hrt, n, bs, st1, fd1, b, hr, hg⟩
    · refine ⟨fun _ => read_ok_reads cfg fuel _ st fd bs st' fd' hr hu,
        fun h0 => absurd h0 hl, ?_⟩
      intro hrs
      rcases get_next_dblk_rtn_len cfg fuel st fd bp rtn l bp' st' fd' h hl with e | e
      · rw [e] at hrs; cases hrs
      · rw [e] at hrs; cases hrs
    · refine ⟨fun h0 => absurd hl h0,
        fun _ _ => read_ok_reads cfg fuel _ st fd bs st' fd' hr hu, ?_⟩
      intro hrs
      rw [hrt] at hrs; cases hrs
    · refine ⟨fun h0 => absurd hl h0, fun _ e => ?_, fun _ => ?_⟩
      · rw [hrt] at e; cases e
      · obtain ⟨first, h1, h2⟩ := read_ok_reads cfg fuel _ st fd bs st1 fd1 hr hu
        obtain ⟨r, more, h3⟩ := get_next_sector_byte_resync_reads cfg fuel st1 fd1 b st' fd' hg
        exact ⟨n, bs, st1, fd1, b, first, r, more, hr, hg, by rw [h1, h3], h2⟩

set_option maxRecDepth 1000000 in
theorem sector_reads_of_calls_witness :
    State.init.remaining_bytes < 65536 ∧
    get_next_dblk sample_cfg 0 State.init
        [.bytes (mk_sector sample_sensor 0), .bytes sample_blank] (List.replicate 22 0)
      = .ret (GS_OK, 22, [0, 255, 255, 0, 0, 22, 0, 33] ++ sample_sensor,
              State.at_offset (mk_sector sample_sensor 0) 0 14, [.bytes sample_blank]) ∧
    ∃ read, [ReadResult.bytes (mk_sector sample_sensor 0), .bytes sample_blank]
        = read ++ [.bytes sample_blank] ∧ read.length = 1 :=
  ⟨by decide, by decide,
   ((sector_reads_of_calls sample_cfg 0 State.init
      [.bytes (mk_sector sample_sensor 0), .bytes sample_blank] (List.replicate 22 0)).2.2
      GS_OK 22 ([0, 255, 255, 0, 0, 22, 0, 33] ++ sample_sensor)
      (State.at_offset (mk_sector sample_sensor 0) 0 14) [.bytes sample_blank]
      (by decide) (by decide)).1 (by decide)⟩

/-- On every finite file (any finite list of read results, so also a
finite list of 512-byte sectors followed by end of input) and in every state,
whenever the SYNC record has at least one byte (`DT_SYNC_SIZE >= 1`), `resync`,
`get_next_sector_byte` and `get_next_dblk` end within `fuel_bound fd` iterations
of the loop of `resync`: given that much fuel the call returns, calls `exit`, or
leaves the defined behaviour of C at an access outside an array, and never runs
out of fuel. -/
theorem calls_terminate (cfg : Config) (fuel : Nat) (st : State) (fd : Source) (mode : Nat)
    (bp : List Nat) (hS : 1 ≤ cfg.DT_SYNC_SIZE) (hf : fuel_bound fd ≤ fuel) :
    resync cfg fuel st fd mode ≠ .nofuel ∧
    get_next_sector_byte cfg fuel st fd ≠ .nofuel ∧
    get_next_dblk cfg fuel st fd bp ≠ .nofuel := by
  refine ⟨resync_terminates cfg hS fuel st fd mode ?_,
    get_next_sector_byte_terminates cfg hS fuel st fd hf,
    get_next_dblk_terminates cfg hS fuel st fd bp hf⟩
  unfold fuel_bound at hf
  omega

theorem calls_terminate_witness :
    resync sample_cfg 196620 State.init [.bytes sample_corrupt, .bytes sample_synced]
        RESYNC_IGNORE_CUR ≠ .nofuel ∧
    get_next_sector_byte sample_cfg 196620 State.init
        [.bytes sample_corrupt, .bytes sample_synced] ≠ .nofuel ∧
    get_next_dblk sample_cfg 196620 State.init
        [.bytes sample_corrupt, .bytes sample_synced] [] ≠ .nofuel :=
  calls_terminate sample_cfg 196620 State.init [.bytes sample_corrupt, .bytes sample_synced]
    RESYNC_IGNORE_CUR [] (by decide) (by decide)

/-! ## Theorems on faults met inside resync -/

/-- The count of bad blocks plus the checksum-failing sectors read from then on
stays within 4 in every run of the loop of `resync` that returns. -/
theorem resync_loop_faults (cfg : Config) :
    ∀ (fuel : Nat) (st : State) (fd : Source) (mode : Nat) (msg : tmsg_t) (bb : Nat)
      (st' : State) (fd' : Source),
      resync_loop cfg fuel st fd mode msg bb = .ret (st', fd') → bb ≤ 4 →
      ∃ read, fd = read ++ fd' ∧ bb + checksum_faults read ≤ 4 := by
  intro fuel
  induction fuel with
  | zero =>
    intro st fd mode msg bb st' fd' h
    simp [resync_loop] at h
  | succ fuel ih =>
    intro st fd mode msg bb st' fd' h hbb
    rcases resync_loop_step cfg fuel st fd mode msg bb with
      h1 | h1 | h1 | ⟨st2, msg2, h1, _⟩ | ⟨r, fd2, st2, mode2, msg2, bb2, hfd, h1, hb2, hle⟩
    · rw [h1] at h; cases h
    · rw [h1] at h; cases h
    · rw [h1] at h
      simp only [Outcome.ret.injEq, Prod.mk.injEq] at h
      exact ⟨[], by rw [← h.2]; rfl, by simp [checksum_faults]; exact hbb⟩
    · rw [h1] at h
      exact ih _ _ _ _ _ _ _ h hbb
    · rw [h1] at h
      obtain ⟨read, hr, hc⟩ := ih _ _ _ _ _ _ _ h (hle hbb)
      refine ⟨r :: read, by rw [hfd, hr]; rfl, ?_⟩
      have : checksum_faults (r :: read) = checksum_faults [r] + checksum_faults read := by
        simp only [checksum_faults, List.countP_cons, List.countP_nil]
        omega
      omega

/-- C25 (counterexample): inside one `resync` four sectors fail the checksum,
the fifth sector is checksum-valid, in sequence (`get_sector` returns `GS_OK`)
and holds no SYNC record, and the sixth fails the checksum again.  No five
faulting sectors are in a row, yet `resync` ends the process with `exit(1)` at
the sixth sector and does not reach the seventh, which starts with a SYNC
record. -/
theorem resync_aborts_on_separated_faults :
    get_sector State.init [.bytes (mk_sector [] 0)]
      = .ret (GS_OK, State.at_offset (mk_sector [] 0) 0 0, []) ∧
    valid_sync_at sample_cfg sample_synced 0 ∧
    resync sample_cfg 1000 State.init
        [.bytes sample_corrupt, .bytes sample_corrupt, .bytes sample_corrupt,
         .bytes sample_corrupt, .bytes (mk_sector [] 0), .bytes sample_corrupt,
         .bytes sample_synced] RESYNC_IGNORE_CUR
      = .exit 1 := by
  set_option maxRecDepth 1000000 in
  refine ⟨by decide, by decide, by decide⟩

/-- C25 (amended): the count of bad blocks of `resync` is the number of
checksum-failing sectors read since the call began, in a row or not.  A
checksum-failing sector adds one to it, aborting above 4; a checksum-valid
sector (`GS_OK` or `GS_SEQ_FAIL`) leaves it as it is; nothing resets it.  So a
call of `resync` that returns has read at most 4 checksum-failing sectors in
all, and with the count at 4 the next checksum-failing sector ends the
process. -/
theorem resync_counts_all_faults (cfg : Config) (fuel : Nat) (st : State) (fd : Source)
    (mode : Nat) (msg : tmsg_t) (bb : Nat) (b s : List Nat)
    (hb : is_sector b) (hbc : ¬ chksum_valid b) (hs : is_sector s) (hsc : chksum_valid s) :
    resync_loop cfg (fuel + 1) st (.bytes b :: fd) RESYNC_IGNORE_CUR msg bb
      = (if bb + 1 > 4 then .exit 1
         else resync_loop cfg fuel { st with sector_data := b } fd RESYNC_IGNORE_CUR
           { data := 0, len := cfg.DT_SYNC_SIZE } (bb + 1)) ∧
    (∃ st2, resync_loop cfg (fuel + 1) st (.bytes s :: fd) RESYNC_IGNORE_CUR msg bb
      = resync_loop cfg fuel st2 fd RESYNC_USE_CUR { data := 0, len := cfg.DT_SYNC_SIZE } bb) ∧
    resync_loop cfg (fuel + 1) st (.bytes b :: fd) RESYNC_IGNORE_CUR msg 4 = .exit 1 ∧
    (∀ st' fd', resync cfg fuel st fd mode = .ret (st', fd') →
      ∃ read, fd = read ++ fd' ∧ checksum_faults read ≤ 4) := by
  have hic : RESYNC_IGNORE_CUR ≠ RESYNC_USE_CUR := by decide
  refine ⟨resync_loop_bad_sector cfg fuel st b fd msg bb hb hbc, ?_, ?_, ?_⟩
  · by_cases hq : (st.cur_seq + 1) % 65536 = stored_seq s
    · refine ⟨⟨s, 0, 508, (st.cur_seq + 1) % 65536⟩, ?_⟩
      simp only [resync_loop, hic, if_false, get_sector_full st fd s hs,
        if_neg (not_not.mpr hsc), hq, ne_eq, not_true_eq_false,
        Outcome.bind_ret, if_true]
    · refine ⟨⟨s, st.cur_sector_ptr, st.remaining_bytes, stored_seq s⟩, ?_⟩
      simp only [resync_loop, hic, if_false, get_sector_full st fd s hs,
        if_neg (not_not.mpr hsc), hq, ne_eq, not_false_eq_true, if_true,
        Outcome.bind_ret, reduceCtorEq, sector_seq_eq hs]
  · rw [resync_loop_bad_sector cfg fuel st b fd msg 4 hb hbc]
    rfl
  · intro st' fd' h
    obtain ⟨read, hr, hc⟩ := resync_loop_faults cfg fuel _ fd mode _ 0 st' fd' h (by omega)
    exact ⟨read, hr, by omega⟩


set_option maxRecDepth 1000000 in
theorem resync_counts_all_faults_witness :
    resync_loop sample_cfg (0 + 1) State.init (.bytes sample_corrupt :: [.bytes sample_synced])
        RESYNC_IGNORE_CUR { data := 0, len := 11 } 4 = .exit 1 ∧
    ∃ read, [ReadResult.bytes sample_corrupt, .bytes sample_synced, .bytes sample_blank]
        = read ++ [.bytes sample_blank] ∧ checksum_faults read ≤ 4 :=
  ⟨(resync_counts_all_faults sample_cfg 0 State.init [.bytes sample_synced] RESYNC_IGNORE_CUR
      { data := 0, len := 11 } 4 sample_corrupt sample_synced
      (by decide) (by decide) (by decide) (by decide)).2.2.1,
   (resync_counts_all_faults sample_cfg 3 State.init
      [.bytes sample_corrupt, .bytes sample_synced, .bytes sample_blank] RESYNC_IGNORE_CUR
      { data := 0, len := 11 } 0 sample_corrupt sample_synced
      (by decide) (by decide) (by decide) (by decide)).2.2.2
      { sector_data := sample_synced, cur_sector_ptr := 0, remaining_bytes := 508,
        cur_seq := 9 }
      [.bytes sample_blank] (by decide)⟩

/-- C26 (counterexample): `resync`, entered in ignore-current mode, reads a
sector that passes the checksum and fails the sequence check (`get_sector`
returns `GS_SEQ_FAIL`) and holds a SYNC record at offset 5.  `cur_seq` becomes
the sequence number stored in the sector, but `resync` does not end at offset 0
with 508 bytes remaining: it tests the positions of the sector and returns with
the cursor at offset 5 and 503 bytes remaining.  When the sector holds no SYNC
record `resync` does not return on it at all: it reads on, here to the end of
the file. -/
theorem resync_searches_after_seq_fail :
    get_sector { State.init with cur_sector_ptr := 0, remaining_bytes := 508 }
        [.bytes (mk_sector ([9, 9, 9, 9, 9] ++ sample_sync) 7)]
      = .ret (GS_SEQ_FAIL,
              { sector_data := mk_sector ([9, 9, 9, 9, 9] ++ sample_sync) 7,
                cur_sector_ptr := 0, remaining_bytes := 508, cur_seq := 0 }, []) ∧
    resync sample_cfg 10 State.init [.bytes (mk_sector ([9, 9, 9, 9, 9] ++ sample_sync) 7)]
        RESYNC_IGNORE_CUR
      = .ret ({ sector_data := mk_sector ([9, 9, 9, 9, 9] ++ sample_sync) 7,
                cur_sector_ptr := 5, remaining_bytes := 503, cur_seq := 7 }, []) ∧
    resync sample_cfg 1000 State.init [.bytes (mk_sector [] 7)] RESYNC_IGNORE_CUR = .exit 1 := by
  set_option maxRecDepth 1000000 in
  refine ⟨by decide, by decide, by decide⟩

/-- The loop of `resync` returns only from an iteration whose test succeeded:
in the buffer it returns, a valid SYNC record begins at some window position. -/
theorem resync_loop_ret_valid (cfg : Config) :
    ∀ (fuel : Nat) (st : State) (fd : Source) (mode : Nat) (k : Nat) (bb : Nat)
      (st' : State) (fd' : Source),
      resync_loop cfg fuel st fd mode { data := k, len := cfg.DT_SYNC_SIZE } bb
        = .ret (st', fd') →
      ∃ j, valid_sync_at cfg st'.sector_data j := by
  intro fuel
  induction fuel with
  | zero =>
    intro st fd mode k bb st' fd' h
    simp [resync_loop] at h
  | succ fuel ih =>
    intro st fd mode k bb st' fd' h
    have fetch : ∀ st1 : State,
        (get_sector st1 fd).bind (fun (x : gs_rtn_t × State × Source) =>
          if x.1 = GS_OK then
            resync_loop cfg fuel x.2.1 x.2.2 RESYNC_USE_CUR
              { data := 0, len := cfg.DT_SYNC_SIZE } bb
          else if x.1 = GS_SEQ_FAIL then
            resync_loop cfg fuel { x.2.1 with cur_seq := sector_seq x.2.1.sector_data } x.2.2
              RESYNC_USE_CUR { data := 0, len := cfg.DT_SYNC_SIZE } bb
          else if bb + 1 > 4 then .exit 1
          else resync_loop cfg fuel x.2.1 x.2.2 RESYNC_IGNORE_CUR
            { data := 0, len := cfg.DT_SYNC_SIZE } (bb + 1)) = .ret (st', fd') →
        ∃ j, valid_sync_at cfg st'.sector_data j := by
      intro st1 hf
      obtain ⟨⟨r1, s1, f1⟩, _, h2⟩ := Outcome.bind_eq_ret hf
      simp only at h2
      by_cases c1 : r1 = GS_OK
      · rw [if_pos c1] at h2
        exact ih _ _ _ _ _ _ _ h2
      · rw [if_neg c1] at h2
        by_cases c2 : r1 = GS_SEQ_FAIL
        · rw [if_pos c2] at h2
          exact ih _ _ _ _ _ _ _ h2
        · rw [if_neg c2] at h2
          by_cases c3 : bb + 1 > 4
          · rw [if_pos c3] at h2; cases h2
          · rw [if_neg c3] at h2
            exact ih _ _ _ _ _ _ _ h2
    simp only [resync_loop] at h
    by_cases hm : mode = RESYNC_USE_CUR
    · rw [if_pos hm] at h
      cases hsm : sync_match cfg st.sector_data { data := k, len := cfg.DT_SYNC_SIZE } with
      | none => rw [hsm] at h; cases h
      | some b =>
        rw [hsm] at h
        cases b with
        | true =>
          simp only [Outcome.ret.injEq, Prod.mk.injEq] at h
          rw [← h.1]
          exact ⟨k, (sync_match_true_iff cfg _ k).mp hsm⟩
        | false =>
          simp only at h
          split at h
          · exact ih _ _ _ _ _ _ _ h
          · exact fetch _ h
    · rw [if_neg hm] at h
      exact fetch st h

/-- Reading a checksum-valid sector that fails the sequence check, in an
iteration of the loop of `resync` that reads: the counter becomes the number
the sector carries and the loop goes on with the window at offset 0. -/
theorem resync_loop_seq_fail (cfg : Config) (fuel : Nat) (st : State) (s : List Nat)
    (fd : Source) (msg : tmsg_t) (bb : Nat)
    (hs : is_sector s) (hc : chksum_valid s) (hq : (st.cur_seq + 1) % 65536 ≠ stored_seq s) :
    resync_loop cfg (fuel + 1) st (.bytes s :: fd) RESYNC_IGNORE_CUR msg bb
      = resync_loop cfg fuel
          { sector_data := s, cur_sector_ptr := st.cur_sector_ptr,
            remaining_bytes := st.remaining_bytes, cur_seq := stored_seq s }
          fd RESYNC_USE_CUR { data := 0, len := cfg.DT_SYNC_SIZE } bb := by
  have hic : RESYNC_IGNORE_CUR ≠ RESYNC_USE_CUR := by decide
  simp only [resync_loop, hic, if_false, get_sector_full _ fd s hs, if_neg (not_not.mpr hc),
    hq, ne_eq, not_false_eq_true, if_true, Outcome.bind_ret, reduceCtorEq,
    sector_seq_eq hs]

theorem resync_loop_seq_fail_use (cfg : Config) (fuel : Nat) (st : State) (s : List Nat)
    (fd : Source) (msg : tmsg_t) (bb : Nat)
    (hs : is_sector s) (hc : chksum_valid s) (hq : (st.cur_seq + 1) % 65536 ≠ stored_seq s)
    (hm : sync_match cfg st.sector_data msg = some false)
    (hx : (st.remaining_bytes + 65535) % 65536 < cfg.DT_SYNC_SIZE) :
    resync_loop cfg (fuel + 1) st (.bytes s :: fd) RESYNC_USE_CUR msg bb
      = resync_loop cfg fuel
          { sector_data := s, cur_sector_ptr := st.cur_sector_ptr + 1,
            remaining_bytes := (st.remaining_bytes + 65535) % 65536, cur_seq := stored_seq s }
          fd RESYNC_USE_CUR { data := 0, len := cfg.DT_SYNC_SIZE } bb := by
  have hx2 : ¬ (st.remaining_bytes + 65535) % 65536 ≥ cfg.DT_SYNC_SIZE := by omega
  simp only [resync_loop, if_true, hm, hx2, if_false, get_sector_full _ fd s hs,
    if_neg (not_not.mpr hc),
    hq, ne_eq, not_false_eq_true, Outcome.bind_ret, reduceCtorEq,
    sector_seq_eq hs]

/-- C26 (amended): when a sector freshly read inside `resync` passes the
checksum but fails the sequence check (`get_sector` returns `GS_SEQ_FAIL`), in
either mode and in every state, `cur_seq` is set to the sequence number stored
in that sector, the window is put back to offset 0 of that sector and the loop
goes on in use-current mode with the count of bad sectors unchanged: `resync`
does not end there.  The next iteration tests the window at offset 0 and
returns at once when a valid SYNC record begins there; the loop returns only
from an iteration whose test succeeded, so only with a buffer in which a valid
SYNC record begins at some position.  When the sector is the first one read by
a `resync` entered in ignore-current mode and a valid SYNC record begins at an
offset k with k + DT_SYNC_SIZE <= 508, `resync` returns (given fuel for k + 2
iterations) with the cursor at the lowest offset j at which a valid SYNC record
begins and `remaining_bytes = 508 - j`, the rest of the file unread. -/
theorem resync_seq_fail_searches_on (cfg : Config) (fuel : Nat) (st : State) (s : List Nat)
    (fd : Source) (msg : tmsg_t) (bb : Nat)
    (hs : is_sector s) (hc : chksum_valid s)
    (hq : (st.cur_seq + 1) % 65536 ≠ stored_seq s) :
    (∃ st1, get_sector st (.bytes s :: fd) = .ret (GS_SEQ_FAIL, st1, fd)) ∧
    (∃ st2, st2.sector_data = s ∧ st2.cur_seq = stored_seq s ∧
      resync_loop cfg (fuel + 1) st (.bytes s :: fd) RESYNC_IGNORE_CUR msg bb
        = resync_loop cfg fuel st2 fd RESYNC_USE_CUR
            { data := 0, len := cfg.DT_SYNC_SIZE } bb) ∧
    (sync_match cfg st.sector_data msg = some false →
      (st.remaining_bytes + 65535) % 65536 < cfg.DT_SYNC_SIZE →
      ∃ st2, st2.sector_data = s ∧ st2.cur_seq = stored_seq s ∧
        resync_loop cfg (fuel + 1) st (.bytes s :: fd) RESYNC_USE_CUR msg bb
          = resync_loop cfg fuel st2 fd RESYNC_USE_CUR
              { data := 0, len := cfg.DT_SYNC_SIZE } bb) ∧
    (∀ st2 : State, st2.sector_data = s → valid_sync_at cfg s 0 →
      resync_loop cfg (fuel + 1) st2 fd RESYNC_USE_CUR { data := 0, len := cfg.DT_SYNC_SIZE } bb
        = .ret (st2, fd)) ∧
    (∀ (f : Nat) (st2 st' : State) (fd' : Source),
      resync_loop cfg f st2 fd RESYNC_USE_CUR { data := 0, len := cfg.DT_SYNC_SIZE } bb
        = .ret (st', fd') →
      ∃ j, valid_sync_at cfg st'.sector_data j) ∧
    (stored_seq s ≠ 0 → ∀ k, k + cfg.DT_SYNC_SIZE ≤ 508 → valid_sync_at cfg s k →
      k + 1 < fuel →
      ∃ j, j ≤ k ∧ valid_sync_at cfg s j ∧ (∀ i, i < j → ¬ valid_sync_at cfg s i) ∧
        resync cfg fuel st (.bytes s :: fd) RESYNC_IGNORE_CUR
          = .ret ({ sector_data := s, cur_sector_ptr := j, remaining_bytes := 508 - j,
                    cur_seq := stored_seq s }, fd)) := by
  have hic : RESYNC_IGNORE_CUR ≠ RESYNC_USE_CUR := by decide
  refine ⟨?_, ?_, ?_, ?_, ?_, ?_⟩
  · refine ⟨⟨s, st.cur_sector_ptr, st.remaining_bytes, (st.cur_seq + 1) % 65536⟩, ?_⟩
    rw [get_sector_full _ fd s hs, if_neg (not_not.mpr hc), if_pos hq]
  · exact ⟨_, rfl, rfl, resync_loop_seq_fail cfg fuel st s fd msg bb hs hc hq⟩
  · intro hm hx
    exact ⟨_, rfl, rfl, resync_loop_seq_fail_use cfg fuel st s fd msg bb hs hc hq hm hx⟩
  · intro st2 hsd hv
    have := (sync_match_true_iff cfg st2.sector_data 0).mpr (by rw [hsd]; exact hv)
    simp only [resync_loop, if_true, this]
  · intro f st2 st' fd' h
    exact resync_loop_ret_valid cfg f st2 fd RESYNC_USE_CUR 0 bb st' fd' h
  · intro hq0 k hk hv hfuel
    obtain ⟨f, rfl⟩ : ∃ f, fuel = f + 1 := ⟨fuel - 1, by omega⟩
    obtain ⟨j, _, hj2, hj3, hj4, hj5⟩ := resync_loop_scan cfg s (stored_seq s) fd 0 k hk
      (by rw [hs.1]; omega) hv k 0 f (by omega) (by omega)
    refine ⟨j, hj2, hj3, fun i hi => hj4 i (Nat.zero_le _) hi, ?_⟩
    simp only [resync, hic, if_false, SECTOR_SIZE, OVERHEAD, Nat.reduceSub,
      resync_loop_good_sector cfg _ _ _ s _ _ _ hs hc]
    exact hj5

set_option maxRecDepth 1000000 in
theorem resync_seq_fail_searches_on_witness :
    (is_sector (mk_sector ([9, 9, 9] ++ sample_sync) 30) ∧
      chksum_valid (mk_sector ([9, 9, 9] ++ sample_sync) 30) ∧
      ({ State.init with cur_seq := 7 }.cur_seq + 1) % 65536
        ≠ stored_seq (mk_sector ([9, 9, 9] ++ sample_sync) 30)) ∧
    (∃ st1, get_sector { State.init with cur_seq := 7 }
        (.bytes (mk_sector ([9, 9, 9] ++ sample_sync) 30) :: [.bytes sample_blank])
        = .ret (GS_SEQ_FAIL, st1, [.bytes sample_blank])) ∧
    (∃ st2, st2.sector_data = mk_sector ([9, 9, 9] ++ sample_sync) 30 ∧
      st2.cur_seq = stored_seq (mk_sector ([9, 9, 9] ++ sample_sync) 30) ∧
      resync_loop sample_cfg (5 + 1) { State.init with cur_seq := 7 }
          (.bytes (mk_sector ([9, 9, 9] ++ sample_sync) 30) :: [.bytes sample_blank])
          RESYNC_IGNORE_CUR { data := 0, len := 11 } 2
        = resync_loop sample_cfg 5 st2 [.bytes sample_blank] RESYNC_USE_CUR
            { data := 0, len := sample_cfg.DT_SYNC_SIZE } 2) ∧
    ∃ j, j ≤ 3 ∧ valid_sync_at sample_cfg (mk_sector ([9, 9, 9] ++ sample_sync) 30) j ∧
      (∀ i, i < j → ¬ valid_sync_at sample_cfg (mk_sector ([9, 9, 9] ++ sample_sync) 30) i) ∧
      resync sample_cfg 5 { State.init with cur_seq := 7 }
          (.bytes (mk_sector ([9, 9, 9] ++ sample_sync) 30) :: [.bytes sample_blank])
          RESYNC_IGNORE_CUR
        = .ret ({ sector_data := mk_sector ([9, 9, 9] ++ sample_sync) 30, cur_sector_ptr := j,
                  remaining_bytes := 508 - j,
                  cur_seq := stored_seq (mk_sector ([9, 9, 9] ++ sample_sync) 30) },
                [.bytes sample_blank]) :=
  ⟨⟨by decide, by decide, by decide⟩,
   (resync_seq_fail_searches_on sample_cfg 5 { State.init with cur_seq := 7 }
      (mk_sector ([9, 9, 9] ++ sample_sync) 30) [.bytes sample_blank] { data := 0, len := 11 } 2
      (by decide) (by decide) (by decide)).1,
   (resync_seq_fail_searches_on sample_cfg 5 { State.init with cur_seq := 7 }
      (mk_sector ([9, 9, 9] ++ sample_sync) 30) [.bytes sample_blank] { data := 0, len := 11 } 2
      (by decide) (by decide) (by decide)).2.1,
   (resync_seq_fail_searches_on sample_cfg 5 { State.init with cur_seq := 7 }
      (mk_sector ([9, 9, 9] ++ sample_sync) 30) [.bytes sample_blank] { data := 0, len := 11 } 2
      (by decide) (by decide) (by decide)).2.2.2.2.2 (by decide) 3 (by decide) (by decide)
      (by decide)⟩

/-- An iteration of the loop of `resync` whose test fails while the count allows
another test moves the window, the cursor and the count by one. -/
theorem resync_loop_fail_step (cfg : Config) (fuel : Nat) (st : State) (fd : Source)
    (k bb : Nat)
    (hm : sync_match cfg st.sector_data { data := k, len := cfg.DT_SYNC_SIZE } = some false)
    (hr : cfg.DT_SYNC_SIZE ≤ (st.remaining_bytes + 65535) % 65536) :
    resync_loop cfg (fuel + 1) st fd RESYNC_USE_CUR { data := k, len := cfg.DT_SYNC_SIZE } bb
      = resync_loop cfg fuel
          { sector_data := st.sector_data, cur_sector_ptr := st.cur_sector_ptr + 1,
            remaining_bytes := (st.remaining_bytes + 65535) % 65536, cur_seq := st.cur_seq }
          fd RESYNC_USE_CUR { data := k + 1, len := cfg.DT_SYNC_SIZE } bb := by
  have hr2 : (st.remaining_bytes + 65535) % 65536 ≥ cfg.DT_SYNC_SIZE := hr
  simp only [resync_loop, if_true, hm, hr2]

/-- The window of `resync` slides over `n` positions at which no SYNC record is
found, when the count allows it. -/
theorem resync_loop_slide (cfg : Config) (sd : List Nat) (seq : Nat) (fd : Source) (bb : Nat) :
    ∀ (n fuel k ptr rem : Nat),
      (∀ i, i < n → sync_match cfg sd { data := k + i, len := cfg.DT_SYNC_SIZE } = some false) →
      cfg.DT_SYNC_SIZE + n ≤ rem → rem < 65536 →
      resync_loop cfg (fuel + n)
          { sector_data := sd, cur_sector_ptr := ptr, remaining_bytes := rem, cur_seq := seq }
          fd RESYNC_USE_CUR { data := k, len := cfg.DT_SYNC_SIZE } bb
        = resync_loop cfg fuel
            { sector_data := sd, cur_sector_ptr := ptr + n, remaining_bytes := rem - n,
              cur_seq := seq }
            fd RESYNC_USE_CUR { data := k + n, len := cfg.DT_SYNC_SIZE } bb := by
  intro n
  induction n with
  | zero => intro fuel k ptr rem _ _ _; rfl
  | succ n ih =>
    intro fuel k ptr rem hm hr hu
    have e : (rem + 65535) % 65536 = rem - 1 := by omega
    have h0 := hm 0 (by omega)
    rw [show fuel + (n + 1) = (fuel + n) + 1 by omega,
      resync_loop_fail_step cfg (fuel + n) _ fd k bb h0 (by simp only; omega)]
    simp only [e]
    rw [ih fuel (k + 1) (ptr + 1) (rem - 1)
      (fun i hi => by
        have := hm (i + 1) (by omega)
        rw [show k + 1 + i = k + (i + 1) by omega]
        exact this)
      (by omega) (by omega)]
    rw [show ptr + 1 + n = ptr + (n + 1) by omega, show rem - 1 - n = rem - (n + 1) by omega,
      show k + 1 + n = k + (n + 1) by omega]

/-- A run of sectors read inside `resync` that all fail the sequence check, the
buffer being used up at each of them but the last: each read moves the cursor
on by one and takes the count down by one; neither is set back. -/
theorem resync_loop_gapped (cfg : Config) (fd : Source) (bb : Nat) :
    ∀ (pre : List (List Nat)) (last : List Nat) (fuel : Nat) (st : State) (msg : tmsg_t),
      sync_match cfg st.sector_data msg = some false →
      pre.length + 1 ≤ st.remaining_bytes → st.remaining_bytes ≤ cfg.DT_SYNC_SIZE →
      st.remaining_bytes < 65536 →
      (∀ s ∈ pre, is_sector s ∧ chksum_valid s ∧
        sync_match cfg s { data := 0, len := cfg.DT_SYNC_SIZE } = some false) →
      is_sector last → chksum_valid last →
      List.Chain (fun a b => (a + 1) % 65536 ≠ b) st.cur_seq
        ((pre ++ [last]).map stored_seq) →
      resync_loop cfg (fuel + (pre.length + 1)) st ((pre ++ [last]).map .bytes ++ fd)
          RESYNC_USE_CUR msg bb
        = resync_loop cfg fuel
            { sector_data := last, cur_sector_ptr := st.cur_sector_ptr + (pre.length + 1),
              remaining_bytes := st.remaining_bytes - (pre.length + 1),
              cur_seq := stored_seq last }
            fd RESYNC_USE_CUR { data := 0, len := cfg.DT_SYNC_SIZE } bb := by
  intro pre
  induction pre with
  | nil =>
    intro last fuel st msg hm h1 h2 hu _ hl hc hch
    simp only [List.nil_append, List.map_cons, List.map_nil, List.chain_cons] at hch
    have e : (st.remaining_bytes + 65535) % 65536 = st.remaining_bytes - 1 := by
      simp only [List.length_nil] at h1; omega
    simp only [List.length_nil, Nat.zero_add, List.nil_append, List.map_cons, List.map_nil,
      List.singleton_append]
    rw [resync_loop_seq_fail_use cfg fuel st last fd msg bb hl hc hch.1 hm (by omega), e]
  | cons p pre ih =>
    intro last fuel st msg hm h1 h2 hu hp hl hc hch
    simp only [List.cons_append, List.map_cons, List.chain_cons] at hch
    simp only [List.length_cons] at h1
    obtain ⟨hps, hpc, hpm⟩ := hp p (List.mem_cons_self _ _)
    have e : (st.remaining_bytes + 65535) % 65536 = st.remaining_bytes - 1 := by omega
    rw [show fuel + ((p :: pre).length + 1) = (fuel + (pre.length + 1)) + 1 by
      simp only [List.length_cons]; omega]
    simp only [List.cons_append, List.map_cons]
    rw [resync_loop_seq_fail_use cfg _ st p _ msg bb hps hpc hch.1 hm (by omega), e,
      ih last fuel _ _ hpm (by simp only; omega) (by simp only; omega) (by simp only; omega)
        (fun s hs => hp s (List.mem_cons_of_mem _ hs)) hl hc hch.2]
    simp only [List.length_cons]
    rw [show st.cur_sector_ptr + 1 + (pre.length + 1) = st.cur_sector_ptr + (pre.length + 1 + 1)
        by omega,
      show st.remaining_bytes - 1 - (pre.length + 1) = st.remaining_bytes - (pre.length + 1 + 1)
        by omega]

set_option maxRecDepth 1000000 in
theorem sample_gapped_blank_first :
    ∀ i, i < 498 → sync_match sample_cfg (mk_sector [] 5)
      { data := 0 + i, len := sample_cfg.DT_SYNC_SIZE } = some false := by
  decide

set_option maxRecDepth 1000000 in
theorem sample_gapped_blank_last :
    (∀ i, i < 501 → sync_match sample_cfg (mk_sector [] 27)
      { data := 0 + 1 + i, len := sample_cfg.DT_SYNC_SIZE } = some false) ∧
    sync_match sample_cfg (mk_sector [] 27) { data := 0, len := sample_cfg.DT_SYNC_SIZE }
      = some false ∧
    sync_match sample_cfg (mk_sector [] 27)
      { data := 0 + 1 + 501, len := sample_cfg.DT_SYNC_SIZE } = none := by
  refine ⟨by decide, by decide, by decide⟩

set_option maxRecDepth 1000000 in
theorem sample_gapped_blank_sectors :
    (∀ s ∈ [mk_sector [] 7, mk_sector [] 9, mk_sector [] 11, mk_sector [] 13, mk_sector [] 15,
        mk_sector [] 17, mk_sector [] 19, mk_sector [] 21, mk_sector [] 23, mk_sector [] 25],
      is_sector s ∧ chksum_valid s ∧
      sync_match sample_cfg s { data := 0, len := sample_cfg.DT_SYNC_SIZE } = some false) ∧
    (is_sector (mk_sector [] 27) ∧ chksum_valid (mk_sector [] 27)) ∧
    ([mk_sector [] 7, mk_sector [] 9, mk_sector [] 11, mk_sector [] 13, mk_sector [] 15,
        mk_sector [] 17, mk_sector [] 19, mk_sector [] 21, mk_sector [] 23, mk_sector [] 25]
      ++ [mk_sector [] 27]).map stored_seq = [7, 9, 11, 13, 15, 17, 19, 21, 23, 25, 27] := by
  refine ⟨by decide, by decide, by decide⟩

set_option maxRecDepth 1000000 in
/-- On a file that holds every second sector only, none with a SYNC record, the
scan of `resync` entered in use-current mode leaves the sector buffer. -/
theorem resync_gapped_blank (fuel : Nat) :
    resync sample_cfg (fuel + 1011)
      { sector_data := mk_sector [] 5, cur_sector_ptr := 0, remaining_bytes := 0, cur_seq := 0 }
      ((sample_gapped_blank.drop 1).map .bytes) RESYNC_USE_CUR = .oob := by
  have e : (sample_gapped_blank.drop 1).map ReadResult.bytes
      = ([mk_sector [] 7, mk_sector [] 9, mk_sector [] 11, mk_sector [] 13,
          mk_sector [] 15, mk_sector [] 17, mk_sector [] 19, mk_sector [] 21, mk_sector [] 23,
          mk_sector [] 25] ++ [mk_sector [] 27]).map .bytes ++ [] := rfl
  obtain ⟨hsec, hlast, hseq2⟩ := sample_gapped_blank_sectors
  obtain ⟨l1, l2, l3⟩ := sample_gapped_blank_last
  have s1 := resync_loop_slide sample_cfg (mk_sector [] 5) 0
    ((sample_gapped_blank.drop 1).map .bytes) 0 497 (fuel + 1 + 501 + 1 + 11) 0 0 508
    (fun i hi => sample_gapped_blank_first i (by omega)) (by decide) (by decide)
  have s2 := resync_loop_gapped sample_cfg [] 0
    [mk_sector [] 7, mk_sector [] 9, mk_sector [] 11, mk_sector [] 13,
     mk_sector [] 15, mk_sector [] 17, mk_sector [] 19, mk_sector [] 21, mk_sector [] 23,
     mk_sector [] 25] (mk_sector [] 27) (fuel + 1 + 501 + 1)
    { sector_data := mk_sector [] 5, cur_sector_ptr := 0 + 497, remaining_bytes := 508 - 497,
      cur_seq := 0 } { data := 0 + 497, len := sample_cfg.DT_SYNC_SIZE }
    (sample_gapped_blank_first 497 (by omega)) (by decide) (by decide) (by decide)
    hsec hlast.1 hlast.2
    (by rw [hseq2]; simp only [List.chain_cons, List.Chain.nil, and_true]; decide)
  have s3 := resync_loop_fail_step sample_cfg (fuel + 1 + 501)
    { sector_data := mk_sector [] 27, cur_sector_ptr := 0 + 497 + (10 + 1),
      remaining_bytes := 508 - 497 - (10 + 1), cur_seq := stored_seq (mk_sector [] 27) } [] 0 0
    l2 (by decide)
  have s4 := resync_loop_slide sample_cfg (mk_sector [] 27) (stored_seq (mk_sector [] 27)) [] 0
    501 (fuel + 1) (0 + 1) (0 + 497 + (10 + 1) + 1) ((508 - 497 - (10 + 1) + 65535) % 65536)
    l1 (by decide) (by decide)
  have hf : fuel + 1011 = fuel + 1 + 501 + 1 + 11 + 497 := by omega
  unfold resync
  rw [hf]
  simp only [if_true, SECTOR_SIZE, OVERHEAD, Nat.reduceSub]
  rw [s1, e]
  erw [s2, s3, s4]
  simp only [resync_loop, if_true, l3]

/-- C28 (evaluation at the failing input): the file holds every second
sector only, twelve checksum-valid sectors numbered 5, 7, ..., 27 without a
SYNC record.  One call of `get_next_sector_byte` from the initial state meets
the sequence fault of the first sector and calls `resync` in use-current mode.
Every further sector fails the sequence check inside `resync`, where the count
of remaining bytes is not set back, so once the twelfth sector is read the
count wraps from 0 to 65535 and the window slides on through the buffer until
the test reads beyond the 512 bytes of `sector_data`.  The call neither returns
a status nor calls `exit`: `resync`, `get_next_sector_byte` and `get_next_dblk`
all end at that access outside the array. -/
theorem calls_leave_buffer :
    (∀ s ∈ sample_gapped_blank, is_sector s ∧ chksum_valid s) ∧
    resync sample_cfg 2000
        { sector_data := mk_sector [] 5, cur_sector_ptr := 0, remaining_bytes := 0, cur_seq := 0 }
        ((sample_gapped_blank.drop 1).map .bytes) RESYNC_USE_CUR = .oob ∧
    get_next_sector_byte sample_cfg 2000 State.init (sample_gapped_blank.map .bytes) = .oob ∧
    get_next_dblk sample_cfg 2000 State.init (sample_gapped_blank.map .bytes)
        (List.replicate 22 0) = .oob := by
  have h3 : get_next_sector_byte sample_cfg 2000 State.init (sample_gapped_blank.map .bytes)
      = .oob := by
    have e : sample_gapped_blank.map ReadResult.bytes
        = .bytes (mk_sector [] 5) :: (sample_gapped_blank.drop 1).map .bytes := rfl
    rw [e, (get_next_sector_byte_fault sample_cfg 2000 State.init _ (mk_sector [] 5)
      (by set_option maxRecDepth 1000000 in decide) rfl).2
      (by set_option maxRecDepth 1000000 in decide)
      (by set_option maxRecDepth 1000000 in decide)]
    exact congrArg (fun o => Outcome.bind o _) (resync_gapped_blank 989)
  refine ⟨by set_option maxRecDepth 1000000 in decide, resync_gapped_blank 989, h3, ?_⟩
  unfold get_next_dblk
  rw [h3]
  rfl

/-- C30 (evaluation at the failing input): the file holds every second
sector only (checksum-valid sectors numbered 5, 7, ..., 27), the first eleven
without a SYNC record, the twelfth starting with one.  One call of
`get_next_sector_byte` from the initial state meets the sequence fault of the
first sector, and inside `resync` every further sector fails the sequence check
too, so the cursor and the count are never set back: `resync` returns with the
cursor at offset 508 and no bytes remaining.  The call hands out the byte at
offset 508, the low byte 27 of the sequence number, as stream data and leaves
the cursor at 509 with `remaining_bytes = 65535`; the next three calls hand out
the bytes at offsets 509, 510 and 511, and the one after them reads outside the
sector buffer. -/
theorem cursor_leaves_data_region :
    (∀ s ∈ sample_gapped_sectors, is_sector s ∧ chksum_valid s) ∧
    get_next_sector_byte sample_cfg 1000 State.init sample_gapped
      = .ret (GS_RESYNC, some 27,
              { sector_data := mk_sector sample_sync 27, cur_sector_ptr := 509,
                remaining_bytes := 65535, cur_seq := 27 }, []) ∧
    (mk_sector sample_sync 27).getD 508 0 = 27 ∧
    stored_seq (mk_sector sample_sync 27) = 27 ∧
    read_ok sample_cfg 0 3
        { sector_data := mk_sector sample_sync 27, cur_sector_ptr := 509,
          remaining_bytes := 65535, cur_seq := 27 } []
      = some ([(mk_sector sample_sync 27).getD 509 0, (mk_sector sample_sync 27).getD 510 0,
               (mk_sector sample_sync 27).getD 511 0],
              { sector_data := mk_sector sample_sync 27, cur_sector_ptr := 512,
                remaining_bytes := 65532, cur_seq := 27 }, []) ∧
    get_next_sector_byte sample_cfg 0
        { sector_data := mk_sector sample_sync 27, cur_sector_ptr := 512,
          remaining_bytes := 65532, cur_seq := 27 } []
      = .oob := by
  set_option maxRecDepth 1000000 in
  refine ⟨by decide, by decide, by decide, by decide, by decide, by decide⟩

/-! ## Lemmas on what a write leaves in place -/

theorem splice_get (mem : List Nat) (a : Nat) (bs : List Nat) (i : Nat)
    (h : a + bs.length ≤ mem.length) :
    (splice mem a bs)[i]? =
      if i < a then mem[i]? else if i < a + bs.length then bs[i - a]? else mem[i]? := by
  have hl : (mem.take a).length = a := by
    simp only [List.length_take]; omega
  unfold splice
  by_cases h1 : i < a
  · rw [if_pos h1, List.append_assoc, List.getElem?_append_left (by omega),
      List.getElem?_take_of_lt h1]
  · rw [if_neg h1]
    by_cases h2 : i < a + bs.length
    · rw [if_pos h2, List.append_assoc, List.getElem?_append_right (by omega), hl,
        List.getElem?_append_left (by omega)]
    · rw [if_neg h2, List.getElem?_append_right (by simp only [List.length_append]; omega),
        List.getElem?_drop]
      congr 1
      simp only [List.length_append]
      omega

theorem poke_eq_splice (mem : List Nat) (j v : Nat) (mem' : List Nat)
    (h : poke mem j v = some mem') : j < mem.length ∧ mem' = splice mem j [v] := by
  unfold poke at h
  split at h
  · rename_i hj
    simp only [Option.some.injEq] at h
    refine ⟨hj, ?_⟩
    have := poke_splice mem j [] v (by simpa using hj)
    simp only [splice_nil, List.length_nil, Nat.add_zero, List.nil_append] at this
    unfold poke at this
    rw [if_pos hj] at this
    simp only [Option.some.injEq] at this
    rw [← h, this]
  · cases h

/-- A store through a pointer changes the one byte it names. -/
theorem poke_frame (mem : List Nat) (j v : Nat) (mem' : List Nat)
    (h : poke mem j v = some mem') :
    mem'.length = mem.length ∧ mem'[j]? = some v ∧ ∀ i, i ≠ j → mem'[i]? = mem[i]? := by
  obtain ⟨hj, rfl⟩ := poke_eq_splice mem j v mem' h
  have hb : j + [v].length ≤ mem.length := by simp only [List.length_singleton]; omega
  refine ⟨splice_length mem j [v] hb, ?_, ?_⟩
  · rw [splice_get mem j [v] j hb]
    simp
  · intro i hi
    rw [splice_get mem j [v] i hb]
    simp only [List.length_singleton]
    split_ifs <;> first | rfl | omega

/-- A field write changes bytes of the message only, and only those of the
field. -/
theorem tmsg_write_frame (mem : List Nat) (msg : tmsg_t) (f : Field) (v : Nat)
    (mem' : List Nat) (h : tmsg_write mem msg f v = some mem') :
    mem'.length = mem.length ∧
    (∀ i, (i < msg.data + f.offset ∨ msg.data + f.offset + f.size ≤ i) → mem'[i]? = mem[i]?) ∧
    (∀ i, msg.data + msg.len ≤ i → mem'[i]? = mem[i]?) := by
  unfold tmsg_write at h
  split at h
  · rename_i hfit
    split at h
    · rename_i hin
      simp only [Option.some.injEq] at h
      have hs : mem' = splice mem (msg.data + f.offset) (field_encode f v) := by
        rw [← h, splice, field_encode_length]
      have hb : msg.data + f.offset + (field_encode f v).length ≤ mem.length := by
        rw [field_encode_length]; exact hin
      have hget : ∀ i, (i < msg.data + f.offset ∨ msg.data + f.offset + f.size ≤ i) →
          mem'[i]? = mem[i]? := by
        intro i hi
        rw [hs, splice_get mem _ _ i hb, field_encode_length]
        split_ifs <;> first | rfl | omega
      refine ⟨by rw [hs]; exact splice_length _ _ _ hb, hget, ?_⟩
      intro i hi
      exact hget i (Or.inr (by omega))
    · cases h
  · simp only [Option.some.injEq] at h
    subst h
    exact ⟨rfl, fun _ _ => rfl, fun _ _ => rfl⟩

/-- The steps of the envelope code, one store after the other. -/
theorem dblk_envelope_inv (cfg : Config) (bp : List Nat) (l h0 h1 h2 : Nat) (e : List Nat)
    (h : dblk_envelope cfg bp l h0 h1 h2 = some e) :
    ∃ y0 y1 y2 y3 y4 y5 y6 y7,
      poke bp 0 cfg.SERIAL_TOS_SERIAL_ACTIVE_MESSAGE_ID = some y0 ∧
      tmsg_write y0 { data := 1, len := l - 1 } cfg.spacket_header_dest 0xffff = some y1 ∧
      tmsg_write y1 { data := 1, len := l - 1 } cfg.spacket_header_src 0 = some y2 ∧
      tmsg_write y2 { data := 1, len := l - 1 } cfg.spacket_header_length l = some y3 ∧
      tmsg_write y3 { data := 1, len := l - 1 } cfg.spacket_header_group 0 = some y4 ∧
      tmsg_write y4 { data := 1, len := l - 1 } cfg.spacket_header_type
        cfg.MM3_DATA_MSG_AM_TYPE = some y5 ∧
      poke y5 (1 + cfg.spacket_data_offset) h0 = some y6 ∧
      poke y6 (1 + cfg.spacket_data_offset + 1) h1 = some y7 ∧
      poke y7 (1 + cfg.spacket_data_offset + 2) h2 = some e := by
  simp only [dblk_envelope, Option.bind_eq_bind, Option.bind_eq_some] at h
  obtain ⟨y0, e0, y1, e1, y2, e2, y3, e3, y4, e4, y5, e5, y6, e6, y7, e7, e8⟩ := h
  exact ⟨y0, y1, y2, y3, y4, y5, y6, y7, e0, e1, e2, e3, e4, e5, e6, e7, e8⟩

/-- The envelope code writes below index `l` and below the payload. -/
theorem dblk_envelope_frame (cfg : Config) (bp : List Nat) (l h0 h1 h2 : Nat) (e : List Nat)
    (hl : 1 ≤ l) (h : dblk_envelope cfg bp l h0 h1 h2 = some e) :
    e.length = bp.length ∧
    ∀ i, l ≤ i → 1 + cfg.spacket_data_offset + 3 ≤ i → e[i]? = bp[i]? := by
  obtain ⟨y0, y1, y2, y3, y4, y5, y6, y7, e0, e1, e2, e3, e4, e5, e6, e7, e8⟩ :=
    dblk_envelope_inv cfg bp l h0 h1 h2 e h
  obtain ⟨l0, _, g0⟩ := poke_frame _ _ _ _ e0
  obtain ⟨l1, _, g1⟩ := tmsg_write_frame _ _ _ _ _ e1
  obtain ⟨l2, _, g2⟩ := tmsg_write_frame _ _ _ _ _ e2
  obtain ⟨l3, _, g3⟩ := tmsg_write_frame _ _ _ _ _ e3
  obtain ⟨l4, _, g4⟩ := tmsg_write_frame _ _ _ _ _ e4
  obtain ⟨l5, _, g5⟩ := tmsg_write_frame _ _ _ _ _ e5
  obtain ⟨l6, _, g6⟩ := poke_frame _ _ _ _ e6
  obtain ⟨l7, _, g7⟩ := poke_frame _ _ _ _ e7
  obtain ⟨l8, _, g8⟩ := poke_frame _ _ _ _ e8
  refine ⟨by omega, ?_⟩
  intro i hi hd
  have hm : 1 + (l - 1) ≤ i := by omega
  rw [g8 i (by omega), g7 i (by omega), g6 i (by omega), g5 i hm, g4 i hm, g3 i hm, g2 i hm,
    g1 i hm, g0 i (by omega)]

/-- The payload loop writes the indices of its own bytes only. -/
theorem dblk_payload_frame (cfg : Config) (fuel : Nat) :
    ∀ (n i0 : Nat) (st : State) (fd : Source) (bp : List Nat) (rtn : gs_rtn_t)
      (bp' : List Nat) (st' : State) (fd' : Source),
      dblk_payload cfg fuel n i0 st fd bp = .ret (rtn, bp', st', fd') →
      bp'.length = bp.length ∧
      ∀ j, (j < 1 + cfg.spacket_data_offset + i0 ∨ 1 + cfg.spacket_data_offset + i0 + n ≤ j) →
        bp'[j]? = bp[j]? := by
  intro n
  induction n with
  | zero =>
    intro i0 st fd bp rtn bp' st' fd' h
    simp only [dblk_payload, Outcome.ret.injEq, Prod.mk.injEq] at h
    rw [← h.2.1]
    exact ⟨rfl, fun _ _ => rfl⟩
  | succ n ih =>
    intro i0 st fd bp rtn bp' st' fd' h
    simp only [dblk_payload] at h
    obtain ⟨⟨r1, b1, s1, f1⟩, hg, h⟩ := Outcome.bind_eq_ret h
    simp only at h
    obtain ⟨bp1, hst, h⟩ := Outcome.bind_eq_ret h
    have hbp1 : bp1.length = bp.length ∧
        ∀ j, j ≠ 1 + cfg.spacket_data_offset + i0 → bp1[j]? = bp[j]? := by
      cases b1 with
      | none =>
        simp only [Outcome.ofOption, Outcome.ret.injEq] at hst
        rw [← hst]
        exact ⟨rfl, fun _ _ => rfl⟩
      | some v =>
        simp only at hst
        cases hp : poke bp (1 + cfg.spacket_data_offset + i0) v with
        | none => rw [hp] at hst; cases hst
        | some y =>
          rw [hp] at hst
          simp only [Outcome.ofOption, Outcome.ret.injEq] at hst
          rw [← hst]
          obtain ⟨q1, _, q3⟩ := poke_frame _ _ _ _ hp
          exact ⟨q1, q3⟩
    split at h
    · simp only [Outcome.ret.injEq, Prod.mk.injEq] at h
      rw [← h.2.1]
      exact ⟨hbp1.1, fun j hj => hbp1.2 j (by omega)⟩
    · obtain ⟨q1, q2⟩ := ih _ _ _ _ _ _ _ _ h
      refine ⟨by omega, fun j hj => ?_⟩
      rw [q2 j (by omega), hbp1.2 j (by omega)]

/-- The body of `get_next_dblk` writes below `cur_dblk_len + 1 + SPACKET_SIZE`. -/
theorem dblk_body_frame (cfg : Config) (hoff : cfg.spacket_data_offset = cfg.SPACKET_SIZE)
    (fuel : Nat) (st : State) (fd : Source) (bp : List Nat)
    (h0 h1 h2 : Nat) (rtn : gs_rtn_t) (l : Nat) (bp' : List Nat) (st' : State) (fd' : Source)
    (h : dblk_body cfg fuel st fd bp h0 h1 h2 = .ret (rtn, l, bp', st', fd')) :
    bp'.length = bp.length ∧
    ∀ j, (h0 * 256 + h1) % 65536 + 1 + cfg.SPACKET_SIZE ≤ j → bp'[j]? = bp[j]? := by
  rcases dblk_body_inv cfg fuel st fd bp h0 h1 h2 rtn l bp' st' fd' h with
    ⟨_, _, _, e, _, _⟩ | ⟨hok, e, r, he, hp, _⟩
  · rw [e]
    exact ⟨rfl, fun _ _ => rfl⟩
  · obtain ⟨q1, q2⟩ := dblk_envelope_frame cfg bp _ h0 h1 h2 e (by omega) he
    obtain ⟨p1, p2⟩ := dblk_payload_frame cfg fuel _ _ _ _ _ _ _ _ _ hp
    refine ⟨by omega, fun j hj => ?_⟩
    rw [p2 j (Or.inr (by omega)), q2 j hj (by omega)]

/-! ## Theorems on the output buffer -/

/-- C29: for every declared length L = 256*h0 + h1 from 3 to 65535 (the three
header bytes read without a cursor fault): L + 1 + SPACKET_SIZE does not exceed
64*1024 + SPACKET_SIZE, the size of `cur_dblk`; a call of `get_next_dblk` that
returns, with whatever status, has left the length of the buffer and every byte
at an index from L + 1 + SPACKET_SIZE on as they were, so every byte it wrote
lies below that index; and when the L bytes of a block with a valid header are
read without a cursor fault, the call on a buffer of 64*1024 + SPACKET_SIZE
bytes returns, no store having left the buffer. -/
theorem get_next_dblk_writes_in_bounds (cfg : Config) (fuel : Nat) (st : State) (fd : Source)
    (bp : List Nat) (h0 h1 h2 : Nat) (st3 : State) (fd3 : Source)
    (hcfg : cfg.wf)
    (hread : read_ok cfg fuel 3 st fd = some ([h0, h1, h2], st3, fd3))
    (hb0 : h0 < 256) (hb1 : h1 < 256) (hL : 3 ≤ 256 * h0 + h1) :
    256 * h0 + h1 + 1 + cfg.SPACKET_SIZE ≤ 64 * 1024 + cfg.SPACKET_SIZE ∧
    (∀ rtn len bp' st' fd',
      get_next_dblk cfg fuel st fd bp = .ret (rtn, len, bp', st', fd') →
      bp'.length = bp.length ∧
      ∀ j, 256 * h0 + h1 + 1 + cfg.SPACKET_SIZE ≤ j → bp'[j]? = bp[j]?) ∧
    (∀ payload st' fd',
      read_ok cfg fuel (256 * h0 + h1) st fd = some (h0 :: h1 :: h2 :: payload, st', fd') →
      h2 < cfg.DT_MAX → bp.length = 64 * 1024 + cfg.SPACKET_SIZE →
      ∃ rtn bp', get_next_dblk cfg fuel st fd bp
        = .ret (rtn, 256 * h0 + h1 + 1 + cfg.SPACKET_SIZE, bp', st', fd')) := by
  refine ⟨by omega, ?_, ?_⟩
  · intro rtn len bp' st' fd' h
    rcases get_next_dblk_inv cfg fuel st fd bp rtn len bp' st' fd' h with
      ⟨_, _, e, _⟩ | ⟨a0, a1, a2, s3, f3, hr, _, hb⟩
    · rw [e]
      exact ⟨rfl, fun _ _ => rfl⟩
    · rw [hread] at hr
      simp only [Option.some.injEq, Prod.mk.injEq, List.cons.injEq, and_true] at hr
      obtain ⟨⟨rfl, rfl, rfl⟩, rfl, rfl⟩ := hr
      have hlen : (h0 * 256 + h1) % 65536 = 256 * h0 + h1 := by omega
      have := dblk_body_frame cfg hcfg.2.2 fuel _ _ bp h0 h1 h2 rtn len bp' st' fd' hb
      rw [hlen] at this
      exact this
  · intro payload st' fd' hpay hdt hbp
    obtain ⟨y, rtn, _, hget, _, _⟩ := get_next_dblk_read_ok cfg fuel st fd bp (256 * h0 + h1)
      h0 h1 h2 payload st' fd' hcfg hpay hb0 hb1 rfl hdt (by omega)
    exact ⟨rtn, _, hget⟩

set_option maxRecDepth 1000000 in
theorem get_next_dblk_writes_in_bounds_witness :
    256 * 0 + 14 + 1 + sample_cfg.SPACKET_SIZE ≤ 64 * 1024 + sample_cfg.SPACKET_SIZE ∧
    ∃ rtn bp', get_next_dblk sample_cfg 0 State.init [.bytes (mk_sector sample_sensor 0)]
        (List.replicate (64 * 1024 + 7) 0)
      = .ret (rtn, 256 * 0 + 14 + 1 + sample_cfg.SPACKET_SIZE, bp',
              State.at_offset (mk_sector sample_sensor 0) 0 14, []) :=
  ⟨(get_next_dblk_writes_in_bounds sample_cfg 0 State.init
      [.bytes (mk_sector sample_sensor 0)] (List.replicate (64 * 1024 + 7) 0) 0 14 7
      (State.at_offset (mk_sector sample_sensor 0) 0 3) []
      (by decide) (by decide) (by decide) (by decide) (by decide)).1,
   (get_next_dblk_writes_in_bounds sample_cfg 0 State.init
      [.bytes (mk_sector sample_sensor 0)] (List.replicate (64 * 1024 + 7) 0) 0 14 7
      (State.at_offset (mk_sector sample_sensor 0) 0 3) []
      (by decide) (by decide) (by decide) (by decide) (by decide)).2.2
      [1, 0, 0, 0, 0, 0, 0, 0, 0, 5, 6] (State.at_offset (mk_sector sample_sensor 0) 0 14) []
      (by decide) (by decide) (by rw [List.length_replicate]; rfl)⟩

/-! ## Lemmas on the fields of the envelope -/

theorem foldr_encode (n v : Nat) :
    ((List.range n).map (fun i => (v / 256 ^ i) % 256)).foldr (fun b acc => b + 256 * acc) 0
      = v % 256 ^ n := by
  induction n generalizing v with
  | zero => simp [Nat.mod_one]
  | succ n ih =>
    rw [List.range_succ_eq_map, List.map_cons, List.map_map, List.foldr_cons]
    have hf : ((fun i => v / 256 ^ i % 256) ∘ Nat.succ) = fun i => (v / 256) / 256 ^ i % 256 := by
      funext i
      simp only [Function.comp, Nat.succ_eq_add_one, Nat.pow_succ, Nat.div_div_eq_div_mul]
      rw [Nat.mul_comm]
    rw [hf, ih (v / 256), Nat.pow_succ', Nat.mod_mul]
    simp

/-- A field reads back the value stored in it, cut to the width of the field. -/
theorem field_decode_encode (f : Field) (v : Nat) :
    field_decode f (field_encode f v) = v % 256 ^ f.size := by
  unfold field_decode field_encode
  by_cases hle : f.le = true
  · simp only [hle, if_true]
    exact foldr_encode f.size v
  · simp only [hle, if_false, Bool.false_eq_true]
    rw [List.foldl_reverse]
    have : (fun (x y : Nat) => 256 * y + x) = fun b acc => b + 256 * acc := by
      funext x y; omega
    rw [this]
    exact foldr_encode f.size v

theorem tmsg_read_congr (mem mem' : List Nat) (msg : tmsg_t) (f : Field)
    (hlen : mem'.length = mem.length)
    (h : ∀ i, msg.data + f.offset ≤ i → i < msg.data + f.offset + f.size →
      mem'[i]? = mem[i]?) :
    tmsg_read mem' msg f = tmsg_read mem msg f := by
  unfold tmsg_read
  rw [hlen]
  split
  · split
    · congr 2
      apply List.ext_getElem?
      intro i
      by_cases hi : i < f.size
      · rw [List.getElem?_take_of_lt hi, List.getElem?_take_of_lt hi, List.getElem?_drop,
          List.getElem?_drop]
        exact h _ (by omega) (by omega)
      · rw [List.getElem?_take_eq_none (by omega), List.getElem?_take_eq_none (by omega)]
    · rfl
  · rfl

theorem tmsg_read_write_same (mem : List Nat) (msg : tmsg_t) (f : Field) (v : Nat)
    (mem' : List Nat) (hfit : f.offset + f.size ≤ msg.len)
    (h : tmsg_write mem msg f v = some mem') :
    tmsg_read mem' msg f = some (v % 256 ^ f.size) := by
  obtain ⟨hl, _, _⟩ := tmsg_write_frame mem msg f v mem' h
  unfold tmsg_write at h
  rw [if_pos hfit] at h
  split at h
  · rename_i hin
    simp only [Option.some.injEq] at h
    have hs : mem' = splice mem (msg.data + f.offset) (field_encode f v) := by
      rw [← h, splice, field_encode_length]
    have hem := emitted_splice mem (msg.data + f.offset) (field_encode f v)
      (by rw [field_encode_length]; exact hin)
    rw [field_encode_length, ← hs] at hem
    unfold tmsg_read
    rw [if_pos hfit, if_pos (by omega), hem, field_decode_encode]
  · cases h

theorem tmsg_read_after_write (mem mem' : List Nat) (msg : tmsg_t) (f g : Field) (v : Nat)
    (hw : tmsg_write mem msg g v = some mem')
    (hd : f.offset + f.size ≤ g.offset ∨ g.offset + g.size ≤ f.offset) :
    tmsg_read mem' msg f = tmsg_read mem msg f := by
  obtain ⟨hl, hg, _⟩ := tmsg_write_frame mem msg g v mem' hw
  exact tmsg_read_congr mem mem' msg f hl (fun i h1 h2 => hg i (by omega))

theorem tmsg_read_after_poke (mem mem' : List Nat) (msg : tmsg_t) (f : Field) (j v : Nat)
    (hp : poke mem j v = some mem') (hj : msg.data + f.offset + f.size ≤ j) :
    tmsg_read mem' msg f = tmsg_read mem msg f := by
  obtain ⟨hl, _, hg⟩ := poke_frame mem j v mem' hp
  exact tmsg_read_congr mem mem' msg f hl (fun i h1 h2 => hg i (by omega))

/-- What the envelope code leaves in the buffer: the packet-type byte, the five
header fields (each cut to the width of the field) and the block header. -/
theorem dblk_envelope_fields (cfg : Config) (bp : List Nat) (l h0 h1 h2 : Nat) (e : List Nat)
    (hoff : cfg.spacket_data_offset = cfg.SPACKET_SIZE) (henv : cfg.envelope_wf)
    (hl : cfg.SPACKET_SIZE + 1 ≤ l)
    (h : dblk_envelope cfg bp l h0 h1 h2 = some e) :
    e[0]? = some cfg.SERIAL_TOS_SERIAL_ACTIVE_MESSAGE_ID ∧
    e[1 + cfg.SPACKET_SIZE]? = some h0 ∧ e[1 + cfg.SPACKET_SIZE + 1]? = some h1 ∧
    tmsg_read e { data := 1, len := l - 1 } cfg.spacket_header_dest = some 0xffff ∧
    tmsg_read e { data := 1, len := l - 1 } cfg.spacket_header_src = some 0 ∧
    tmsg_read e { data := 1, len := l - 1 } cfg.spacket_header_length
      = some (l % 256 ^ cfg.spacket_header_length.size) ∧
    tmsg_read e { data := 1, len := l - 1 } cfg.spacket_header_group = some 0 ∧
    tmsg_read e { data := 1, len := l - 1 } cfg.spacket_header_type
      = some cfg.MM3_DATA_MSG_AM_TYPE := by
  obtain ⟨y0, y1, y2, y3, y4, y5, y6, y7, e0, e1, e2, e3, e4, e5, e6, e7, e8⟩ :=
    dblk_envelope_inv cfg bp l h0 h1 h2 e h
  obtain ⟨hin, hpw, hdw, htw⟩ := henv
  simp only [Config.envelope_fields, List.mem_cons, List.mem_singleton, forall_eq_or_imp,
    forall_eq, List.not_mem_nil, false_implies, implies_true, and_true] at hin
  obtain ⟨i1, i2, i3, i4, i5⟩ := hin
  simp only [Config.envelope_fields, List.pairwise_cons, List.mem_cons, List.mem_singleton,
    forall_eq_or_imp, forall_eq, List.not_mem_nil, false_implies, implies_true, and_true,
    List.Pairwise.nil] at hpw
  obtain ⟨⟨d12, d13, d14, d15⟩, ⟨d23, d24, d25⟩, ⟨d34, d35⟩, d45⟩ := hpw
  rw [hoff] at e6 e7 e8
  obtain ⟨_, g0, _⟩ := poke_frame _ _ _ _ e0
  obtain ⟨_, r1, _⟩ := tmsg_write_frame _ _ _ _ _ e1
  obtain ⟨_, r2, _⟩ := tmsg_write_frame _ _ _ _ _ e2
  obtain ⟨_, r3, _⟩ := tmsg_write_frame _ _ _ _ _ e3
  obtain ⟨_, r4, _⟩ := tmsg_write_frame _ _ _ _ _ e4
  obtain ⟨_, r5, _⟩ := tmsg_write_frame _ _ _ _ _ e5
  obtain ⟨_, g6s, g6⟩ := poke_frame _ _ _ _ e6
  obtain ⟨_, g7s, g7⟩ := poke_frame _ _ _ _ e7
  obtain ⟨_, _, g8⟩ := poke_frame _ _ _ _ e8
  have w1 := tmsg_read_write_same _ _ _ _ _ (by simp only; omega) e1
  have w2 := tmsg_read_write_same _ _ _ _ _ (by simp only; omega) e2
  have w3 := tmsg_read_write_same _ _ _ _ _ (by simp only; omega) e3
  have w4 := tmsg_read_write_same _ _ _ _ _ (by simp only; omega) e4
  have w5 := tmsg_read_write_same _ _ _ _ _ (by simp only; omega) e5
  have hp : ∀ (f : Field), f.offset + f.size ≤ cfg.SPACKET_SIZE →
      tmsg_read e { data := 1, len := l - 1 } f = tmsg_read y5 { data := 1, len := l - 1 } f := by
    intro f hf
    rw [tmsg_read_after_poke _ _ _ f _ _ e8 (by simp only; omega),
      tmsg_read_after_poke _ _ _ f _ _ e7 (by simp only; omega),
      tmsg_read_after_poke _ _ _ f _ _ e6 (by simp only; omega)]
  refine ⟨?_, ?_, ?_, ?_, ?_, ?_, ?_, ?_⟩
  · rw [g8 0 (by omega), g7 0 (by omega), g6 0 (by omega), r5 0 (Or.inl (by simp only; omega)),
      r4 0 (Or.inl (by simp only; omega)), r3 0 (Or.inl (by simp only; omega)),
      r2 0 (Or.inl (by simp only; omega)), r1 0 (Or.inl (by simp only; omega)), g0]
  · rw [g8 _ (by omega), g7 _ (by omega), g6s]
  · rw [g8 _ (by omega), g7s]
  · rw [hp _ i1, tmsg_read_after_write _ _ _ _ _ _ e5 d15,
      tmsg_read_after_write _ _ _ _ _ _ e4 d14, tmsg_read_after_write _ _ _ _ _ _ e3 d13,
      tmsg_read_after_write _ _ _ _ _ _ e2 d12, w1, Nat.mod_eq_of_lt hdw]
  · rw [hp _ i2, tmsg_read_after_write _ _ _ _ _ _ e5 d25,
      tmsg_read_after_write _ _ _ _ _ _ e4 d24, tmsg_read_after_write _ _ _ _ _ _ e3 d23,
      w2, Nat.zero_mod]
  · rw [hp _ i3, tmsg_read_after_write _ _ _ _ _ _ e5 d35,
      tmsg_read_after_write _ _ _ _ _ _ e4 d34, w3]
  · rw [hp _ i4, tmsg_read_after_write _ _ _ _ _ _ e5 d45, w4, Nat.zero_mod]
  · rw [hp _ i5, w5, Nat.mod_eq_of_lt htw]

set_option maxRecDepth 1000000 in
theorem get_next_dblk_sample_test_248 :
    get_next_dblk sample_cfg 0 State.init [.bytes (mk_sector sample_test_248 0)]
        (List.replicate 256 0)
      = .ret (GS_OK, 256, [0, 255, 255, 0, 0, 0, 0, 33] ++ sample_test_248,
              State.at_offset (mk_sector sample_test_248 0) 0 248, []) := by
  decide

/-- C22 (counterexample): under the sample layout, whose serial header has a
length field of one byte, a `DT_TEST` record of 248 bytes is emitted with
`GS_OK` and `*len = 248 + 1 + SPACKET_SIZE = 256`, and the length field of the
header reads back 0, not `*len`. -/
theorem get_next_dblk_length_field_wraps :
    (sample_cfg.wf ∧ sample_cfg.envelope_wf ∧ sample_cfg.spacket_header_length.size = 1) ∧
    get_next_dblk sample_cfg 0 State.init [.bytes (mk_sector sample_test_248 0)]
        (List.replicate 256 0)
      = .ret (GS_OK, 256, [0, 255, 255, 0, 0, 0, 0, 33] ++ sample_test_248,
              State.at_offset (mk_sector sample_test_248 0) 0 248, []) ∧
    256 = 248 + 1 + sample_cfg.SPACKET_SIZE ∧
    tmsg_read ([0, 255, 255, 0, 0, 0, 0, 33] ++ sample_test_248) { data := 1, len := 256 - 1 }
      sample_cfg.spacket_header_length = some 0 ∧
    tmsg_read ([0, 255, 255, 0, 0, 0, 0, 33] ++ sample_test_248) { data := 1, len := 256 - 1 }
      sample_cfg.spacket_header_length ≠ some 256 := by
  set_option maxRecDepth 1000000 in
  refine ⟨by decide, get_next_dblk_sample_test_248, by decide, by decide, by decide⟩

/-- C22 (amended): every call of `get_next_dblk` that emits a record (it
returns with `*len` set, which it does exactly when the header is valid and no
cursor fault is met) returns `GS_OK` or `GS_BAD_DBLK` and leaves in the buffer:
the byte `SERIAL_TOS_SERIAL_ACTIVE_MESSAGE_ID` at index 0; behind it a serial
header whose fields, read through the accessors over the message
`(bp + 1, *len - 1)`, are destination 0xFFFF, source 0, group 0, type
`MM3_DATA_MSG_AM_TYPE` and, in the length field, `*len` modulo 256^w for a
field of w bytes, so `*len` itself whenever `*len` fits that field; and behind
the header the two length bytes of the block, with `*len` = declared length + 1
+ SPACKET_SIZE.  The values depend on `*len` only, not on the payload.  The layout of the header comes from a generated file
that is not in the source tree; it is taken as any layout whose fields lie
inside the header without sharing a byte (`Config.envelope_wf`). -/
theorem get_next_dblk_envelope (cfg : Config) (fuel : Nat) (st : State) (fd : Source)
    (bp : List Nat) (rtn : gs_rtn_t) (len : Nat) (bp' : List Nat) (st' : State) (fd' : Source)
    (hcfg : cfg.wf) (henv : cfg.envelope_wf)
    (h : get_next_dblk cfg fuel st fd bp = .ret (rtn, len, bp', st', fd'))
    (hlen : len ≠ 0) :
    (rtn = GS_OK ∨ rtn = GS_BAD_DBLK) ∧
    (∃ h0 h1, bp'[1 + cfg.SPACKET_SIZE]? = some h0 ∧
      bp'[1 + cfg.SPACKET_SIZE + 1]? = some h1 ∧
      3 ≤ (h0 * 256 + h1) % 65536 ∧
      len = (h0 * 256 + h1) % 65536 + 1 + cfg.SPACKET_SIZE) ∧
    bp'[0]? = some cfg.SERIAL_TOS_SERIAL_ACTIVE_MESSAGE_ID ∧
    tmsg_read bp' { data := 1, len := len - 1 } cfg.spacket_header_dest = some 0xffff ∧
    tmsg_read bp' { data := 1, len := len - 1 } cfg.spacket_header_src = some 0 ∧
    tmsg_read bp' { data := 1, len := len - 1 } cfg.spacket_header_group = some 0 ∧
    tmsg_read bp' { data := 1, len := len - 1 } cfg.spacket_header_type
      = some cfg.MM3_DATA_MSG_AM_TYPE ∧
    tmsg_read bp' { data := 1, len := len - 1 } cfg.spacket_header_length
      = some (len % 256 ^ cfg.spacket_header_length.size) ∧
    (len < 256 ^ cfg.spacket_header_length.size →
      tmsg_read bp' { data := 1, len := len - 1 } cfg.spacket_header_length = some len) := by
  have hoff : cfg.spacket_data_offset = cfg.SPACKET_SIZE := hcfg.2.2
  rcases get_next_dblk_inv cfg fuel st fd bp rtn len bp' st' fd' h with
    ⟨_, e, _, _⟩ | ⟨h0, h1, h2, s3, f3, _, _, hb⟩
  · exact absurd e hlen
  rcases dblk_body_inv cfg fuel s3 f3 bp h0 h1 h2 rtn len bp' st' fd' hb with
    ⟨_, _, e, _⟩ | ⟨hok, e, r, he, hp, hcase⟩
  · exact absurd e hlen
  rcases hcase with ⟨_, _, e0⟩ | ⟨_, hl, hrtn⟩
  · exact absurd e0 hlen
  have hL : 3 ≤ (h0 * 256 + h1) % 65536 := by omega
  obtain ⟨f0, f1, f2, f3', f4, f5, f6, f7⟩ := dblk_envelope_fields cfg bp _ h0 h1 h2 e hoff henv
    (by omega) he
  obtain ⟨p1, p2⟩ := dblk_payload_frame cfg fuel _ _ _ _ _ _ _ _ _ hp
  obtain ⟨hin, _, _, _⟩ := henv
  simp only [Config.envelope_fields, List.mem_cons, List.mem_singleton, forall_eq_or_imp,
    forall_eq, List.not_mem_nil, false_implies, implies_true, and_true] at hin
  obtain ⟨i1, i2, i3, i4, i5⟩ := hin
  have hrd : ∀ (f : Field), f.offset + f.size ≤ cfg.SPACKET_SIZE →
      tmsg_read bp' { data := 1, len := len - 1 } f
        = tmsg_read e { data := 1, len := len - 1 } f := by
    intro f hf
    exact tmsg_read_congr e bp' _ f p1 (fun i _ hi => p2 i (Or.inl (by simp only at hi; omega)))
  rw [← hl] at f3' f4 f5 f6 f7
  have hlenf : tmsg_read bp' { data := 1, len := len - 1 } cfg.spacket_header_length
      = some (len % 256 ^ cfg.spacket_header_length.size) := by
    rw [hrd _ i3, f5]
  refine ⟨hrtn, ⟨h0, h1, ?_, ?_, hL, hl⟩, ?_, ?_, ?_, ?_, ?_, hlenf, ?_⟩
  · rw [p2 _ (Or.inl (by omega)), f1]
  · rw [p2 _ (Or.inl (by omega)), f2]
  · rw [p2 _ (Or.inl (by omega)), f0]
  · rw [hrd _ i1, f3']
  · rw [hrd _ i2, f4]
  · rw [hrd _ i4, f6]
  · rw [hrd _ i5, f7]
  · intro hfit
    rw [hlenf, Nat.mod_eq_of_lt hfit]

set_option maxRecDepth 1000000 in
theorem get_next_dblk_envelope_witness :
    ((GS_OK = GS_OK ∨ GS_OK = GS_BAD_DBLK) ∧
    (∃ h0 h1, ([0, 255, 255, 0, 0, 22, 0, 33] ++ sample_sensor)[1 + sample_cfg.SPACKET_SIZE]?
        = some h0 ∧
      ([0, 255, 255, 0, 0, 22, 0, 33] ++ sample_sensor)[1 + sample_cfg.SPACKET_SIZE + 1]?
        = some h1 ∧
      3 ≤ (h0 * 256 + h1) % 65536 ∧
      22 = (h0 * 256 + h1) % 65536 + 1 + sample_cfg.SPACKET_SIZE) ∧
    ([0, 255, 255, 0, 0, 22, 0, 33] ++ sample_sensor)[0]?
      = some sample_cfg.SERIAL_TOS_SERIAL_ACTIVE_MESSAGE_ID ∧
    tmsg_read ([0, 255, 255, 0, 0, 22, 0, 33] ++ sample_sensor) { data := 1, len := 22 - 1 }
      sample_cfg.spacket_header_dest = some 0xffff ∧
    tmsg_read ([0, 255, 255, 0, 0, 22, 0, 33] ++ sample_sensor) { data := 1, len := 22 - 1 }
      sample_cfg.spacket_header_src = some 0 ∧
    tmsg_read ([0, 255, 255, 0, 0, 22, 0, 33] ++ sample_sensor) { data := 1, len := 22 - 1 }
      sample_cfg.spacket_header_group = some 0 ∧
    tmsg_read ([0, 255, 255, 0, 0, 22, 0, 33] ++ sample_sensor) { data := 1, len := 22 - 1 }
      sample_cfg.spacket_header_type = some sample_cfg.MM3_DATA_MSG_AM_TYPE ∧
    tmsg_read ([0, 255, 255, 0, 0, 22, 0, 33] ++ sample_sensor) { data := 1, len := 22 - 1 }
      sample_cfg.spacket_header_length
      = some (22 % 256 ^ sample_cfg.spacket_header_length.size) ∧
    (22 < 256 ^ sample_cfg.spacket_header_length.size →
      tmsg_read ([0, 255, 255, 0, 0, 22, 0, 33] ++ sample_sensor) { data := 1, len := 22 - 1 }
        sample_cfg.spacket_header_length = some 22)) ∧
    tmsg_read ([0, 255, 255, 0, 0, 0, 0, 33] ++ sample_test_248) { data := 1, len := 256 - 1 }
      sample_cfg.spacket_header_length
      = some (256 % 256 ^ sample_cfg.spacket_header_length.size) :=
  ⟨get_next_dblk_envelope sample_cfg 0 State.init [.bytes (mk_sector sample_sensor 0)]
    (List.replicate 22 0) GS_OK 22 ([0, 255, 255, 0, 0, 22, 0, 33] ++ sample_sensor)
    (State.at_offset (mk_sector sample_sensor 0) 0 14) []
    (by decide) (by decide) (by decide) (by decide),
   (get_next_dblk_envelope sample_cfg 0 State.init [.bytes (mk_sector sample_test_248 0)]
    (List.replicate 256 0) GS_OK 256 ([0, 255, 255, 0, 0, 0, 0, 33] ++ sample_test_248)
    (State.at_offset (mk_sector sample_test_248 0) 0 248) []
    (by decide) (by decide) get_next_dblk_sample_test_248 (by decide)).2.2.2.2.2.2.2.1⟩

/-! ## Lemmas on two runs that differ in the output buffer -/

theorem Outcome.rel_bind {α β γ δ : Type} {R : α → β → Prop} {Q : γ → δ → Prop}
    {x : Outcome α} {y : Outcome β} {f : α → Outcome γ} {g : β → Outcome δ}
    (hxy : Outcome.rel R x y) (hfg : ∀ a b, R a b → Outcome.rel Q (f a) (g b)) :
    Outcome.rel Q (x.bind f) (y.bind g) := by
  cases x <;> cases y <;> simp only [Outcome.rel, Outcome.bind] at hxy ⊢
  · exact hfg _ _ hxy
  · exact hxy

theorem Outcome.rel_bind_same {α γ δ : Type} {Q : γ → δ → Prop}
    {x : Outcome α} {f : α → Outcome γ} {g : α → Outcome δ}
    (hfg : ∀ a, x = .ret a → Outcome.rel Q (f a) (g a)) :
    Outcome.rel Q (x.bind f) (x.bind g) := by
  cases x <;> simp only [Outcome.rel, Outcome.bind]
  exact hfg _ rfl

theorem poke_rel (x y : List Nat) (j v : Nat) (hl : x.length = y.length) :
    (poke x j v = none ∧ poke y j v = none) ∨
    ∃ x' y', poke x j v = some x' ∧ poke y j v = some y' ∧ x'.length = y'.length ∧
      x'[j]? = y'[j]? ∧ ∀ i, i ≠ j → x'[i]? = x[i]? ∧ y'[i]? = y[i]? := by
  by_cases hj : j < x.length
  · obtain ⟨x', hx, _⟩ := poke_some x j v hj
    obtain ⟨y', hy, _⟩ := poke_some y j v (by omega)
    obtain ⟨a1, a2, a3⟩ := poke_frame x j v x' hx
    obtain ⟨b1, b2, b3⟩ := poke_frame y j v y' hy
    exact Or.inr ⟨x', y', hx, hy, by omega, by rw [a2, b2], fun i hi => ⟨a3 i hi, b3 i hi⟩⟩
  · left
    unfold poke
    rw [if_neg hj, if_neg (by omega)]
    exact ⟨rfl, rfl⟩

theorem tmsg_write_rel (x y : List Nat) (msg : tmsg_t) (f : Field) (v : Nat)
    (hl : x.length = y.length) :
    (tmsg_write x msg f v = none ∧ tmsg_write y msg f v = none) ∨
    ∃ x' y', tmsg_write x msg f v = some x' ∧ tmsg_write y msg f v = some y' ∧
      x'.length = y'.length := by
  cases hx : tmsg_write x msg f v with
  | none =>
    left
    refine ⟨rfl, ?_⟩
    unfold tmsg_write at hx ⊢
    split at hx
    · rename_i hfit
      split at hx
      · cases hx
      · rename_i hin
        rw [if_pos hfit, if_neg (by omega)]
    · cases hx
  | some x' =>
    right
    obtain ⟨a1, _, _⟩ := tmsg_write_frame x msg f v x' hx
    have : ∃ y', tmsg_write y msg f v = some y' := by
      unfold tmsg_write at hx ⊢
      split at hx
      · rename_i hfit
        split at hx
        · rename_i hin
          rw [if_pos hfit, if_pos (by omega)]
          exact ⟨_, rfl⟩
        · cases hx
      · rename_i hfit
        rw [if_neg hfit]
        exact ⟨_, rfl⟩
    obtain ⟨y', hy⟩ := this
    obtain ⟨b1, _, _⟩ := tmsg_write_frame y msg f v y' hy
    exact ⟨x', y', rfl, hy, by omega⟩

/-- On two buffers of the same size the envelope code fails on both or succeeds
on both, leaving the same three header bytes behind the envelope. -/
theorem dblk_envelope_rel (cfg : Config) (bp1 bp2 : List Nat) (l h0 h1 h2 : Nat)
    (hl : bp1.length = bp2.length) :
    (dblk_envelope cfg bp1 l h0 h1 h2 = none ∧ dblk_envelope cfg bp2 l h0 h1 h2 = none) ∨
    ∃ e1 e2, dblk_envelope cfg bp1 l h0 h1 h2 = some e1 ∧
      dblk_envelope cfg bp2 l h0 h1 h2 = some e2 ∧
      same_bytes (1 + cfg.spacket_data_offset) (1 + cfg.spacket_data_offset + 3) e1 e2 := by
  unfold dblk_envelope
  simp only [Option.bind_eq_bind]
  rcases poke_rel bp1 bp2 0 cfg.SERIAL_TOS_SERIAL_ACTIVE_MESSAGE_ID hl with
    ⟨a, b⟩ | ⟨x0, y0, a, b, l0, _, _⟩
  · left; rw [a, b]; exact ⟨rfl, rfl⟩
  rw [a, b]; simp only [Option.some_bind]
  rcases tmsg_write_rel x0 y0 ⟨1, l - 1⟩ cfg.spacket_header_dest 0xffff l0 with
    ⟨a, b⟩ | ⟨x1, y1, a, b, l1⟩
  · left; rw [a, b]; exact ⟨rfl, rfl⟩
  rw [a, b]; simp only [Option.some_bind]
  rcases tmsg_write_rel x1 y1 ⟨1, l - 1⟩ cfg.spacket_header_src 0 l1 with
    ⟨a, b⟩ | ⟨x2, y2, a, b, l2⟩
  · left; rw [a, b]; exact ⟨rfl, rfl⟩
  rw [a, b]; simp only [Option.some_bind]
  rcases tmsg_write_rel x2 y2 ⟨1, l - 1⟩ cfg.spacket_header_length l l2 with
    ⟨a, b⟩ | ⟨x3, y3, a, b, l3⟩
  · left; rw [a, b]; exact ⟨rfl, rfl⟩
  rw [a, b]; simp only [Option.some_bind]
  rcases tmsg_write_rel x3 y3 ⟨1, l - 1⟩ cfg.spacket_header_group 0 l3 with
    ⟨a, b⟩ | ⟨x4, y4, a, b, l4⟩
  · left; rw [a, b]; exact ⟨rfl, rfl⟩
  rw [a, b]; simp only [Option.some_bind]
  rcases tmsg_write_rel x4 y4 ⟨1, l - 1⟩ cfg.spacket_header_type cfg.MM3_DATA_MSG_AM_TYPE l4
    with ⟨a, b⟩ | ⟨x5, y5, a, b, l5⟩
  · left; rw [a, b]; exact ⟨rfl, rfl⟩
  rw [a, b]; simp only [Option.some_bind]
  rcases poke_rel x5 y5 (1 + cfg.spacket_data_offset) h0 l5 with
    ⟨a, b⟩ | ⟨x6, y6, a, b, l6, s6, _⟩
  · left; rw [a, b]; exact ⟨rfl, rfl⟩
  rw [a, b]; simp only [Option.some_bind]
  rcases poke_rel x6 y6 (1 + cfg.spacket_data_offset + 1) h1 l6 with
    ⟨a, b⟩ | ⟨x7, y7, a, b, l7, s7, g7⟩
  · left; rw [a, b]; exact ⟨rfl, rfl⟩
  rw [a, b]; simp only [Option.some_bind]
  rcases poke_rel x7 y7 (1 + cfg.spacket_data_offset + 2) h2 l7 with
    ⟨a, b⟩ | ⟨x8, y8, a, b, l8, s8, g8⟩
  · left; rw [a, b]; exact ⟨rfl, rfl⟩
  right
  refine ⟨x8, y8, a, b, l8, ?_⟩
  intro j hj1 hj2
  by_cases c2 : j = 1 + cfg.spacket_data_offset + 2
  · rw [c2]; exact s8
  · rw [(g8 j c2).1, (g8 j c2).2]
    by_cases c1 : j = 1 + cfg.spacket_data_offset + 1
    · rw [c1]; exact s7
    · rw [(g7 j c1).1, (g7 j c1).2]
      have c0 : j = 1 + cfg.spacket_data_offset := by omega
      rw [c0]; exact s6

theorem Outcome.rel_mono {α β : Type} {R Q : α → β → Prop} {x : Outcome α} {y : Outcome β}
    (h : Outcome.rel R x y) (hRQ : ∀ a b, R a b → Q a b) : Outcome.rel Q x y := by
  cases x <;> cases y <;> simp only [Outcome.rel] at h ⊢
  · exact hRQ _ _ h
  · exact h

theorem tmsg_read_agree (mem mem' : List Nat) (msg : tmsg_t) (f : Field)
    (h : same_bytes msg.data (msg.data + msg.len) mem' mem) :
    tmsg_read mem' msg f = tmsg_read mem msg f := by
  by_cases hfit : f.offset + f.size ≤ msg.len
  · exact tmsg_read_congr mem mem' msg f h.1 (fun i h1 h2 => h.2 i (by omega) (by omega))
  · unfold tmsg_read
    rw [if_neg hfit, if_neg hfit]

theorem dblk_rule_agree (cfg : Config) (b1 b2 : List Nat) (msg : tmsg_t) (dtype len : Nat)
    (h : same_bytes msg.data (msg.data + msg.len) b1 b2) :
    dblk_rule cfg b1 msg dtype len = dblk_rule cfg b2 msg dtype len := by
  unfold dblk_rule
  rw [tmsg_read_agree b2 b1 msg _ h]

/-- The payload loop on two buffers of the same size that agree from `lo` up to
the index of the next payload byte: the two runs end the same way, and when they
run to the end of the loop the buffers agree up to the end of the payload. -/
theorem dblk_payload_rel (cfg : Config) (fuel lo : Nat) :
    ∀ (n i : Nat) (st : State) (fd : Source) (e1 e2 : List Nat),
      same_bytes lo (1 + cfg.spacket_data_offset + i) e1 e2 →
      Outcome.rel
        (fun (a b : gs_rtn_t × List Nat × State × Source) =>
          a.1 = b.1 ∧ a.2.2 = b.2.2 ∧ a.2.1.length = b.2.1.length ∧
          (a.1 = GS_OK → same_bytes lo (1 + cfg.spacket_data_offset + i + n) a.2.1 b.2.1))
        (dblk_payload cfg fuel n i st fd e1) (dblk_payload cfg fuel n i st fd e2) := by
  intro n
  induction n with
  | zero =>
    intro i st fd e1 e2 h
    simp only [dblk_payload]
    exact ⟨rfl, rfl, h.1, fun _ => h⟩
  | succ n ih =>
    intro i st fd e1 e2 h
    simp only [dblk_payload]
    apply Outcome.rel_bind_same
    rintro ⟨r1, b1, s1, f1⟩ hg
    have hsome : r1 = GS_OK → ∃ v, b1 = some v := by
      intro hok
      rw [hok] at hg
      exact get_next_sector_byte_ok_some cfg fuel st fd _ _ _ hg
    clear hg
    have tail : ∀ x y : List Nat, x.length = y.length →
        (r1 = GS_OK → same_bytes lo (1 + cfg.spacket_data_offset + i + 1) x y) →
        Outcome.rel
          (fun (a b : gs_rtn_t × List Nat × State × Source) =>
            a.1 = b.1 ∧ a.2.2 = b.2.2 ∧ a.2.1.length = b.2.1.length ∧
            (a.1 = GS_OK →
              same_bytes lo (1 + cfg.spacket_data_offset + i + (n + 1)) a.2.1 b.2.1))
          (if r1 ≠ GS_OK then Outcome.ret (r1, x, s1, f1)
           else dblk_payload cfg fuel n (i + 1) s1 f1 x)
          (if r1 ≠ GS_OK then Outcome.ret (r1, y, s1, f1)
           else dblk_payload cfg fuel n (i + 1) s1 f1 y) := by
      intro x y hlen hxy
      by_cases hr : r1 = GS_OK
      · have hne : ¬ (r1 ≠ GS_OK) := not_not.mpr hr
        rw [if_neg hne, if_neg hne]
        have hsb := hxy hr
        have e1' : 1 + cfg.spacket_data_offset + i + 1
            = 1 + cfg.spacket_data_offset + (i + 1) := by omega
        rw [e1'] at hsb
        refine Outcome.rel_mono (ih (i + 1) s1 f1 x y hsb) ?_
        rintro a b ⟨q1, q2, q3, q4⟩
        refine ⟨q1, q2, q3, fun hok => ?_⟩
        have e2' : 1 + cfg.spacket_data_offset + i + (n + 1)
            = 1 + cfg.spacket_data_offset + (i + 1) + n := by omega
        rw [e2']
        exact q4 hok
      · rw [if_pos hr, if_pos hr]
        exact ⟨rfl, rfl, hlen, fun hok => absurd hok hr⟩
    cases b1 with
    | none =>
      simp only [Outcome.ofOption, Outcome.bind_ret]
      refine tail e1 e2 h.1 (fun hok => ?_)
      obtain ⟨v, hv⟩ := hsome hok
      cases hv
    | some v =>
      simp only
      rcases poke_rel e1 e2 (1 + cfg.spacket_data_offset + i) v h.1 with
        ⟨a, b⟩ | ⟨x', y', a, b, hl, hs, hg'⟩
      · rw [a, b]
        simp only [Outcome.ofOption, Outcome.bind, Outcome.rel]
      · rw [a, b]
        simp only [Outcome.ofOption, Outcome.bind_ret]
        refine tail x' y' hl (fun _ => ⟨hl, fun j hj1 hj2 => ?_⟩)
        by_cases c : j = 1 + cfg.spacket_data_offset + i
        · rw [c]; exact hs
        · rw [(hg' j c).1, (hg' j c).2]
          exact h.2 j hj1 (by omega)

/-- The body of `get_next_dblk` on two buffers of the same size: the two runs
end the same way, with the same status, `*len`, statics and file. -/
theorem dblk_body_rel (cfg : Config) (hoff : cfg.spacket_data_offset = cfg.SPACKET_SIZE)
    (fuel : Nat) (st : State) (fd : Source) (bp1 bp2 : List Nat) (h0 h1 h2 : Nat)
    (hl : bp1.length = bp2.length) :
    Outcome.rel
      (fun (a b : gs_rtn_t × Nat × List Nat × State × Source) =>
        a.1 = b.1 ∧ a.2.1 = b.2.1 ∧ a.2.2.2 = b.2.2.2)
      (dblk_body cfg fuel st fd bp1 h0 h1 h2) (dblk_body cfg fuel st fd bp2 h0 h1 h2) := by
  unfold dblk_body
  simp only
  split
  · exact ⟨rfl, rfl, rfl⟩
  · rename_i hok
    rcases dblk_envelope_rel cfg bp1 bp2 ((h0 * 256 + h1) % 65536 + 1 + cfg.SPACKET_SIZE)
        h0 h1 h2 hl with ⟨a, b⟩ | ⟨e1, e2, a, b, hsame⟩
    · rw [a, b]
      simp only [Outcome.ofOption, Outcome.bind, Outcome.rel]
    · rw [a, b]
      simp only [Outcome.ofOption, Outcome.bind_ret]
      apply Outcome.rel_bind (dblk_payload_rel cfg fuel (1 + cfg.spacket_data_offset)
        ((h0 * 256 + h1) % 65536 - 3) 3 st fd e1 e2 hsame)
      rintro ⟨r1, x, s1, f1⟩ ⟨r2, y, s2, f2⟩ ⟨q1, q2, q3, q4⟩
      simp only at q1 q2 q3 q4
      simp only [Prod.mk.injEq] at q2
      obtain ⟨rfl, rfl⟩ := q2
      subst q1
      simp only
      by_cases hr : r1 = GS_OK
      · have hne : ¬ (r1 ≠ GS_OK) := not_not.mpr hr
        rw [if_neg hne, if_neg hne]
        have hsb := q4 hr
        have hag : dblk_rule cfg x
            { data := 1 + cfg.SPACKET_SIZE,
              len := (h0 * 256 + h1) % 65536 + 1 + cfg.SPACKET_SIZE - 1
                - cfg.spacket_data_offset }
            h2 ((h0 * 256 + h1) % 65536)
            = dblk_rule cfg y
              { data := 1 + cfg.SPACKET_SIZE,
                len := (h0 * 256 + h1) % 65536 + 1 + cfg.SPACKET_SIZE - 1
                  - cfg.spacket_data_offset }
              h2 ((h0 * 256 + h1) % 65536) := by
          apply dblk_rule_agree
          refine ⟨hsb.1, fun j hj1 hj2 => hsb.2 j ?_ ?_⟩
          · simp only at hj1; omega
          · simp only at hj2; omega
        rw [hag]
        apply Outcome.rel_bind_same
        intro r _
        exact ⟨rfl, rfl, rfl⟩
      · rw [if_pos hr, if_pos hr]
        exact ⟨rfl, rfl, rfl⟩

/-- A call of `get_next_dblk` on two buffers of the same size: the two runs end
the same way, with the same status, `*len`, statics and file. -/
theorem get_next_dblk_rel (cfg : Config) (hoff : cfg.spacket_data_offset = cfg.SPACKET_SIZE)
    (fuel : Nat) (st : State) (fd : Source) (bp1 bp2 : List Nat)
    (hl : bp1.length = bp2.length) :
    Outcome.rel
      (fun (a b : gs_rtn_t × Nat × List Nat × State × Source) =>
        a.1 = b.1 ∧ a.2.1 = b.2.1 ∧ a.2.2.2 = b.2.2.2)
      (get_next_dblk cfg fuel st fd bp1) (get_next_dblk cfg fuel st fd bp2) := by
  unfold get_next_dblk
  apply Outcome.rel_bind_same
  rintro ⟨r1, b1, s1, f1⟩ _
  simp only
  split
  · exact ⟨rfl, rfl, rfl⟩
  apply Outcome.rel_bind_same
  intro x0 _
  apply Outcome.rel_bind_same
  rintro ⟨r2, b2, s2, f2⟩ _
  simp only
  split
  · exact ⟨rfl, rfl, rfl⟩
  apply Outcome.rel_bind_same
  intro x1 _
  apply Outcome.rel_bind_same
  rintro ⟨r3, b3, s3, f3⟩ _
  simp only
  split
  · exact ⟨rfl, rfl, rfl⟩
  apply Outcome.rel_bind_same
  intro x2 _
  exact dblk_body_rel cfg hoff fuel s3 f3 bp1 bp2 x0 x1 x2 hl

/-- The sensor case of the `switch` on a block too short to hold the sensor id:
the accessor reads 0 whatever the buffer holds, and the block is rejected. -/
theorem dblk_rule_short_sensor (cfg : Config) (hcfg : cfg.wf) (bp : List Nat) (msg : tmsg_t)
    (len : Nat)
    (hshort : msg.len < cfg.dt_sensor_data_sns_id.offset + cfg.dt_sensor_data_sns_id.size) :
    dblk_rule cfg bp msg cfg.DT_SENSOR_DATA len = .ret GS_BAD_DBLK := by
  have hnd := hcfg.1
  simp only [Config.case_labels, List.nodup_cons, List.mem_cons, List.mem_singleton,
    not_or, List.not_mem_nil, not_false_eq_true, List.nodup_nil, and_true] at hnd
  obtain ⟨⟨_, _, _, n1, _⟩, ⟨_, _, n2, _⟩, ⟨_, n3, _⟩, ⟨n4, _⟩, _⟩ := hnd
  have hrd : tmsg_read bp msg cfg.dt_sensor_data_sns_id = some 0 := by
    unfold tmsg_read
    rw [if_neg (by omega)]
  unfold dblk_rule
  rw [if_neg (Ne.symm n1), if_neg (Ne.symm n2), if_neg (Ne.symm n3), if_neg (Ne.symm n4),
    if_pos rfl, hrd]
  simp [Outcome.ofOption]

/-! ## Theorems on the output buffer and the record layouts -/

/-- C31: for every state, every file and every two output buffers of the same
size, the two calls of `get_next_dblk` end the same way: when one returns, the
other returns the same status, the same `*len`, the same statics and the same
rest of the file; when one calls `exit`, leaves an array or runs out of fuel, so
does the other.  In particular the sensor case of the `switch` on a block too
short to hold the sensor id rejects the block whatever the buffer holds: the
accessor reads 0 for a field that does not fit the message. -/
theorem get_next_dblk_buffer_independent (cfg : Config) (fuel : Nat) (st : State)
    (fd : Source) (bp1 bp2 : List Nat) (hcfg : cfg.wf) (hl : bp1.length = bp2.length) :
    (∀ rtn len b1 st' fd',
      get_next_dblk cfg fuel st fd bp1 = .ret (rtn, len, b1, st', fd') →
      ∃ b2, get_next_dblk cfg fuel st fd bp2 = .ret (rtn, len, b2, st', fd')) ∧
    (∀ c, get_next_dblk cfg fuel st fd bp1 = .exit c →
      get_next_dblk cfg fuel st fd bp2 = .exit c) ∧
    (get_next_dblk cfg fuel st fd bp1 = .oob → get_next_dblk cfg fuel st fd bp2 = .oob) ∧
    (get_next_dblk cfg fuel st fd bp1 = .nofuel →
      get_next_dblk cfg fuel st fd bp2 = .nofuel) ∧
    (∀ (bp : List Nat) (msg : tmsg_t) (len : Nat),
      msg.len < cfg.dt_sensor_data_sns_id.offset + cfg.dt_sensor_data_sns_id.size →
      dblk_rule cfg bp msg cfg.DT_SENSOR_DATA len = .ret GS_BAD_DBLK) := by
  have hrel := get_next_dblk_rel cfg hcfg.2.2 fuel st fd bp1 bp2 hl
  refine ⟨?_, ?_, ?_, ?_, fun bp msg len h => dblk_rule_short_sensor cfg hcfg bp msg len h⟩
  · intro rtn len b1 st' fd' h
    rw [h] at hrel
    cases h2 : get_next_dblk cfg fuel st fd bp2 with
    | ret a =>
      rw [h2] at hrel
      obtain ⟨r2, l2, b2, s2, f2⟩ := a
      obtain ⟨q1, q2, q3⟩ := hrel
      simp only at q1 q2 q3
      simp only [Prod.mk.injEq] at q3
      exact ⟨b2, by rw [q1, q2, q3.1, q3.2]⟩
    | exit c => rw [h2] at hrel; exact hrel.elim
    | oob => rw [h2] at hrel; exact hrel.elim
    | nofuel => rw [h2] at hrel; exact hrel.elim
  · intro c h
    rw [h] at hrel
    cases h2 : get_next_dblk cfg fuel st fd bp2 with
    | ret a => rw [h2] at hrel; exact hrel.elim
    | exit d =>
      rw [h2] at hrel
      have : c = d := hrel
      rw [this]
    | oob => rw [h2] at hrel; exact hrel.elim
    | nofuel => rw [h2] at hrel; exact hrel.elim
  · intro h
    rw [h] at hrel
    cases h2 : get_next_dblk cfg fuel st fd bp2 with
    | ret a => rw [h2] at hrel; exact hrel.elim
    | exit d => rw [h2] at hrel; exact hrel.elim
    | oob => rfl
    | nofuel => rw [h2] at hrel; exact hrel.elim
  · intro h
    rw [h] at hrel
    cases h2 : get_next_dblk cfg fuel st fd bp2 with
    | ret a => rw [h2] at hrel; exact hrel.elim
    | exit d => rw [h2] at hrel; exact hrel.elim
    | oob => rw [h2] at hrel; exact hrel.elim
    | nofuel => rfl

set_option maxRecDepth 1000000 in
theorem get_next_dblk_buffer_independent_witness :
    (∃ b2, get_next_dblk sample_cfg 0 State.init [.bytes (mk_sector sample_short_sensor 0)]
        (List.replicate 11 0xee)
      = .ret (GS_BAD_DBLK, 11, b2, State.at_offset (mk_sector sample_short_sensor 0) 0 3, [])) ∧
    dblk_rule sample_cfg (List.replicate 11 0xee) { data := 8, len := 3 }
      sample_cfg.DT_SENSOR_DATA 3 = .ret GS_BAD_DBLK :=
  ⟨(get_next_dblk_buffer_independent sample_cfg 0 State.init
      [.bytes (mk_sector sample_short_sensor 0)] (List.replicate 11 0) (List.replicate 11 0xee)
      (by decide) (by decide)).1
      GS_BAD_DBLK 11 ([0, 255, 255, 0, 0, 11, 0, 33] ++ sample_short_sensor)
      (State.at_offset (mk_sector sample_short_sensor 0) 0 3) [] (by decide),
   (get_next_dblk_buffer_independent sample_cfg 0 State.init
      [.bytes (mk_sector sample_short_sensor 0)] (List.replicate 11 0) (List.replicate 11 0xee)
      (by decide) (by decide)).2.2.2.2
      (List.replicate 11 0xee) { data := 8, len := 3 } 3 (by decide)⟩

/-- C32: in `dt_sync_t` and in `dt_reboot_t`, both `PACKED`, the field
`sync_majik` lies at the same byte offset from the start of the record,
whatever the sizes of `dtype_t` and `datetime_t`: the first eight fields of
`dt_reboot_t` are the fields of `dt_sync_t`, of which `sync_majik` is the last.
So a record of either type that starts at `start` has its majik at
`start + offset`, and backing up by that one offset gives `start`.  With the
sizes the comments of the header give (2 and 10 bytes) the offset is 32 and the
structures are 36 and 44 bytes long, as their comments say. -/
theorem sync_majik_same_offset (sz : type_sizes) (start : Nat) :
    offsetof sz dt_sync_t .sync_majik = offsetof sz dt_reboot_t .sync_majik ∧
    offsetof sz dt_sync_t .sync_majik = some (20 + sz.dtype_t + sz.datetime_t) ∧
    dt_reboot_t.take 8 = dt_sync_t ∧
    dt_sync_t.getLast? = some (.sync_majik, .uint32_t) ∧
    backed_up sz dt_sync_t start = some start ∧
    backed_up sz dt_reboot_t start = some start ∧
    offsetof { dtype_t := 2, datetime_t := 10 } dt_sync_t .sync_majik = some 32 ∧
    sizeof { dtype_t := 2, datetime_t := 10 } dt_sync_t = 36 ∧
    sizeof { dtype_t := 2, datetime_t := 10 } dt_reboot_t = 44 := by
  have hs : offsetof sz dt_sync_t .sync_majik = some (20 + sz.dtype_t + sz.datetime_t) := by
    simp only [offsetof, dt_sync_t, ctype.size, reduceCtorEq, if_false, if_true,
      Option.map_some']
    congr 1
    omega
  have hr : offsetof sz dt_reboot_t .sync_majik = some (20 + sz.dtype_t + sz.datetime_t) := by
    simp only [offsetof, dt_reboot_t, ctype.size, reduceCtorEq, if_false, if_true,
      Option.map_some']
    congr 1
    omega
  refine ⟨by rw [hs, hr], hs, rfl, rfl, ?_, ?_, by decide, by decide, by decide⟩
  · simp only [backed_up, hs, Option.some_bind, Option.map_some']
    congr 1
    omega
  · simp only [backed_up, hs, hr, Option.some_bind, Option.map_some']
    congr 1
    omega

end MM
